import Mathlib

/-!
# Calculateur de baies non protégées

A shallow embedding of `script.js` (class `CalculateurBaiesNonProtegees`) and the
properties of its table lookup, two-stage interpolation and conformity check.

Modelling conventions.
* JavaScript numbers are rationals (`ℚ`). The table lookup and the interpolation are
  modelled in exact arithmetic. The two quotients whose divisor the code leaves
  unguarded (line 505 of `determinerCategorieRapportLH`, line 864 of
  `verifierConformiteFacade`) are modelled as the runtime computes them, in binary64: a
  `Flottant` is the stored value, the exact result rounded to nearest with ties to
  even, `Infinity`, `-Infinity` or `NaN`.
* A JavaScript object with numeric keys is an association list in the order of the
  literal; `Object.keys(o).map(Number).sort((a, b) => a - b)` is `cles o`.
* A value read from a table is a `Valeur`: a number, `undefined` or `NaN`; a
  `TypeError` thrown by the runtime is `Except.error Erreur.typeError`.
-/

namespace CalculateurBaiesNonProtegees

/-- The only exception the code can raise: reading a property of `undefined`
(`Object.keys(undefined)`). -/
inductive Erreur where
  | typeError
  deriving DecidableEq, Repr

/-- A JavaScript value in a position where the code expects a number. -/
inductive Valeur where
  | nombre (q : ℚ)
  | indefini
  | nan
  deriving DecidableEq, Repr

/-- Equality of results is decidable, so that concrete calls can be evaluated. -/
instance {ε α : Type} [DecidableEq ε] [DecidableEq α] : DecidableEq (Except ε α)
  | .ok a, .ok b => decidable_of_iff (a = b) (by simp)
  | .error a, .error b => decidable_of_iff (a = b) (by simp)
  | .ok _, .error _ => isFalse (by simp)
  | .error _, .ok _ => isFalse (by simp)

namespace Valeur

/-- JavaScript `+` on number-or-undefined operands: `undefined` and `NaN` give `NaN`. -/
def add : Valeur → Valeur → Valeur
  | nombre a, nombre b => nombre (a + b)
  | _, _ => nan

/-- JavaScript `-`. -/
def sub : Valeur → Valeur → Valeur
  | nombre a, nombre b => nombre (a - b)
  | _, _ => nan

/-- JavaScript `*`. -/
def mul : Valeur → Valeur → Valeur
  | nombre a, nombre b => nombre (a * b)
  | _, _ => nan

instance : Add Valeur := ⟨add⟩
instance : Sub Valeur := ⟨sub⟩
instance : Mul Valeur := ⟨mul⟩

/-- The result of a property read `o[k]`: the stored number, or `undefined`. -/
def lire : Option ℚ → Valeur
  | some q => nombre q
  | none => indefini

end Valeur

/-- One row of a table: the object literal mapping a limiting distance to a percentage. -/
abbrev Ligne := List (ℚ × ℚ)

/-- A two-level table (D, E, or one aspect-ratio category of B, C): area to row. -/
abbrev TableauDE := List (ℚ × Ligne)

/-- A three-level table (B, C): aspect-ratio category to two-level table. -/
abbrev TableauBC := List (String × TableauDE)

/-- The sorted numeric keys of an object:
`Object.keys(o).map(Number).sort((a, b) => a - b)`. -/
def cles {β : Type} (o : List (ℚ × β)) : List ℚ :=
  (o.map Prod.fst).insertionSort (· ≤ ·)

/-- Tableau 3.2.3.1-B as built by initialiserTableau3231B: category, then area, then
distance, each object literal in the order of the source. -/
def initialiserTableau3231B : TableauBC :=
  [
    ("< 3:1", [
      (10, [(0, 0), (1.2, 8), (1.5, 10), (2.0, 18), (2.5, 29), (3, 46), (4, 91), (5, 100)]),
      (15, [(0, 0), (1.2, 7), (1.5, 9), (2.0, 14), (2.5, 22), (3, 33), (4, 63), (5, 100)]),
      (20, [(0, 0), (1.2, 7), (1.5, 9), (2.0, 12), (2.5, 18), (3, 26), (4, 49), (5, 81), (6, 100)]),
      (25, [(0, 0), (1.2, 7), (1.5, 8), (2.0, 11), (2.5, 16), (3, 23), (4, 41), (5, 66), (6, 98), (7, 100)]),
      (30, [(0, 0), (1.2, 7), (1.5, 8), (2.0, 11), (2.5, 15), (3, 20), (4, 35), (5, 56), (6, 83), (7, 100)]),
      (40, [(0, 0), (1.2, 7), (1.5, 8), (2.0, 10), (2.5, 13), (3, 17), (4, 28), (5, 44), (6, 64), (7, 89), (8, 100)]),
      (50, [(0, 0), (1.2, 7), (1.5, 8), (2.0, 9), (2.5, 12), (3, 15), (4, 24), (5, 37), (6, 53), (7, 72), (8, 96), (9, 100)]),
      (60, [(0, 0), (1.2, 7), (1.5, 8), (2.0, 9), (2.5, 11), (3, 14), (4, 21), (5, 32), (6, 45), (7, 62), (8, 81), (9, 100)]),
      (80, [(0, 0), (1.2, 7), (1.5, 7), (2.0, 8), (2.5, 10), (3, 12), (4, 18), (5, 26), (6, 36), (7, 48), (8, 62), (9, 79), (10, 98), (11, 100)]),
      (100, [(0, 0), (1.2, 7), (1.5, 7), (2.0, 8), (2.5, 9), (3, 11), (4, 16), (5, 22), (6, 30), (7, 40), (8, 51), (9, 65), (10, 80), (11, 97), (12, 100)]),
      (150, [(0, 0), (1.2, 7), (1.5, 7), (2.0, 8), (2.5, 9), (3, 10), (4, 13), (5, 17), (6, 22), (7, 29), (8, 37), (9, 46), (10, 56), (11, 67), (12, 79), (13, 93), (14, 100)]),
      (250, [(0, 0), (1.2, 7), (1.5, 7), (2.0, 7), (2.5, 8), (3, 9), (4, 10), (5, 13), (6, 16), (7, 20), (8, 25), (9, 30), (10, 36), (11, 43), (12, 51), (13, 59), (14, 68), (16, 87), (18, 100)]),
      (350, [(0, 0), (1.2, 7), (1.5, 7), (2.0, 7), (2.5, 8), (3, 8), (4, 9), (5, 11), (6, 14), (7, 16), (8, 20), (9, 24), (10, 28), (11, 33), (12, 38), (13, 44), (14, 50), (16, 64), (18, 81), (20, 99), (25, 100)]),
      (500, [(0, 0), (1.2, 7), (1.5, 7), (2.0, 7), (2.5, 7), (3, 8), (4, 9), (5, 10), (6, 12), (7, 14), (8, 16), (9, 19), (10, 22), (11, 25), (12, 29), (13, 33), (14, 37), (16, 47), (18, 59), (20, 71), (25, 100)]),
      (1000, [(0, 0), (1.2, 7), (1.5, 7), (2.0, 7), (2.5, 7), (3, 7), (4, 8), (5, 9), (6, 9), (7, 10), (8, 12), (9, 13), (10, 14), (11, 16), (12, 18), (13, 20), (14, 22), (16, 27), (18, 33), (20, 39), (25, 58), (30, 82), (35, 100)]),
      (2000, [(0, 0), (1.2, 7), (1.5, 7), (2.0, 7), (2.5, 7), (3, 7), (4, 7), (5, 8), (6, 8), (7, 9), (8, 9), (9, 10), (10, 11), (11, 12), (12, 13), (13, 14), (14, 15), (16, 17), (18, 20), (20, 23), (25, 33), (30, 44), (35, 58), (40, 74), (45, 93), (50, 100)])]),
    ("3:1 à 10:1", [
      (10, [(0, 0), (1.2, 8), (1.5, 12), (2.0, 21), (2.5, 33), (3, 50), (4, 96), (5, 100)]),
      (15, [(0, 0), (1.2, 8), (1.5, 10), (2.0, 17), (2.5, 25), (3, 37), (4, 67), (5, 100)]),
      (20, [(0, 0), (1.2, 8), (1.5, 10), (2.0, 15), (2.5, 21), (3, 30), (4, 53), (5, 85), (6, 100)]),
      (25, [(0, 0), (1.2, 8), (1.5, 9), (2.0, 13), (2.5, 19), (3, 26), (4, 45), (5, 70), (6, 100)]),
      (30, [(0, 0), (1.2, 7), (1.5, 9), (2.0, 12), (2.5, 17), (3, 23), (4, 39), (5, 61), (6, 88), (7, 100)]),
      (40, [(0, 0), (1.2, 7), (1.5, 8), (2.0, 11), (2.5, 15), (3, 20), (4, 32), (5, 48), (6, 69), (7, 93), (8, 100)]),
      (50, [(0, 0), (1.2, 7), (1.5, 8), (2.0, 10), (2.5, 14), (3, 18), (4, 28), (5, 41), (6, 57), (7, 77), (8, 100)]),
      (60, [(0, 0), (1.2, 7), (1.5, 8), (2.0, 10), (2.5, 13), (3, 16), (4, 25), (5, 36), (6, 49), (7, 66), (8, 85), (9, 100)]),
      (80, [(0, 0), (1.2, 7), (1.5, 8), (2.0, 9), (2.5, 11), (3, 14), (4, 21), (5, 29), (6, 40), (7, 52), (8, 67), (9, 84), (10, 100)]),
      (100, [(0, 0), (1.2, 7), (1.5, 8), (2.0, 9), (2.5, 11), (3, 13), (4, 18), (5, 25), (6, 34), (7, 44), (8, 56), (9, 69), (10, 84), (11, 100)]),
      (150, [(0, 0), (1.2, 7), (1.5, 7), (2.0, 8), (2.5, 10), (3, 11), (4, 15), (5, 20), (6, 26), (7, 33), (8, 41), (9, 50), (10, 60), (11, 71), (12, 84), (13, 97), (14, 100)]),
      (250, [(0, 0), (1.2, 7), (1.5, 7), (2.0, 8), (2.5, 9), (3, 10), (4, 12), (5, 15), (6, 19), (7, 24), (8, 28), (9, 34), (10, 40), (11, 47), (12, 55), (13, 63), (14, 72), (16, 92), (18, 100)]),
      (350, [(0, 0), (1.2, 7), (1.5, 7), (2.0, 8), (2.5, 8), (3, 9), (4, 11), (5, 13), (6, 16), (7, 19), (8, 23), (9, 27), (10, 32), (11, 37), (12, 42), (13, 48), (14, 55), (16, 69), (18, 85), (20, 100)]),
      (500, [(0, 0), (1.2, 7), (1.5, 7), (2.0, 7), (2.5, 8), (3, 8), (4, 10), (5, 12), (6, 14), (7, 16), (8, 19), (9, 22), (10, 25), (11, 29), (12, 33), (13, 37), (14, 41), (16, 52), (18, 63), (20, 76), (25, 100)]),
      (1000, [(0, 0), (1.2, 7), (1.5, 7), (2.0, 7), (2.5, 7), (3, 8), (4, 9), (5, 10), (6, 11), (7, 12), (8, 14), (9, 15), (10, 17), (11, 19), (12, 21), (13, 23), (14, 26), (16, 31), (18, 37), (20, 43), (25, 63), (30, 86), (35, 100)]),
      (2000, [(0, 0), (1.2, 7), (1.5, 7), (2.0, 7), (2.5, 7), (3, 7), (4, 8), (5, 8), (6, 9), (7, 10), (8, 11), (9, 12), (10, 13), (11, 14), (12, 15), (13, 16), (14, 17), (16, 20), (18, 23), (20, 27), (25, 37), (30, 49), (35, 63), (40, 79), (45, 97), (50, 100)])]),
    ("> 10:1", [
      (10, [(0, 0), (1.2, 11), (1.5, 18), (2.0, 32), (2.5, 48), (3, 68), (4, 100)]),
      (15, [(0, 0), (1.2, 10), (1.5, 15), (2.0, 26), (2.5, 39), (3, 53), (4, 87), (5, 100)]),
      (20, [(0, 0), (1.2, 9), (1.5, 14), (2.0, 23), (2.5, 33), (3, 45), (4, 72), (5, 100)]),
      (25, [(0, 0), (1.2, 9), (1.5, 13), (2.0, 21), (2.5, 30), (3, 39), (4, 62), (5, 90), (6, 100)]),
      (30, [(0, 0), (1.2, 8), (1.5, 12), (2.0, 19), (2.5, 27), (3, 36), (4, 56), (5, 79), (6, 100)]),
      (40, [(0, 0), (1.2, 8), (1.5, 11), (2.0, 17), (2.5, 24), (3, 31), (4, 47), (5, 66), (6, 88), (7, 100)]),
      (50, [(0, 0), (1.2, 8), (1.5, 10), (2.0, 15), (2.5, 21), (3, 28), (4, 41), (5, 57), (6, 76), (7, 97), (8, 100)]),
      (60, [(0, 0), (1.2, 8), (1.5, 10), (2.0, 14), (2.5, 20), (3, 25), (4, 38), (5, 51), (6, 67), (7, 85), (8, 100)]),
      (80, [(0, 0), (1.2, 8), (1.5, 9), (2.0, 13), (2.5, 17), (3, 22), (4, 32), (5, 44), (6, 56), (7, 70), (8, 86), (9, 100)]),
      (100, [(0, 0), (1.2, 7), (1.5, 9), (2.0, 12), (2.5, 16), (3, 20), (4, 29), (5, 39), (6, 49), (7, 61), (8, 74), (9, 89), (10, 100)]),
      (150, [(0, 0), (1.2, 7), (1.5, 8), (2.0, 11), (2.5, 13), (3, 17), (4, 24), (5, 31), (6, 39), (7, 48), (8, 57), (9, 68), (10, 79), (11, 91), (12, 100)]),
      (250, [(0, 0), (1.2, 7), (1.5, 8), (2.0, 9), (2.5, 11), (3, 14), (4, 19), (5, 24), (6, 30), (7, 36), (8, 43), (9, 50), (10, 57), (11, 65), (12, 73), (13, 82), (14, 92), (16, 100)]),
      (350, [(0, 0), (1.2, 7), (1.5, 8), (2.0, 9), (2.5, 10), (3, 12), (4, 16), (5, 21), (6, 25), (7, 30), (8, 36), (9, 41), (10, 47), (11, 53), (12, 59), (13, 66), (14, 73), (16, 88), (18, 100)]),
      (500, [(0, 0), (1.2, 7), (1.5, 7), (2.0, 8), (2.5, 9), (3, 11), (4, 14), (5, 18), (6, 22), (7, 25), (8, 30), (9, 34), (10, 38), (11, 43), (12, 48), (13, 53), (14, 58), (16, 70), (18, 82), (20, 96), (25, 100)]),
      (1000, [(0, 0), (1.2, 7), (1.5, 7), (2.0, 8), (2.5, 8), (3, 9), (4, 11), (5, 13), (6, 16), (7, 19), (8, 21), (9, 24), (10, 27), (11, 30), (12, 33), (13, 36), (14, 39), (16, 46), (18, 53), (20, 60), (25, 82), (30, 100)]),
      (2000, [(0, 0), (1.2, 7), (1.5, 7), (2.0, 7), (2.5, 8), (3, 8), (4, 9), (5, 11), (6, 12), (7, 14), (8, 16), (9, 18), (10, 19), (11, 21), (12, 23), (13, 25), (14, 27), (16, 32), (18, 36), (20, 40), (25, 53), (30, 66), (35, 82), (40, 99), (45, 100)])])
  ]

/-- Tableau 3.2.3.1-C as built by initialiserTableau3231C: category, then area, then
distance, each object literal in the order of the source. -/
def initialiserTableau3231C : TableauBC :=
  [
    ("< 3:1", [
      (10, [(0, 0), (1.2, 4), (1.5, 5), (2.0, 9), (2.5, 15), (3, 23), (4, 46), (5, 77), (6, 100)]),
      (15, [(0, 0), (1.2, 4), (1.5, 5), (2.0, 7), (2.5, 11), (3, 16), (4, 32), (5, 53), (6, 79), (7, 100)]),
      (20, [(0, 0), (1.2, 4), (1.5, 4), (2.0, 6), (2.5, 9), (3, 13), (4, 25), (5, 40), (6, 61), (7, 85), (8, 100)]),
      (25, [(0, 0), (1.2, 4), (1.5, 4), (2.0, 6), (2.5, 8), (3, 11), (4, 20), (5, 33), (6, 49), (7, 69), (8, 92), (9, 100)]),
      (30, [(0, 0), (1.2, 4), (1.5, 4), (2.0, 5), (2.5, 7), (3, 10), (4, 18), (5, 28), (6, 42), (7, 58), (8, 77), (9, 100)]),
      (40, [(0, 0), (1.2, 4), (1.5, 4), (2.0, 5), (2.5, 6), (3, 8), (4, 14), (5, 22), (6, 32), (7, 44), (8, 59), (9, 76), (10, 94), (11, 100)]),
      (50, [(0, 0), (1.2, 4), (1.5, 4), (2.0, 5), (2.5, 6), (3, 7), (4, 12), (5, 18), (6, 26), (7, 36), (8, 48), (9, 61), (10, 76), (11, 93), (12, 100)]),
      (60, [(0, 0), (1.2, 4), (1.5, 4), (2.0, 4), (2.5, 5), (3, 7), (4, 11), (5, 16), (6, 23), (7, 31), (8, 40), (9, 52), (10, 64), (11, 78), (12, 94), (13, 100)]),
      (80, [(0, 0), (1.2, 4), (1.5, 4), (2.0, 4), (2.5, 5), (3, 6), (4, 9), (5, 13), (6, 18), (7, 24), (8, 31), (9, 40), (10, 49), (11, 60), (12, 71), (13, 84), (14, 98), (15, 100)]),
      (100, [(0, 0), (1.2, 4), (1.5, 4), (2.0, 4), (2.5, 5), (3, 5), (4, 8), (5, 11), (6, 15), (7, 20), (8, 26), (9, 32), (10, 40), (11, 48), (12, 58), (13, 68), (14, 79), (15, 100)]),
      (150, [(0, 0), (1.2, 4), (1.5, 4), (2.0, 4), (2.5, 4), (3, 5), (4, 6), (5, 8), (6, 11), (7, 14), (8, 18), (9, 23), (10, 28), (11, 33), (12, 40), (13, 46), (14, 54), (16, 70), (18, 89), (20, 100)]),
      (250, [(0, 0), (1.2, 4), (1.5, 4), (2.0, 4), (2.5, 4), (3, 4), (4, 5), (5, 7), (6, 8), (7, 10), (8, 12), (9, 15), (10, 18), (11, 22), (12, 25), (13, 29), (14, 34), (16, 44), (18, 55), (20, 68), (25, 100)]),
      (350, [(0, 0), (1.2, 4), (1.5, 4), (2.0, 4), (2.5, 4), (3, 4), (4, 5), (5, 6), (6, 7), (7, 8), (8, 10), (9, 12), (10, 14), (11, 16), (12, 19), (13, 22), (14, 25), (16, 32), (18, 40), (20, 49), (25, 77), (30, 100)]),
      (500, [(0, 0), (1.2, 4), (1.5, 4), (2.0, 4), (2.5, 4), (3, 4), (4, 4), (5, 5), (6, 6), (7, 7), (8, 8), (9, 9), (10, 11), (11, 12), (12, 14), (13, 16), (14, 18), (16, 24), (18, 29), (20, 36), (25, 55), (30, 78), (35, 100)]),
      (1000, [(0, 0), (1.2, 4), (1.5, 4), (2.0, 4), (2.5, 4), (3, 4), (4, 4), (5, 4), (6, 5), (7, 5), (8, 6), (9, 6), (10, 7), (11, 8), (12, 9), (13, 10), (14, 11), (16, 14), (18, 16), (20, 20), (25, 29), (30, 41), (35, 55), (40, 71), (45, 89), (50, 100)]),
      (2000, [(0, 0), (1.2, 4), (1.5, 4), (2.0, 4), (2.5, 4), (3, 4), (4, 4), (5, 4), (6, 4), (7, 4), (8, 5), (9, 5), (10, 5), (11, 6), (12, 6), (13, 7), (14, 7), (16, 9), (18, 10), (20, 12), (25, 16), (30, 22), (35, 29), (40, 37), (45, 46), (50, 56), (55, 68), (60, 80), (65, 94), (70, 100)])]),
    ("3:1 à 10:1", [
      (10, [(0, 0), (1.2, 4), (1.5, 6), (2.0, 10), (2.5, 17), (3, 25), (4, 48), (5, 79), (6, 100)]),
      (15, [(0, 0), (1.2, 4), (1.5, 5), (2.0, 8), (2.5, 13), (3, 18), (4, 34), (5, 55), (6, 82), (7, 100)]),
      (20, [(0, 0), (1.2, 4), (1.5, 5), (2.0, 7), (2.5, 11), (3, 15), (4, 27), (5, 43), (6, 63), (7, 87), (8, 100)]),
      (25, [(0, 0), (1.2, 4), (1.5, 5), (2.0, 7), (2.5, 9), (3, 13), (4, 22), (5, 35), (6, 51), (7, 71), (8, 94), (9, 100)]),
      (30, [(0, 0), (1.2, 4), (1.5, 4), (2.0, 6), (2.5, 9), (3, 12), (4, 20), (5, 30), (6, 44), (7, 60), (8, 80), (9, 100)]),
      (40, [(0, 0), (1.2, 4), (1.5, 4), (2.0, 6), (2.5, 8), (3, 10), (4, 16), (5, 24), (6, 34), (7, 47), (8, 61), (9, 78), (10, 97), (11, 100)]),
      (50, [(0, 0), (1.2, 4), (1.5, 4), (2.0, 5), (2.5, 7), (3, 9), (4, 14), (5, 20), (6, 29), (7, 38), (8, 50), (9, 63), (10, 79), (11, 95), (12, 100)]),
      (60, [(0, 0), (1.2, 4), (1.5, 4), (2.0, 5), (2.5, 6), (3, 8), (4, 12), (5, 18), (6, 25), (7, 33), (8, 43), (9, 54), (10, 66), (11, 81), (12, 96), (13, 100)]),
      (80, [(0, 0), (1.2, 4), (1.5, 4), (2.0, 5), (2.5, 6), (3, 7), (4, 10), (5, 15), (6, 20), (7, 26), (8, 33), (9, 42), (10, 51), (11, 62), (12, 74), (13, 86), (14, 100)]),
      (100, [(0, 0), (1.2, 4), (1.5, 4), (2.0, 4), (2.5, 5), (3, 6), (4, 9), (5, 13), (6, 17), (7, 22), (8, 28), (9, 35), (10, 42), (11, 51), (12, 60), (13, 70), (14, 81), (15, 100)]),
      (150, [(0, 0), (1.2, 4), (1.5, 4), (2.0, 4), (2.5, 5), (3, 6), (4, 8), (5, 10), (6, 13), (7, 16), (8, 20), (9, 25), (10, 30), (11, 36), (12, 42), (13, 49), (14, 56), (16, 73), (18, 92), (20, 100)]),
      (250, [(0, 0), (1.2, 4), (1.5, 4), (2.0, 4), (2.5, 4), (3, 5), (4, 6), (5, 8), (6, 10), (7, 12), (8, 14), (9, 17), (10, 20), (11, 24), (12, 27), (13, 32), (14, 36), (16, 46), (18, 57), (20, 70), (25, 100)]),
      (350, [(0, 0), (1.2, 4), (1.5, 4), (2.0, 4), (2.5, 4), (3, 4), (4, 5), (5, 7), (6, 8), (7, 10), (8, 12), (9, 14), (10, 16), (11, 18), (12, 21), (13, 24), (14, 27), (16, 34), (18, 43), (20, 52), (25, 79), (30, 100)]),
      (500, [(0, 0), (1.2, 4), (1.5, 4), (2.0, 4), (2.5, 4), (3, 4), (4, 5), (5, 6), (6, 7), (7, 8), (8, 9), (9, 11), (10, 13), (11, 14), (12, 16), (13, 18), (14, 20), (16, 26), (18, 31), (20, 38), (25, 57), (30, 80), (35, 100)]),
      (1000, [(0, 0), (1.2, 4), (1.5, 4), (2.0, 4), (2.5, 4), (3, 4), (4, 4), (5, 5), (6, 5), (7, 6), (8, 7), (9, 8), (10, 9), (11, 10), (12, 11), (13, 12), (14, 13), (16, 15), (18, 18), (20, 22), (25, 31), (30, 43), (35, 57), (40, 73), (45, 91), (50, 100)]),
      (2000, [(0, 0), (1.2, 4), (1.5, 4), (2.0, 4), (2.5, 4), (3, 4), (4, 4), (5, 4), (6, 5), (7, 5), (8, 5), (9, 6), (10, 6), (11, 7), (12, 7), (13, 8), (14, 9), (16, 10), (18, 12), (20, 13), (25, 18), (30, 24), (35, 31), (40, 39), (45, 49), (50, 59), (55, 70), (60, 83), (65, 96), (70, 100)])]),
    ("> 10:1", [
      (10, [(0, 0), (1.2, 5), (1.5, 9), (2.0, 16), (2.5, 24), (3, 34), (4, 58), (5, 91), (6, 100)]),
      (15, [(0, 0), (1.2, 5), (1.5, 8), (2.0, 13), (2.5, 19), (3, 26), (4, 43), (5, 66), (6, 93), (7, 100)]),
      (20, [(0, 0), (1.2, 5), (1.5, 7), (2.0, 11), (2.5, 17), (3, 22), (4, 36), (5, 53), (6, 74), (7, 99), (8, 100)]),
      (25, [(0, 0), (1.2, 4), (1.5, 6), (2.0, 10), (2.5, 15), (3, 20), (4, 31), (5, 45), (6, 62), (7, 82), (8, 100)]),
      (30, [(0, 0), (1.2, 4), (1.5, 6), (2.0, 10), (2.5, 14), (3, 18), (4, 28), (5, 40), (6, 54), (7, 71), (8, 91), (9, 100)]),
      (40, [(0, 0), (1.2, 4), (1.5, 5), (2.0, 8), (2.5, 12), (3, 15), (4, 23), (5, 33), (6, 44), (7, 57), (8, 72), (9, 89), (10, 100)]),
      (50, [(0, 0), (1.2, 4), (1.5, 5), (2.0, 8), (2.5, 11), (3, 14), (4, 21), (5, 29), (6, 38), (7, 48), (8, 61), (9, 74), (10, 90), (11, 100)]),
      (60, [(0, 0), (1.2, 4), (1.5, 5), (2.0, 7), (2.5, 10), (3, 13), (4, 19), (5, 26), (6, 34), (7, 43), (8, 53), (9, 64), (10, 77), (11, 92), (12, 100)]),
      (80, [(0, 0), (1.2, 4), (1.5, 5), (2.0, 6), (2.5, 9), (3, 11), (4, 16), (5, 22), (6, 28), (7, 35), (8, 43), (9, 52), (10, 62), (11, 73), (12, 85), (13, 98), (14, 100)]),
      (100, [(0, 0), (1.2, 4), (1.5, 4), (2.0, 6), (2.5, 8), (3, 10), (4, 14), (5, 19), (6, 25), (7, 31), (8, 37), (9, 44), (10, 52), (11, 61), (12, 71), (13, 81), (14, 92), (15, 100)]),
      (150, [(0, 0), (1.2, 4), (1.5, 4), (2.0, 5), (2.5, 7), (3, 8), (4, 12), (5, 16), (6, 20), (7, 24), (8, 29), (9, 34), (10, 39), (11, 46), (12, 52), (13, 59), (14, 67), (16, 84), (18, 100)]),
      (250, [(0, 0), (1.2, 4), (1.5, 4), (2.0, 5), (2.5, 6), (3, 7), (4, 9), (5, 12), (6, 15), (7, 18), (8, 21), (9, 25), (10, 28), (11, 32), (12, 37), (13, 41), (14, 46), (16, 56), (18, 68), (20, 81), (25, 100)]),
      (350, [(0, 0), (1.2, 4), (1.5, 4), (2.0, 4), (2.5, 5), (3, 6), (4, 8), (5, 10), (6, 13), (7, 15), (8, 18), (9, 21), (10, 23), (11, 26), (12, 30), (13, 33), (14, 36), (16, 44), (18, 53), (20, 62), (25, 90), (30, 100)]),
      (500, [(0, 0), (1.2, 4), (1.5, 4), (2.0, 4), (2.5, 5), (3, 5), (4, 7), (5, 9), (6, 11), (7, 13), (8, 15), (9, 17), (10, 19), (11, 21), (12, 24), (13, 26), (14, 29), (16, 35), (18, 41), (20, 48), (25, 68), (30, 92), (35, 100)]),
      (1000, [(0, 0), (1.2, 4), (1.5, 4), (2.0, 4), (2.5, 4), (3, 5), (4, 6), (5, 7), (6, 8), (7, 9), (8, 11), (9, 12), (10, 13), (11, 15), (12, 16), (13, 18), (14, 20), (16, 23), (18, 26), (20, 30), (25, 41), (30, 53), (35, 68), (40, 84), (45, 100)]),
      (2000, [(0, 0), (1.2, 4), (1.5, 4), (2.0, 4), (2.5, 4), (3, 4), (4, 5), (5, 5), (6, 6), (7, 7), (8, 8), (9, 9), (10, 10), (11, 11), (12, 12), (13, 13), (14, 14), (16, 16), (18, 18), (20, 20), (25, 26), (30, 33), (35, 41), (40, 50), (45, 59), (50, 70), (55, 81), (60, 94), (65, 100)])])
  ]

/-- Tableau 3.2.3.1-D as built by initialiserTableau3231D: area, then distance. -/
def initialiserTableau3231D : TableauDE :=
  [
    (10, [(0, 0), (1.2, 16), (1.5, 24), (2.0, 42), (2.5, 66), (3, 100)]),
    (15, [(0, 0), (1.2, 16), (1.5, 20), (2.0, 34), (2.5, 50), (3, 74), (4, 100)]),
    (20, [(0, 0), (1.2, 16), (1.5, 20), (2.0, 30), (2.5, 42), (3, 60), (4, 100)]),
    (25, [(0, 0), (1.2, 14), (1.5, 18), (2.0, 26), (2.5, 38), (3, 52), (4, 90), (5, 100)]),
    (30, [(0, 0), (1.2, 14), (1.5, 18), (2.0, 24), (2.5, 34), (3, 46), (4, 78), (5, 100)]),
    (40, [(0, 0), (1.2, 14), (1.5, 16), (2.0, 22), (2.5, 30), (3, 40), (4, 64), (5, 96), (6, 100)]),
    (50, [(0, 0), (1.2, 14), (1.5, 16), (2.0, 20), (2.5, 28), (3, 36), (4, 56), (5, 82), (6, 100)]),
    (60, [(0, 0), (1.2, 14), (1.5, 16), (2.0, 20), (2.5, 26), (3, 32), (4, 50), (5, 72), (6, 98), (7, 100)]),
    (80, [(0, 0), (1.2, 14), (1.5, 16), (2.0, 18), (2.5, 22), (3, 28), (4, 42), (5, 58), (6, 80), (7, 100)]),
    (100, [(0, 0), (1.2, 14), (1.5, 16), (2.0, 18), (2.5, 22), (3, 26), (4, 38), (5, 50), (6, 68), (7, 88), (8, 100)]),
    (150, [(0, 0), (1.2, 14), (1.5, 14), (2.0, 16), (2.5, 20), (3, 22), (4, 30), (5, 40), (6, 52), (7, 66), (8, 82), (9, 100)])
  ]

/-- Tableau 3.2.3.1-E as built by initialiserTableau3231E: area, then distance. -/
def initialiserTableau3231E : TableauDE :=
  [
    (10, [(0, 0), (1.2, 8), (1.5, 12), (2.0, 20), (2.5, 34), (3, 50), (4, 96), (5, 100)]),
    (15, [(0, 0), (1.2, 8), (1.5, 10), (2.0, 16), (2.5, 26), (3, 36), (4, 68), (5, 100)]),
    (20, [(0, 0), (1.2, 8), (1.5, 10), (2.0, 14), (2.5, 22), (3, 30), (4, 54), (5, 86), (6, 100)]),
    (25, [(0, 0), (1.2, 8), (1.5, 10), (2.0, 14), (2.5, 18), (3, 26), (4, 44), (5, 70), (6, 100)]),
    (30, [(0, 0), (1.2, 8), (1.5, 8), (2.0, 12), (2.5, 18), (3, 24), (4, 40), (5, 60), (6, 88), (7, 100)]),
    (40, [(0, 0), (1.2, 8), (1.5, 8), (2.0, 12), (2.5, 16), (3, 20), (4, 32), (5, 48), (6, 68), (7, 94), (8, 100)]),
    (50, [(0, 0), (1.2, 8), (1.5, 8), (2.0, 10), (2.5, 14), (3, 18), (4, 28), (5, 40), (6, 58), (7, 76), (8, 100)]),
    (60, [(0, 0), (1.2, 8), (1.5, 8), (2.0, 10), (2.5, 12), (3, 16), (4, 24), (5, 36), (6, 50), (7, 66), (8, 86), (9, 100)]),
    (80, [(0, 0), (1.2, 8), (1.5, 8), (2.0, 10), (2.5, 12), (3, 14), (4, 20), (5, 30), (6, 40), (7, 52), (8, 66), (9, 84), (10, 100)]),
    (100, [(0, 0), (1.2, 8), (1.5, 8), (2.0, 8), (2.5, 10), (3, 12), (4, 18), (5, 26), (6, 34), (7, 44), (8, 56), (9, 70), (10, 84), (11, 100)]),
    (150, [(0, 0), (1.2, 8), (1.5, 8), (2.0, 8), (2.5, 10), (3, 12), (4, 16), (5, 20), (6, 26), (7, 32), (8, 40), (9, 50), (10, 60), (11, 72), (12, 84), (13, 98), (14, 100)]),
    (200, [(0, 0), (1.2, 8), (1.5, 8), (2.0, 8), (2.5, 8), (3, 10), (4, 14), (5, 18), (6, 22), (7, 28), (8, 34), (9, 42), (10, 50), (11, 60), (12, 68), (13, 80), (14, 92), (15, 100)])
  ]

/-- A binary64 value as the code can observe it: a finite number, `Infinity` or
`-Infinity`, or `NaN`. The sign of zero is not kept: the code only compares these values
and multiplies them. -/
inductive Flottant where
  | fini (q : ℚ)
  | infini (positif : Bool)
  | nan
  deriving DecidableEq, Repr

namespace Flottant

/-- The integer nearest to `q`, the even one when `q` is half-way between two. -/
def arrondiPair (q : ℚ) : ℤ :=
  let bas := ⌊q⌋
  let reste := q - bas
  if reste < 1 / 2 then bas
  else if 1 / 2 < reste then bas + 1
  else if bas % 2 = 0 then bas else bas + 1

/-- The number of binary digits of `n`, by halving at most `reserve` times. -/
def nombreDeBits : ℕ → ℕ → ℕ
  | 0, _ => 0
  | reserve + 1, n => if n = 0 then 0 else nombreDeBits reserve (n / 2) + 1

/-- The binary exponent of a positive rational: the `e` with `2 ^ e ≤ q < 2 ^ (e + 1)`. -/
def exposant (q : ℚ) : ℤ :=
  let e := (nombreDeBits q.num.natAbs q.num.natAbs : ℤ) - (nombreDeBits q.den q.den : ℤ)
  if (2 : ℚ) ^ e ≤ q then e else e - 1

/-- The exponent of the spacing of binary64 values around a non-zero `q`: 52 below the
exponent of `q` (53 significant bits), and never below -1074 (subnormal range). -/
def exposantQuantum (q : ℚ) : ℤ :=
  max (exposant |q| - 52) (-1074)

/-- The binary64 rounding of a rational, before the overflow test: round to nearest, ties
to even, on 53 significant bits, the spacing never going below `2 ^ (-1074)` (subnormal
range). -/
def arrondiBinaire64 (q : ℚ) : ℚ :=
  if q = 0 then 0
  else
    let quantum : ℚ := 2 ^ exposantQuantum q
    arrondiPair (q / quantum) * quantum

/-- The binary64 value the runtime stores for the exact result `q` of an operation: the
rounded value, or an infinity when it reaches `2 ^ 1024`. -/
def binaire64 (q : ℚ) : Flottant :=
  let r := arrondiBinaire64 q
  if (2 : ℚ) ^ (1024 : ℤ) ≤ |r| then infini (decide (0 < q)) else fini r

/-- JavaScript `a / b` on two finite numbers, `arrondi` storing the exact quotient: a
zero divisor gives `NaN` for `0 / 0` and an infinity of the sign of `a` otherwise. -/
def diviser (arrondi : ℚ → Flottant) (a b : ℚ) : Flottant :=
  if b = 0 then
    if a = 0 then nan else infini (decide (0 < a))
  else arrondi (a / b)

/-- JavaScript `x * c` for a finite `c`, `arrondi` storing the exact product. -/
def multiplier (arrondi : ℚ → Flottant) : Flottant → ℚ → Flottant
  | fini q, c => arrondi (q * c)
  | infini positif, c =>
    if c = 0 then nan else infini (if 0 < c then positif else !positif)
  | nan, _ => nan

/-- JavaScript `x < c` for a finite `c`. -/
def lt : Flottant → ℚ → Bool
  | fini q, c => decide (q < c)
  | infini positif, _ => !positif
  | nan, _ => false

/-- JavaScript `x <= c` for a finite `c`. -/
def le : Flottant → ℚ → Bool
  | fini q, c => decide (q ≤ c)
  | infini positif, _ => !positif
  | nan, _ => false

/-- JavaScript `x >= c` for a finite `c`. -/
def ge : Flottant → ℚ → Bool
  | fini q, c => decide (c ≤ q)
  | infini positif, _ => positif
  | nan, _ => false

end Flottant

/-- Lines 504-514. The quotient of line 505 is the binary64 value the runtime stores:
the exact quotient rounded to nearest, or `±Infinity` / `NaN` when `hauteur` is 0. -/
def determinerCategorieRapportLH (largeur hauteur : ℚ) : String :=
  let rapportLH := Flottant.diviser Flottant.binaire64 largeur hauteur
  if rapportLH.lt 3 then "< 3:1"
  else if rapportLH.ge 3 && rapportLH.le 10 then "3:1 à 10:1"
  else "> 10:1"

/-- The `for` loop of lines 579-585 (and of its five copies): the first index `i`
with `plages[i] ≤ valeur ≤ plages[i + 1]`, if any. -/
def boucleEncadrement : List ℚ → ℚ → Option (ℚ × ℚ)
  | a :: b :: reste, valeur =>
    if valeur ≥ a ∧ valeur ≤ b then some (a, b)
    else boucleEncadrement (b :: reste) valeur
  | _, _ => none

/-- The loop followed by its "cas limites" (lines 576-596 and the five copies): the pair
`(inf, sup)`. `none` is the case where both variables end up `undefined`, which
happens exactly when `plages` is empty (`valeur < undefined` is false and
`plages[-1]` is `undefined`). -/
def encadrement (plages : List ℚ) (valeur : ℚ) : Option (ℚ × ℚ) :=
  match boucleEncadrement plages valeur with
  | some r => some r
  | none =>
    match plages.head? with
    | none => none
    | some premier =>
      if valeur < premier then some (premier, premier)
      else (plages.getLast?).map fun dernier => (dernier, dernier)

/-- Lines 838-842. -/
def getPlagesSuperficieDE (tableauReference : TableauDE) : List ℚ :=
  cles tableauReference

/-- Lines 850-854. `superficie` is `none` for `undefined`; `Object.keys` throws when
`tableauReference[superficie]` is `undefined`. -/
def getPlagesDistanceDE (tableauReference : TableauDE) (superficie : Option ℚ) :
    Except Erreur (List ℚ) :=
  match superficie.bind fun s => tableauReference.lookup s with
  | none => .error .typeError
  | some ligne => .ok (cles ligne)

/-- Lines 814-818. `Object.keys` throws when the category is absent. -/
def getPlagesSuperficieBC (tableauReference : TableauBC) (categorieRapportLH : String) :
    Except Erreur (List ℚ) :=
  match tableauReference.lookup categorieRapportLH with
  | none => .error .typeError
  | some t => .ok (cles t)

/-- Lines 827-831. -/
def getPlagesDistanceBC (tableauReference : TableauBC) (categorieRapportLH : String)
    (superficie : Option ℚ) : Except Erreur (List ℚ) :=
  match tableauReference.lookup categorieRapportLH with
  | none => .error .typeError
  | some t =>
    match superficie.bind fun s => t.lookup s with
    | none => .error .typeError
    | some ligne => .ok (cles ligne)

/-- The read `ligne[distance]` of lines 649-652 and 771-774, `distance` being `none`
for `undefined`. -/
def lirePourcentage (ligne : Ligne) (distance : Option ℚ) : Valeur :=
  Valeur.lire (distance.bind fun d => ligne.lookup d)

/-- Lines 693-806. -/
def calculerPourcentageTableauxDE (tableauReference : TableauDE) (surface distance : ℚ) :
    Except Erreur Valeur := do
  let plagesSuperficie := getPlagesSuperficieDE tableauReference
  let superficies := encadrement plagesSuperficie surface
  let superficieInf := superficies.map Prod.fst
  let superficieSup := superficies.map Prod.snd
  let plagesDistanceInf ← getPlagesDistanceDE tableauReference superficieInf
  let plagesDistanceSup ← getPlagesDistanceDE tableauReference superficieSup
  let distancesInf := encadrement plagesDistanceInf distance
  let distanceInfInf := distancesInf.map Prod.fst
  let distanceInfSup := distancesInf.map Prod.snd
  let distancesSup := encadrement plagesDistanceSup distance
  let distanceSupInf := distancesSup.map Prod.fst
  let distanceSupSup := distancesSup.map Prod.snd
  let ligneInf := (superficieInf.bind fun s => tableauReference.lookup s).getD []
  let ligneSup := (superficieSup.bind fun s => tableauReference.lookup s).getD []
  let pourcentageInfInf := lirePourcentage ligneInf distanceInfInf
  let pourcentageInfSup := lirePourcentage ligneInf distanceInfSup
  let pourcentageSupInf := lirePourcentage ligneSup distanceSupInf
  let pourcentageSupSup := lirePourcentage ligneSup distanceSupSup
  let pourcentageDistanceInf :=
    match distanceInfInf, distanceInfSup with
    | some dInf, some dSup =>
      if dInf = dSup then pourcentageInfInf
      else pourcentageInfInf +
        Valeur.nombre ((distance - dInf) / (dSup - dInf)) *
        (pourcentageInfSup - pourcentageInfInf)
    | _, _ => pourcentageInfInf
  let pourcentageDistanceSup :=
    match distanceSupInf, distanceSupSup with
    | some dInf, some dSup =>
      if dInf = dSup then pourcentageSupInf
      else pourcentageSupInf +
        Valeur.nombre ((distance - dInf) / (dSup - dInf)) *
        (pourcentageSupSup - pourcentageSupInf)
    | _, _ => pourcentageSupInf
  let pourcentageFinal :=
    match superficieInf, superficieSup with
    | some sInf, some sSup =>
      if sInf = sSup then pourcentageDistanceInf
      else pourcentageDistanceInf +
        Valeur.nombre ((surface - sInf) / (sSup - sInf)) *
        (pourcentageDistanceSup - pourcentageDistanceInf)
    | _, _ => pourcentageDistanceInf
  return pourcentageFinal

/-- Lines 571-684. -/
def calculerPourcentageTableauxBC (tableauReference : TableauBC) (categorieRapportLH : String)
    (surface distance : ℚ) : Except Erreur Valeur := do
  let plagesSuperficie ← getPlagesSuperficieBC tableauReference categorieRapportLH
  let superficies := encadrement plagesSuperficie surface
  let superficieInf := superficies.map Prod.fst
  let superficieSup := superficies.map Prod.snd
  let plagesDistanceInf ← getPlagesDistanceBC tableauReference categorieRapportLH superficieInf
  let plagesDistanceSup ← getPlagesDistanceBC tableauReference categorieRapportLH superficieSup
  let distancesInf := encadrement plagesDistanceInf distance
  let distanceInfInf := distancesInf.map Prod.fst
  let distanceInfSup := distancesInf.map Prod.snd
  let distancesSup := encadrement plagesDistanceSup distance
  let distanceSupInf := distancesSup.map Prod.fst
  let distanceSupSup := distancesSup.map Prod.snd
  let sousTableau := (tableauReference.lookup categorieRapportLH).getD []
  let ligneInf := (superficieInf.bind fun s => sousTableau.lookup s).getD []
  let ligneSup := (superficieSup.bind fun s => sousTableau.lookup s).getD []
  let pourcentageInfInf := lirePourcentage ligneInf distanceInfInf
  let pourcentageInfSup := lirePourcentage ligneInf distanceInfSup
  let pourcentageSupInf := lirePourcentage ligneSup distanceSupInf
  let pourcentageSupSup := lirePourcentage ligneSup distanceSupSup
  let pourcentageDistanceInf :=
    match distanceInfInf, distanceInfSup with
    | some dInf, some dSup =>
      if dInf = dSup then pourcentageInfInf
      else pourcentageInfInf +
        Valeur.nombre ((distance - dInf) / (dSup - dInf)) *
        (pourcentageInfSup - pourcentageInfInf)
    | _, _ => pourcentageInfInf
  let pourcentageDistanceSup :=
    match distanceSupInf, distanceSupSup with
    | some dInf, some dSup =>
      if dInf = dSup then pourcentageSupInf
      else pourcentageSupInf +
        Valeur.nombre ((distance - dInf) / (dSup - dInf)) *
        (pourcentageSupSup - pourcentageSupInf)
    | _, _ => pourcentageSupInf
  let pourcentageFinal :=
    match superficieInf, superficieSup with
    | some sInf, some sSup =>
      if sInf = sSup then pourcentageDistanceInf
      else pourcentageDistanceInf +
        Valeur.nombre ((surface - sInf) / (sSup - sInf)) *
        (pourcentageDistanceSup - pourcentageDistanceInf)
    | _, _ => pourcentageDistanceInf
  return pourcentageFinal

/-- Lines 533-549: the local variable `codeTableau` of `calculerPourcentage`. -/
def codeTableau (usage : String) (division : ℤ) (protectionGicleurs : Bool) : String :=
  if protectionGicleurs then
    if usage = "E" ∨ (usage = "F" ∧ (division = 1 ∨ division = 2)) then "E" else "D"
  else
    if usage = "E" ∨ (usage = "F" ∧ (division = 1 ∨ division = 2)) then "C" else "B"

/-- Lines 527-561. `surface` is `none` when the argument is omitted (`null`). The reads
`this.tableaux[codeTableau]` of line 551 are resolved per branch: codes "D" and "E" are
the two-level tables, the other two codes the three-level ones. -/
def calculerPourcentage (largeur hauteur distance : ℚ) (usage : String) (division : ℤ)
    (protectionGicleurs : Bool) (surface : Option ℚ) : Except Erreur Valeur :=
  let surface := match surface with
    | none => largeur * hauteur
    | some s => s
  let code := codeTableau usage division protectionGicleurs
  if code = "D" ∨ code = "E" then
    let tableauReference :=
      if code = "D" then initialiserTableau3231D else initialiserTableau3231E
    calculerPourcentageTableauxDE tableauReference surface distance
  else
    let tableauReference :=
      if code = "B" then initialiserTableau3231B else initialiserTableau3231C
    let categorieRapportLH := determinerCategorieRapportLH largeur hauteur
    calculerPourcentageTableauxBC tableauReference categorieRapportLH surface distance

/-- Lines 863-866, the arithmetic being left open: `arrondi` gives the value stored for
the exact result of the division and of the multiplication of line 864. -/
def verifierConformiteFacadeAvec (arrondi : ℚ → Flottant) (surfaceTotaleFacade
    surfaceBaiesNonProtegees pourcentageMaximalAutorise : ℚ) : Bool :=
  let pourcentageBaiesNonProtegees :=
    (Flottant.diviser arrondi surfaceBaiesNonProtegees surfaceTotaleFacade).multiplier
      arrondi 100
  pourcentageBaiesNonProtegees.le pourcentageMaximalAutorise

/-- Lines 863-866 as the runtime executes them, in binary64 arithmetic. -/
def verifierConformiteFacade (surfaceTotaleFacade surfaceBaiesNonProtegees
    pourcentageMaximalAutorise : ℚ) : Bool :=
  verifierConformiteFacadeAvec Flottant.binaire64 surfaceTotaleFacade
    surfaceBaiesNonProtegees pourcentageMaximalAutorise

/-- Lines 874-876. -/
def calculerSuperficieMaximale (surfaceTotaleFacade pourcentageMaximalAutorise : ℚ) : ℚ :=
  (surfaceTotaleFacade * pourcentageMaximalAutorise) / 100

/-! ## Reference semantics: clamped piecewise-linear interpolation

The definitions of this section serve the proofs. `interpolationLineaire` is not
translated from the source: it states, in the words of the specification, what one stage
of the interpolator is meant to compute. The others are the predicates on the data and
the intermediate form of the code under which the code is compared with it. -/

/-- Reference definition, following the specification: piecewise-linear interpolation
through nodes `(x, p)` listed by increasing `x`, linear between the two adjacent nodes
that bracket `x`, clamped to the first value left of the first node and to the last
value right of the last one. -/
def interpolationLineaire : List (ℚ × ℚ) → ℚ → ℚ
  | [], _ => 0
  | [(_, p)], _ => p
  | (x0, p0) :: (x1, p1) :: reste, x =>
    if x ≤ x0 then p0
    else if x ≤ x1 then p0 + (x - x0) / (x1 - x0) * (p1 - p0)
    else interpolationLineaire ((x1, p1) :: reste) x

/-- Keys listed in strictly increasing order. -/
def ClesCroissantes {β : Type} (o : List (ℚ × β)) : Prop :=
  (o.map Prod.fst).Sorted (· < ·)

instance {β : Type} (o : List (ℚ × β)) : Decidable (ClesCroissantes o) :=
  inferInstanceAs (Decidable ((o.map Prod.fst).Sorted (· < ·)))

/-- One stage of the code on plain numbers: bracket `x` among the keys, read the two
values and interpolate, as lines 654-681 do. -/
def etapeInterpolation (noeuds : List (ℚ × ℚ)) (x : ℚ) : Option ℚ :=
  match encadrement (noeuds.map Prod.fst) x with
  | none => none
  | some (inf, sup) =>
    match noeuds.lookup inf, noeuds.lookup sup with
    | some pInf, some pSup =>
      some (if inf = sup then pInf else pInf + (x - inf) / (sup - inf) * (pSup - pInf))
    | _, _ => none

/-- A row the interpolator can read: at least one entry, distances written in
increasing order. -/
def LigneBienFormee (ligne : Ligne) : Prop :=
  ligne ≠ [] ∧ ClesCroissantes ligne

instance (ligne : Ligne) : Decidable (LigneBienFormee ligne) :=
  inferInstanceAs (Decidable (_ ∧ _))

/-- A two-level table the interpolator can read: at least one row, areas written in
increasing order, every row well formed. -/
def TableauBienForme (t : TableauDE) : Prop :=
  t ≠ [] ∧ ClesCroissantes t ∧ ∀ al ∈ t, LigneBienFormee al.2

instance (t : TableauDE) : Decidable (TableauBienForme t) :=
  inferInstanceAs (Decidable (_ ∧ _ ∧ _))

/-- The nodes of the second stage: each area with the first-stage value of its row. -/
def noeudsSuperficie (t : TableauDE) (distance : ℚ) : List (ℚ × ℚ) :=
  t.map fun al => (al.1, interpolationLineaire al.2 distance)

/-- Values listed in non-decreasing order. -/
def ValeursCroissantes (noeuds : List (ℚ × ℚ)) : Prop :=
  (noeuds.map Prod.snd).Sorted (· ≤ ·)

instance (noeuds : List (ℚ × ℚ)) : Decidable (ValeursCroissantes noeuds) :=
  inferInstanceAs (Decidable ((noeuds.map Prod.snd).Sorted (· ≤ ·)))

/-! ## The built-in tables -/

/-- The three aspect-ratio categories of tables B and C. -/
inductive Categorie where
  | moinsDe3
  | de3A10
  | plusDe10
  deriving DecidableEq, Repr

/-- The key of a category in tables B and C, as `determinerCategorieRapportLH` returns
it. -/
def Categorie.libelle : Categorie → String
  | .moinsDe3 => "< 3:1"
  | .de3A10 => "3:1 à 10:1"
  | .plusDe10 => "> 10:1"

/-- The eight built-in tables an interpolator call can read: B and C in each category,
D and E. -/
inductive TableauIntegre where
  | B (c : Categorie)
  | C (c : Categorie)
  | D
  | E
  deriving DecidableEq, Repr

/-- The interpolator call of the source for a built-in table. -/
def TableauIntegre.interpoler : TableauIntegre → ℚ → ℚ → Except Erreur Valeur
  | .B c => calculerPourcentageTableauxBC initialiserTableau3231B c.libelle
  | .C c => calculerPourcentageTableauxBC initialiserTableau3231C c.libelle
  | .D => calculerPourcentageTableauxDE initialiserTableau3231D
  | .E => calculerPourcentageTableauxDE initialiserTableau3231E

/-- The area-to-row data a built-in table holds (for B and C, under its category). -/
def TableauIntegre.donnees : TableauIntegre → TableauDE
  | .B c => (initialiserTableau3231B.lookup c.libelle).getD []
  | .C c => (initialiserTableau3231C.lookup c.libelle).getD []
  | .D => initialiserTableau3231D
  | .E => initialiserTableau3231E

/-- The percentages of a row read in increasing order of distance:
`ligne[d]` for `d` running through the sorted keys. -/
def pourcentagesOrdonnes (ligne : Ligne) : List ℚ :=
  (cles ligne).filterMap fun d => ligne.lookup d

/-! ## Comparing interpolated surfaces

Devices for the comparison claims: the reference value of a table at a given area is a
weighted combination of the reference interpolations of the two bracketing rows; two
such combinations are compared on a grid of distances by a sweep that drops the nodes
already passed. -/

/-- Every area that is a breakpoint of a built-in table, in increasing order. -/
def grilleSuperficie : List ℚ :=
  [10, 15, 20, 25, 30, 40, 50, 60, 80, 100, 150, 200, 250, 350, 500, 1000, 2000]

/-- Every distance that is a breakpoint of a row of a built-in table, in increasing
order. -/
def grilleDistance : List ℚ :=
  [0, 1.2, 1.5, 2, 2.5, 3, 4, 5, 6, 7, 8, 9, 10, 11, 12, 13, 14, 15, 16, 18, 20, 25, 30, 35,
    40, 45, 50, 55, 60, 65, 70]

/-- A function that is constant left of the first point of a grid, constant right of
its last point, and affine between two consecutive points. Two such functions are
compared by comparing them on the grid. -/
def AffineSurGrille (grille : List ℚ) (f : ℚ → ℚ) : Prop :=
  (∀ k, grille.head? = some k → ∀ x, x ≤ k → f x = f k) ∧
  (∀ k, grille.getLast? = some k → ∀ x, k ≤ x → f x = f k) ∧
  (∀ k k', (k, k') ∈ grille.zip grille.tail → ∀ x, k ≤ x → x ≤ k' →
    f x = f k + (x - k) / (k' - k) * (f k' - f k))

/-- Boolean check that the first list is a sublist of the second. -/
def sousListe : List ℚ → List ℚ → Bool
  | [], _ => true
  | _ :: _, [] => false
  | a :: l, b :: g => if a = b then sousListe l g else sousListe (a :: l) g

/-- Boolean check that every breakpoint of the table lies on the two grids. -/
def verifierDansGrilles (t : TableauDE) : Bool :=
  sousListe (t.map Prod.fst) grilleSuperficie &&
    t.all fun al => sousListe (al.2.map Prod.fst) grilleDistance

/-- A row, or a row together with a second row and the weight of the second one. -/
abbrev Ponderee := Ligne × Option (Ligne × ℚ)

/-- The rows of a weighted combination. -/
def Ponderee.lignes : Ponderee → List Ligne
  | (lo, none) => [lo]
  | (lo, some (hi, _)) => [lo, hi]

/-- Every row of the combination has increasing keys, all of them on the grid. -/
def Ponderee.SurGrille (p : Ponderee) (grille : List ℚ) : Prop :=
  ∀ l ∈ p.lignes, ClesCroissantes l ∧ ∀ n ∈ l, n.1 ∈ grille

/-- The rows that bracket an area, with the weight of the upper one: the reference
value of the table at that area is `valeurPonderee` of the result. At or left of a
breakpoint the row of that breakpoint stands alone. -/
def lignesPonderees : TableauDE → ℚ → Option Ponderee
  | [], _ => none
  | [(_, l)], _ => some (l, none)
  | (a0, l0) :: (a1, l1) :: reste, a =>
    if a ≤ a0 then some (l0, none)
    else if a < a1 then some (l0, some (l1, (a - a0) / (a1 - a0)))
    else lignesPonderees ((a1, l1) :: reste) a

/-- The reference interpolation of a row, or the combination of those of two rows. -/
def valeurPonderee : Ponderee → ℚ → ℚ
  | (lo, none), d => interpolationLineaire lo d
  | (lo, some (hi, w)), d =>
    interpolationLineaire lo d + w * (interpolationLineaire hi d - interpolationLineaire lo d)

/-- Drops the leading nodes that are not needed to interpolate at `y` or right of it. -/
def avancer : Ligne → ℚ → Ligne
  | (x0, p0) :: (x1, p1) :: reste, y =>
    if x1 ≤ y then avancer ((x1, p1) :: reste) y else (x0, p0) :: (x1, p1) :: reste
  | l, _ => l

/-- Advances every row of a combination; `none` when a row is empty. -/
def avancerPonderee : Ponderee → ℚ → Option Ponderee
  | (lo, none), d =>
    match avancer lo d with
    | a :: ra => some (a :: ra, none)
    | [] => none
  | (lo, some (hi, w)), d =>
    match avancer lo d, avancer hi d with
    | a :: ra, b :: rb => some (a :: ra, some (b :: rb, w))
    | _, _ => none

/-- Boolean check, by a sweep along an increasing grid, that one weighted combination
of rows is at most another at every point of the grid. -/
def verifierPonderees : List ℚ → Ponderee → Ponderee → Bool
  | [], _, _ => true
  | d :: grille, p1, p2 =>
    match avancerPonderee p1 d, avancerPonderee p2 d with
    | some q1, some q2 =>
      decide (valeurPonderee q1 d ≤ valeurPonderee q2 d) && verifierPonderees grille q1 q2
    | _, _ => false

/-- Boolean check that `t1` is below `t2`: at every area of the grid and every distance
of the grid, the value of `t1` is at most the value of `t2`. -/
def verifierTableauInferieur (t1 t2 : TableauDE) : Bool :=
  grilleSuperficie.all fun a =>
    match lignesPonderees t1 a, lignesPonderees t2 a with
    | some p1, some p2 => verifierPonderees grilleDistance p1 p2
    | _, _ => false

/-- Boolean check that each row of the table is below the row before it, at every
distance of the grid. -/
def verifierDecroissant : TableauDE → Bool
  | (_, l0) :: (a1, l1) :: reste =>
    verifierPonderees grilleDistance (l1, none) (l0, none) &&
      verifierDecroissant ((a1, l1) :: reste)
  | _ => true

/-! ## Boolean checks

Linear-time checks on the data, written as Boolean functions so that they evaluate
quickly; each comes with a lemma that it implies the property it is named after. -/

/-- Consecutive elements of the list are related by `r`. -/
def enChaine (r : ℚ → ℚ → Bool) : List ℚ → Bool
  | a :: b :: reste => r a b && enChaine r (b :: reste)
  | _ => true

/-- Boolean check of `TableauBienForme`. -/
def verifierBienForme (t : TableauDE) : Bool :=
  !t.isEmpty && enChaine (fun a b => decide (a < b)) (t.map Prod.fst) &&
    t.all fun al =>
      !al.2.isEmpty && enChaine (fun a b => decide (a < b)) (al.2.map Prod.fst)

/-- Boolean check that every row has non-decreasing percentages. -/
def verifierValeursCroissantes (t : TableauDE) : Bool :=
  t.all fun al => enChaine (fun a b => decide (a ≤ b)) (al.2.map Prod.snd)

/-! ## Lemmas on keys, lookups and the bracketing loop -/

theorem chain_of_enChaine (r : ℚ → ℚ → Bool) (l : List ℚ) (h : enChaine r l = true) :
    l.Chain' fun a b => r a b = true := by
  induction l with
  | nil => exact List.chain'_nil
  | cons a l ih =>
    cases l with
    | nil => exact List.chain'_singleton a
    | cons b reste =>
      simp only [enChaine, Bool.and_eq_true] at h
      exact List.chain'_cons.mpr ⟨h.1, ih h.2⟩

theorem sorted_lt_of_enChaine (l : List ℚ)
    (h : enChaine (fun a b => decide (a < b)) l = true) : l.Sorted (· < ·) := by
  have hc := chain_of_enChaine _ l h
  simp only [decide_eq_true_eq] at hc
  exact List.chain'_iff_pairwise.mp hc

theorem sorted_le_of_enChaine (l : List ℚ)
    (h : enChaine (fun a b => decide (a ≤ b)) l = true) : l.Sorted (· ≤ ·) := by
  have hc := chain_of_enChaine _ l h
  simp only [decide_eq_true_eq] at hc
  exact List.chain'_iff_pairwise.mp hc

theorem tableauBienForme_of_verifier (t : TableauDE) (h : verifierBienForme t = true) :
    TableauBienForme t := by
  simp only [verifierBienForme, Bool.and_eq_true, Bool.not_eq_true', List.isEmpty_eq_false,
    List.all_eq_true] at h
  obtain ⟨⟨hne, hs⟩, hl⟩ := h
  refine ⟨hne, sorted_lt_of_enChaine _ hs, ?_⟩
  intro al hal
  obtain ⟨h1, h2⟩ := hl al hal
  exact ⟨h1, sorted_lt_of_enChaine _ h2⟩

theorem valeursCroissantes_of_verifier (t : TableauDE)
    (h : verifierValeursCroissantes t = true) : ∀ al ∈ t, ValeursCroissantes al.2 := by
  simp only [verifierValeursCroissantes, List.all_eq_true] at h
  intro al hal
  exact sorted_le_of_enChaine _ (h al hal)

theorem clesCroissantes_cons {β : Type} {a : ℚ × β} {o : List (ℚ × β)} :
    ClesCroissantes (a :: o) ↔ (∀ b ∈ o, a.1 < b.1) ∧ ClesCroissantes o := by
  simp [ClesCroissantes, List.Sorted]

theorem cles_eq_of_croissantes {β : Type} {o : List (ℚ × β)} (h : ClesCroissantes o) :
    cles o = o.map Prod.fst := by
  unfold cles
  apply List.Sorted.insertionSort_eq
  exact List.Pairwise.imp (fun hab => le_of_lt hab) h

theorem lookup_of_mem_croissantes {β : Type} {o : List (ℚ × β)} (h : ClesCroissantes o)
    {a : ℚ} {b : β} (hm : (a, b) ∈ o) : o.lookup a = some b := by
  induction o with
  | nil => simp at hm
  | cons c o ih =>
    obtain ⟨hlt, hs⟩ := clesCroissantes_cons.mp h
    rcases List.mem_cons.mp hm with rfl | hm2
    · simp [List.lookup]
    · have hne : (a == c.1) = false := by
        have := hlt _ hm2
        simp only [beq_eq_false_iff_ne, ne_eq]
        exact fun hEq => absurd (hEq ▸ this) (lt_irrefl _)
      obtain ⟨c1, c2⟩ := c
      simp only [List.lookup, hne]
      exact ih hs hm2

theorem mem_of_lookup {β : Type} {o : List (ℚ × β)} {a : ℚ} {b : β}
    (h : o.lookup a = some b) : (a, b) ∈ o := by
  induction o with
  | nil => simp at h
  | cons c o ih =>
    obtain ⟨c1, c2⟩ := c
    by_cases hc : a = c1
    · subst hc
      simp [List.lookup] at h
      simp [h]
    · have hne : (a == c1) = false := by simpa using hc
      simp only [List.lookup, hne] at h
      exact List.mem_cons_of_mem _ (ih h)

theorem boucleEncadrement_none_of_lt (plages : List ℚ) (x : ℚ)
    (h : ∀ k ∈ plages, x < k) : boucleEncadrement plages x = none := by
  induction plages with
  | nil => rfl
  | cons a plages ih =>
    cases plages with
    | nil => rfl
    | cons b reste =>
      have ha : ¬ (x ≥ a ∧ x ≤ b) := fun hc =>
        absurd (h a (List.mem_cons_self _ _)) (not_lt.mpr hc.1)
      simp only [boucleEncadrement, ha, if_false]
      exact ih fun k hk => h k (List.mem_cons_of_mem _ hk)

theorem lookup_cons_of_lt {β : Type} {c : ℚ × β} {o : List (ℚ × β)} {a : ℚ}
    (h : c.1 < a) : (c :: o).lookup a = o.lookup a := by
  obtain ⟨c1, c2⟩ := c
  have hne : (a == c1) = false := by
    simp only [beq_eq_false_iff_ne, ne_eq]
    exact fun hEq => absurd (hEq ▸ h) (lt_irrefl _)
  simp [List.lookup, hne]

theorem fst_mem_of_lookup {β : Type} {o : List (ℚ × β)} {a : ℚ} {b : β}
    (h : o.lookup a = some b) : ∃ c ∈ o, c.1 = a :=
  ⟨(a, b), mem_of_lookup h, rfl⟩

/-- The loop on a list of nodes whose first key is not above `x`: a hit is a pair of
distinct keys and the code's formula is the reference interpolation; a miss means `x` is
right of every node and the reference value is the last node's. -/
theorem boucleEncadrement_spec (reste : List (ℚ × ℚ)) :
    ∀ (x0 p0 x : ℚ), ClesCroissantes ((x0, p0) :: reste) → x0 ≤ x →
      (∀ inf sup, boucleEncadrement (((x0, p0) :: reste).map Prod.fst) x = some (inf, sup) →
        inf ≠ sup ∧ ∃ pInf pSup, ((x0, p0) :: reste).lookup inf = some pInf ∧
          ((x0, p0) :: reste).lookup sup = some pSup ∧
          interpolationLineaire ((x0, p0) :: reste) x =
            pInf + (x - inf) / (sup - inf) * (pSup - pInf)) ∧
      (boucleEncadrement (((x0, p0) :: reste).map Prod.fst) x = none →
        ∃ xd pd, (((x0, p0) :: reste).map Prod.fst).getLast? = some xd ∧
          ((x0, p0) :: reste).lookup xd = some pd ∧
          interpolationLineaire ((x0, p0) :: reste) x = pd) := by
  induction reste with
  | nil =>
    intro x0 p0 x _ _
    refine ⟨?_, ?_⟩
    · intro inf sup h
      simp [boucleEncadrement] at h
    · intro _
      exact ⟨x0, p0, by simp, by simp [List.lookup], by simp [interpolationLineaire]⟩
  | cons n reste ih =>
    obtain ⟨x1, p1⟩ := n
    intro x0 p0 x hs hx
    obtain ⟨hlt, hs1⟩ := clesCroissantes_cons.mp hs
    have h01 : x0 < x1 := hlt (x1, p1) (List.mem_cons_self _ _)
    by_cases hx1 : x ≤ x1
    · have hc : x ≥ x0 ∧ x ≤ x1 := ⟨hx, hx1⟩
      refine ⟨?_, ?_⟩
      · intro inf sup h
        simp only [List.map_cons, boucleEncadrement, hc, and_self, if_true, Option.some.injEq,
          Prod.mk.injEq] at h
        obtain ⟨rfl, rfl⟩ := h
        refine ⟨ne_of_lt h01, p0, p1, by simp [List.lookup], ?_, ?_⟩
        · rw [lookup_cons_of_lt (by exact h01)]
          simp [List.lookup]
        · by_cases hx0 : x ≤ x0
          · have hxe : x = x0 := le_antisymm hx0 hx
            simp [interpolationLineaire, hxe]
          · simp [interpolationLineaire, hx0, hx1]
      · intro h
        simp [boucleEncadrement, hc] at h
    · have hx1' : x1 ≤ x := le_of_lt (not_le.mp hx1)
      have hx0 : ¬ x ≤ x0 := not_le.mpr (lt_trans h01 (not_le.mp hx1))
      have hc : ¬ (x ≥ x0 ∧ x ≤ x1) := fun hc => hx1 hc.2
      have hb : boucleEncadrement (((x0, p0) :: (x1, p1) :: reste).map Prod.fst) x =
          boucleEncadrement (((x1, p1) :: reste).map Prod.fst) x := by
        simp only [List.map_cons, boucleEncadrement, hc, if_false]
      have hi : interpolationLineaire ((x0, p0) :: (x1, p1) :: reste) x =
          interpolationLineaire ((x1, p1) :: reste) x := by
        simp only [interpolationLineaire, hx0, hx1, if_false]
      obtain ⟨ih1, ih2⟩ := ih x1 p1 x hs1 hx1'
      have hlook : ∀ (k p : ℚ), ((x1, p1) :: reste).lookup k = some p →
          ((x0, p0) :: (x1, p1) :: reste).lookup k = some p := by
        intro k p hk
        obtain ⟨c, hc, rfl⟩ := fst_mem_of_lookup hk
        rw [lookup_cons_of_lt (by exact hlt c hc)]
        exact hk
      refine ⟨?_, ?_⟩
      · intro inf sup h
        rw [hb] at h
        obtain ⟨hne, pInf, pSup, h1, h2, h3⟩ := ih1 inf sup h
        exact ⟨hne, pInf, pSup, hlook _ _ h1, hlook _ _ h2, hi.trans h3⟩
      · intro h
        rw [hb] at h
        obtain ⟨xd, pd, h1, h2, h3⟩ := ih2 h
        refine ⟨xd, pd, ?_, hlook _ _ h2, hi.trans h3⟩
        simpa [List.getLast?_cons_cons] using h1

/-- On a non-empty list of nodes with increasing keys, one stage of the code computes the
reference interpolation. -/
theorem etapeInterpolation_eq (noeuds : List (ℚ × ℚ)) (x : ℚ) (hne : noeuds ≠ [])
    (hs : ClesCroissantes noeuds) :
    etapeInterpolation noeuds x = some (interpolationLineaire noeuds x) := by
  cases noeuds with
  | nil => exact absurd rfl hne
  | cons n reste =>
    obtain ⟨x0, p0⟩ := n
    obtain ⟨hlt, _⟩ := clesCroissantes_cons.mp hs
    by_cases hx : x < x0
    · have hb : boucleEncadrement (((x0, p0) :: reste).map Prod.fst) x = none := by
        apply boucleEncadrement_none_of_lt
        intro k hk
        simp only [List.map_cons, List.mem_cons, List.mem_map] at hk
        rcases hk with rfl | ⟨c, hc, rfl⟩
        · exact hx
        · exact lt_trans hx (hlt c hc)
      have hi : interpolationLineaire ((x0, p0) :: reste) x = p0 := by
        cases reste with
        | nil => rfl
        | cons m r =>
          obtain ⟨x1, p1⟩ := m
          simp [interpolationLineaire, le_of_lt hx]
      unfold etapeInterpolation encadrement
      rw [hb]
      simp [hx, List.lookup, hi]
    · have hx' : x0 ≤ x := not_lt.mp hx
      obtain ⟨h1, h2⟩ := boucleEncadrement_spec reste x0 p0 x hs hx'
      cases hb : boucleEncadrement (((x0, p0) :: reste).map Prod.fst) x with
      | none =>
        obtain ⟨xd, pd, hd1, hd2, hd3⟩ := h2 hb
        unfold etapeInterpolation encadrement
        rw [hb]
        simp only [List.map_cons, List.head?_cons, hx, if_false]
        simp only [List.map_cons] at hd1
        rw [hd1]
        simp [hd2, hd3]
      | some r =>
        obtain ⟨inf, sup⟩ := r
        obtain ⟨hne2, pInf, pSup, hl1, hl2, hl3⟩ := h1 inf sup hb
        unfold etapeInterpolation encadrement
        rw [hb]
        simp [hl1, hl2, hl3, hne2]

namespace Valeur

@[simp] theorem nombre_add (a b : ℚ) : nombre a + nombre b = nombre (a + b) := rfl
@[simp] theorem nombre_sub (a b : ℚ) : nombre a - nombre b = nombre (a - b) := rfl
@[simp] theorem nombre_mul (a b : ℚ) : nombre a * nombre b = nombre (a * b) := rfl
@[simp] theorem lire_some (a : ℚ) : lire (some a) = nombre a := rfl

end Valeur

theorem lookup_noeudsSuperficie (t : TableauDE) (distance a : ℚ) :
    (noeudsSuperficie t distance).lookup a =
      (t.lookup a).map fun ligne => interpolationLineaire ligne distance := by
  induction t with
  | nil => rfl
  | cons c t ih =>
    obtain ⟨c1, c2⟩ := c
    by_cases hc : a = c1
    · subst hc
      simp [noeudsSuperficie, List.lookup]
    · have hne : (a == c1) = false := by simpa using hc
      simp only [noeudsSuperficie, List.map_cons, List.lookup, hne]
      exact ih

theorem map_fst_noeudsSuperficie (t : TableauDE) (distance : ℚ) :
    (noeudsSuperficie t distance).map Prod.fst = t.map Prod.fst := by
  simp [noeudsSuperficie, Function.comp_def]

theorem etapeInterpolation_exists (noeuds : List (ℚ × ℚ)) (x : ℚ) (hne : noeuds ≠ [])
    (hs : ClesCroissantes noeuds) :
    ∃ inf sup pInf pSup, encadrement (cles noeuds) x = some (inf, sup) ∧
      noeuds.lookup inf = some pInf ∧ noeuds.lookup sup = some pSup ∧
      (if inf = sup then pInf else pInf + (x - inf) / (sup - inf) * (pSup - pInf)) =
        interpolationLineaire noeuds x := by
  have h := etapeInterpolation_eq noeuds x hne hs
  unfold etapeInterpolation at h
  rw [cles_eq_of_croissantes hs]
  cases he : encadrement (noeuds.map Prod.fst) x with
  | none => simp [he] at h
  | some r =>
    obtain ⟨inf, sup⟩ := r
    rw [he] at h
    cases h1 : noeuds.lookup inf with
    | none => simp [h1] at h
    | some pInf =>
      cases h2 : noeuds.lookup sup with
      | none => simp [h1, h2] at h
      | some pSup =>
        simp only [h1, h2, Option.some.injEq] at h
        exact ⟨inf, sup, pInf, pSup, rfl, h1, h2, h⟩

/-- On a well-formed table the code returns a number: the reference interpolation along
the area of the reference interpolations of the rows along the distance. -/
theorem calculerPourcentageTableauxDE_eq (t : TableauDE) (h : TableauBienForme t)
    (surface distance : ℚ) :
    calculerPourcentageTableauxDE t surface distance =
      .ok (.nombre (interpolationLineaire (noeudsSuperficie t distance) surface)) := by
  obtain ⟨hne, hs, hl⟩ := h
  have hne2 : noeudsSuperficie t distance ≠ [] := by
    simpa [noeudsSuperficie] using hne
  have hs2 : ClesCroissantes (noeudsSuperficie t distance) := by
    unfold ClesCroissantes
    rw [map_fst_noeudsSuperficie]
    exact hs
  obtain ⟨sInf, sSup, pInf, pSup, he, h1, h2, h3⟩ :=
    etapeInterpolation_exists _ surface hne2 hs2
  have hc : cles (noeudsSuperficie t distance) = cles t := by
    unfold cles
    rw [map_fst_noeudsSuperficie]
  rw [hc] at he
  rw [lookup_noeudsSuperficie] at h1 h2
  cases hl1 : t.lookup sInf with
  | none => simp [hl1] at h1
  | some ligneInf =>
    cases hl2 : t.lookup sSup with
    | none => simp [hl2] at h2
    | some ligneSup =>
      simp only [hl1, hl2, Option.map_some', Option.some.injEq] at h1 h2
      obtain ⟨hn1, hc1⟩ := hl _ (mem_of_lookup hl1)
      obtain ⟨hn2, hc2⟩ := hl _ (mem_of_lookup hl2)
      obtain ⟨a1, b1, q1, r1, e1, f1, g1, k1⟩ :=
        etapeInterpolation_exists ligneInf distance hn1 hc1
      obtain ⟨a2, b2, q2, r2, e2, f2, g2, k2⟩ :=
        etapeInterpolation_exists ligneSup distance hn2 hc2
      rw [← h3, ← h1, ← h2, ← k1, ← k2]
      simp only [calculerPourcentageTableauxDE, getPlagesSuperficieDE, getPlagesDistanceDE,
        he, hl1, hl2, e1, e2, f1, f2, g1, g2, lirePourcentage, Option.map_some',
        Option.bind_some, Option.some_bind, Option.getD_some, bind, Except.bind, pure,
        Except.pure, Valeur.lire_some]
      by_cases hsS : sInf = sSup <;> by_cases hd1 : a1 = b1 <;> by_cases hd2 : a2 = b2 <;>
        simp [hsS, hd1, hd2]

/-- With the category present, the three-level routine is the two-level routine on the
sub-table of that category. -/
theorem calculerPourcentageTableauxBC_eq_DE (tableauReference : TableauBC)
    (categorieRapportLH : String) (t : TableauDE)
    (h : tableauReference.lookup categorieRapportLH = some t) (surface distance : ℚ) :
    calculerPourcentageTableauxBC tableauReference categorieRapportLH surface distance =
      calculerPourcentageTableauxDE t surface distance := by
  simp only [calculerPourcentageTableauxBC, calculerPourcentageTableauxDE,
    getPlagesSuperficieBC, getPlagesSuperficieDE, getPlagesDistanceBC, getPlagesDistanceDE, h,
    Option.getD_some, bind, Except.bind]

theorem TableauIntegre.lookup_B (c : Categorie) :
    initialiserTableau3231B.lookup c.libelle = some (TableauIntegre.donnees (.B c)) := by
  cases c <;> decide!

theorem TableauIntegre.lookup_C (c : Categorie) :
    initialiserTableau3231C.lookup c.libelle = some (TableauIntegre.donnees (.C c)) := by
  cases c <;> decide!

theorem snd_mem_of_lookup_categorie {t : TableauBC} {c : String} {d : TableauDE}
    (h : t.lookup c = some d) : ∃ ct ∈ t, ct.2 = d := by
  induction t with
  | nil => simp at h
  | cons n t ih =>
    obtain ⟨c1, d1⟩ := n
    by_cases hc : c = c1
    · subst hc
      simp only [List.lookup, beq_self_eq_true, Option.some.injEq] at h
      exact ⟨(c, d1), List.mem_cons_self _ _, h⟩
    · have hne : (c == c1) = false := by simpa using hc
      simp only [List.lookup, hne] at h
      obtain ⟨ct, hct, he⟩ := ih h
      exact ⟨ct, List.mem_cons_of_mem _ hct, he⟩

/-- A property of the data of every built-in table follows from the property for each
sub-table of B, each sub-table of C, D and E. -/
theorem TableauIntegre.forall_donnees (P : TableauDE → Prop)
    (hB : ∀ ct ∈ initialiserTableau3231B, P ct.2)
    (hC : ∀ ct ∈ initialiserTableau3231C, P ct.2)
    (hD : P initialiserTableau3231D) (hE : P initialiserTableau3231E)
    (T : TableauIntegre) : P T.donnees := by
  cases T with
  | B c =>
    obtain ⟨ct, hct, he⟩ := snd_mem_of_lookup_categorie (TableauIntegre.lookup_B c)
    exact he ▸ hB ct hct
  | C c =>
    obtain ⟨ct, hct, he⟩ := snd_mem_of_lookup_categorie (TableauIntegre.lookup_C c)
    exact he ▸ hC ct hct
  | D => exact hD
  | E => exact hE

theorem TableauIntegre.interpoler_eq (T : TableauIntegre) (surface distance : ℚ) :
    T.interpoler surface distance =
      calculerPourcentageTableauxDE T.donnees surface distance := by
  cases T with
  | B c => exact calculerPourcentageTableauxBC_eq_DE _ _ _ (TableauIntegre.lookup_B c) _ _
  | C c => exact calculerPourcentageTableauxBC_eq_DE _ _ _ (TableauIntegre.lookup_C c) _ _
  | D => rfl
  | E => rfl

theorem TableauIntegre.bienForme (T : TableauIntegre) : TableauBienForme T.donnees :=
  tableauBienForme_of_verifier _
    (T.forall_donnees (fun t => verifierBienForme t = true)
      (by decide!) (by decide!) (by decide!) (by decide!))

/-! ## Properties of the reference interpolation -/

theorem interpolationLineaire_of_le_premier (x0 p0 : ℚ) (reste : List (ℚ × ℚ)) (x : ℚ)
    (h : x ≤ x0) : interpolationLineaire ((x0, p0) :: reste) x = p0 := by
  cases reste with
  | nil => rfl
  | cons m r =>
    obtain ⟨x1, p1⟩ := m
    simp [interpolationLineaire, h]

/-- At the abscissa of a node the reference interpolation is the node's value. -/
theorem interpolationLineaire_noeud (noeuds : List (ℚ × ℚ)) (hs : ClesCroissantes noeuds)
    (x p : ℚ) (hm : (x, p) ∈ noeuds) : interpolationLineaire noeuds x = p := by
  induction noeuds with
  | nil => simp at hm
  | cons n reste ih =>
    obtain ⟨x0, p0⟩ := n
    obtain ⟨hlt, hs1⟩ := clesCroissantes_cons.mp hs
    rcases List.mem_cons.mp hm with heq | hm2
    · obtain ⟨rfl, rfl⟩ := Prod.mk.inj heq
      exact interpolationLineaire_of_le_premier _ _ _ _ le_rfl
    · cases reste with
      | nil => simp at hm2
      | cons m r =>
        obtain ⟨x1, p1⟩ := m
        have h01 : x0 < x1 := hlt (x1, p1) (List.mem_cons_self _ _)
        have hx0 : ¬ x ≤ x0 := not_le.mpr (hlt (x, p) hm2)
        rcases List.mem_cons.mp hm2 with heq | hm3
        · obtain ⟨rfl, rfl⟩ := Prod.mk.inj heq
          have hne : x - x0 ≠ 0 := sub_ne_zero.mpr (ne_of_gt h01)
          simp only [interpolationLineaire, hx0, if_false, le_refl, if_true]
          rw [div_self hne]
          ring
        · obtain ⟨hlt1, _⟩ := clesCroissantes_cons.mp hs1
          have hx1 : ¬ x ≤ x1 := not_le.mpr (hlt1 (x, p) hm3)
          simp only [interpolationLineaire, hx0, hx1, if_false]
          exact ih hs1 hm2

/-- Right of the last node the reference interpolation is the last value. -/
theorem interpolationLineaire_of_ge_dernier (noeuds : List (ℚ × ℚ))
    (hs : ClesCroissantes noeuds) (xd pd : ℚ) (hd : noeuds.getLast? = some (xd, pd))
    (x : ℚ) (h : xd ≤ x) : interpolationLineaire noeuds x = pd := by
  induction noeuds with
  | nil => simp at hd
  | cons n reste ih =>
    obtain ⟨x0, p0⟩ := n
    obtain ⟨hlt, hs1⟩ := clesCroissantes_cons.mp hs
    cases reste with
    | nil =>
      simp only [List.getLast?_singleton, Option.some.injEq, Prod.mk.injEq] at hd
      simp [interpolationLineaire, hd.2]
    | cons m r =>
      obtain ⟨x1, p1⟩ := m
      rw [List.getLast?_cons_cons] at hd
      have hmem : (xd, pd) ∈ (x1, p1) :: r := List.mem_of_getLast?_eq_some hd
      have h01 : x0 < x1 := hlt (x1, p1) (List.mem_cons_self _ _)
      have hx0 : ¬ x ≤ x0 := not_le.mpr (lt_of_lt_of_le (hlt _ hmem) h)
      by_cases hx1 : x ≤ x1
      · have h1d : x1 ≤ xd := by
          rcases List.mem_cons.mp hmem with heq | hm3
          · exact le_of_eq (Prod.mk.inj heq).1.symm
          · exact le_of_lt ((clesCroissantes_cons.mp hs1).1 _ hm3)
        have hxe : x = xd := le_antisymm (le_trans hx1 h1d) h
        rw [hxe]
        exact interpolationLineaire_noeud _ hs _ _
          (List.mem_cons_of_mem _ hmem)
      · simp only [interpolationLineaire, hx0, hx1, if_false]
        exact ih hs1 hd

/-- Strictly between two adjacent nodes the reference interpolation is the linear
formula on these two nodes. -/
theorem interpolationLineaire_entre (noeuds : List (ℚ × ℚ)) (hs : ClesCroissantes noeuds)
    (x0 p0 x1 p1 : ℚ) (hadj : ((x0, p0), (x1, p1)) ∈ noeuds.zip noeuds.tail)
    (x : ℚ) (h0 : x0 < x) (h1 : x < x1) :
    interpolationLineaire noeuds x = p0 + (x - x0) / (x1 - x0) * (p1 - p0) := by
  induction noeuds with
  | nil => simp at hadj
  | cons n reste ih =>
    obtain ⟨y0, q0⟩ := n
    obtain ⟨hlt, hs1⟩ := clesCroissantes_cons.mp hs
    cases reste with
    | nil => simp at hadj
    | cons m r =>
      obtain ⟨y1, q1⟩ := m
      simp only [List.tail_cons, List.zip_cons_cons, List.mem_cons] at hadj
      rcases hadj with heq | hadj2
      · obtain ⟨ha, hb⟩ := Prod.mk.inj heq
        obtain ⟨rfl, rfl⟩ := Prod.mk.inj ha
        obtain ⟨rfl, rfl⟩ := Prod.mk.inj hb
        simp [interpolationLineaire, not_le.mpr h0, le_of_lt h1]
      · have hm : (x0, p0) ∈ (y1, q1) :: r := (List.of_mem_zip hadj2).1
        have hy1 : y1 ≤ x0 := by
          rcases List.mem_cons.mp hm with heq | hm3
          · exact le_of_eq (Prod.mk.inj heq).1.symm
          · exact le_of_lt ((clesCroissantes_cons.mp hs1).1 _ hm3)
        have hy0 : y0 < y1 := hlt (y1, q1) (List.mem_cons_self _ _)
        have hx1 : ¬ x ≤ y1 := not_le.mpr (lt_of_le_of_lt hy1 h0)
        have hx0 : ¬ x ≤ y0 := not_le.mpr (lt_trans hy0 (not_le.mp hx1))
        simp only [interpolationLineaire, hx0, hx1, if_false]
        exact ih hs1 hadj2

theorem valeursCroissantes_cons {a : ℚ × ℚ} {o : List (ℚ × ℚ)} :
    ValeursCroissantes (a :: o) ↔ (∀ b ∈ o, a.2 ≤ b.2) ∧ ValeursCroissantes o := by
  simp only [ValeursCroissantes, List.Sorted, List.map_cons, List.pairwise_cons, List.mem_map,
    forall_exists_index, and_imp]
  constructor
  · rintro ⟨h1, h2⟩
    exact ⟨fun b hb => h1 b.2 b hb rfl, h2⟩
  · rintro ⟨h1, h2⟩
    exact ⟨fun c b hb hc => hc ▸ h1 b hb, h2⟩

theorem fraction_entre {x0 x1 x : ℚ} (h0 : x0 < x) (h1 : x ≤ x1) :
    0 ≤ (x - x0) / (x1 - x0) ∧ (x - x0) / (x1 - x0) ≤ 1 := by
  have hpos : 0 < x1 - x0 := by linarith
  constructor
  · exact div_nonneg (by linarith) (le_of_lt hpos)
  · rw [div_le_one hpos]
    linarith

theorem premier_le_interpolationLineaire (reste : List (ℚ × ℚ)) :
    ∀ (x0 p0 : ℚ), ClesCroissantes ((x0, p0) :: reste) →
      ValeursCroissantes ((x0, p0) :: reste) →
      ∀ x, p0 ≤ interpolationLineaire ((x0, p0) :: reste) x := by
  induction reste with
  | nil => intro x0 p0 _ _ x; simp [interpolationLineaire]
  | cons m r ih =>
    obtain ⟨x1, p1⟩ := m
    intro x0 p0 hs hv x
    obtain ⟨hlt, hs1⟩ := clesCroissantes_cons.mp hs
    obtain ⟨hle, hv1⟩ := valeursCroissantes_cons.mp hv
    have h01 : x0 < x1 := hlt (x1, p1) (List.mem_cons_self _ _)
    have hp01 : p0 ≤ p1 := hle (x1, p1) (List.mem_cons_self _ _)
    by_cases hx0 : x ≤ x0
    · simp [interpolationLineaire, hx0]
    · by_cases hx1 : x ≤ x1
      · simp only [interpolationLineaire, hx0, hx1, if_false, if_true]
        obtain ⟨ht0, _⟩ := fraction_entre (not_le.mp hx0) hx1
        have := mul_nonneg ht0 (sub_nonneg.mpr hp01)
        linarith
      · simp only [interpolationLineaire, hx0, hx1, if_false]
        exact le_trans hp01 (ih x1 p1 hs1 hv1 x)

/-- With non-decreasing values the reference interpolation is non-decreasing. -/
theorem interpolationLineaire_mono (noeuds : List (ℚ × ℚ)) (hs : ClesCroissantes noeuds)
    (hv : ValeursCroissantes noeuds) (x y : ℚ) (hxy : x ≤ y) :
    interpolationLineaire noeuds x ≤ interpolationLineaire noeuds y := by
  induction noeuds with
  | nil => simp [interpolationLineaire]
  | cons n reste ih =>
    obtain ⟨x0, p0⟩ := n
    cases reste with
    | nil => simp [interpolationLineaire]
    | cons m r =>
      obtain ⟨x1, p1⟩ := m
      obtain ⟨hlt, hs1⟩ := clesCroissantes_cons.mp hs
      obtain ⟨hle, hv1⟩ := valeursCroissantes_cons.mp hv
      have h01 : x0 < x1 := hlt (x1, p1) (List.mem_cons_self _ _)
      have hp01 : p0 ≤ p1 := hle (x1, p1) (List.mem_cons_self _ _)
      have hpos : 0 < x1 - x0 := by linarith
      by_cases hx0 : x ≤ x0
      · rw [interpolationLineaire_of_le_premier _ _ _ _ hx0]
        exact premier_le_interpolationLineaire _ _ _ hs hv y
      · have hy0 : ¬ y ≤ x0 := fun hy => hx0 (le_trans hxy hy)
        by_cases hx1 : x ≤ x1
        · obtain ⟨_, htx1⟩ := fraction_entre (not_le.mp hx0) hx1
          by_cases hy1 : y ≤ x1
          · simp only [interpolationLineaire, hx0, hx1, hy0, hy1, if_false, if_true]
            have hfrac : (x - x0) / (x1 - x0) ≤ (y - x0) / (x1 - x0) :=
              div_le_div_of_nonneg_right (by linarith) (le_of_lt hpos)
            have := mul_le_mul_of_nonneg_right hfrac (sub_nonneg.mpr hp01)
            linarith
          · have hlow := premier_le_interpolationLineaire r x1 p1 hs1 hv1 y
            simp only [interpolationLineaire, hx0, hx1, hy0, hy1, if_false, if_true]
            have := mul_le_mul_of_nonneg_right htx1 (sub_nonneg.mpr hp01)
            linarith
        · have hy1 : ¬ y ≤ x1 := fun hy => hx1 (le_trans hxy hy)
          simp only [interpolationLineaire, hx0, hx1, hy0, hy1, if_false]
          exact ih hs1 hv1

/-- Raising the first-stage value of every row never lowers the second stage. -/
theorem interpolationLineaire_noeudsSuperficie_mono (t : TableauDE)
    (hs : ClesCroissantes t) (d1 d2 : ℚ)
    (h : ∀ al ∈ t, interpolationLineaire al.2 d1 ≤ interpolationLineaire al.2 d2)
    (s : ℚ) :
    interpolationLineaire (noeudsSuperficie t d1) s ≤
      interpolationLineaire (noeudsSuperficie t d2) s := by
  induction t with
  | nil => simp [noeudsSuperficie, interpolationLineaire]
  | cons n reste ih =>
    obtain ⟨a0, l0⟩ := n
    have hh0 := h (a0, l0) (List.mem_cons_self _ _)
    cases reste with
    | nil => simpa [noeudsSuperficie, interpolationLineaire] using hh0
    | cons m r =>
      obtain ⟨a1, l1⟩ := m
      obtain ⟨hlt, hs1⟩ := clesCroissantes_cons.mp hs
      have h01 : a0 < a1 := hlt (a1, l1) (List.mem_cons_self _ _)
      have hh1 := h (a1, l1) (List.mem_cons_of_mem _ (List.mem_cons_self _ _))
      have ih' := ih hs1 fun al hal => h al (List.mem_cons_of_mem _ hal)
      simp only [noeudsSuperficie, List.map_cons] at ih' ⊢
      by_cases hx0 : s ≤ a0
      · simpa [interpolationLineaire, hx0] using hh0
      · by_cases hx1 : s ≤ a1
        · simp only [interpolationLineaire, hx0, hx1, if_false, if_true]
          obtain ⟨ht0, ht1⟩ := fraction_entre (not_le.mp hx0) hx1
          have e1 := mul_nonneg ht0 (sub_nonneg.mpr hh1)
          have e2 := mul_nonneg (sub_nonneg.mpr ht1) (sub_nonneg.mpr hh0)
          nlinarith [e1, e2]
        · simp only [interpolationLineaire, hx0, hx1, if_false]
          exact ih'

theorem interpolationLineaire_borne_gauche (noeuds : List (ℚ × ℚ)) (xMin : ℚ)
    (hmin : (noeuds.map Prod.fst).head? = some xMin) (x : ℚ) (h : x ≤ xMin) :
    interpolationLineaire noeuds x = interpolationLineaire noeuds xMin := by
  cases noeuds with
  | nil => simp at hmin
  | cons n reste =>
    obtain ⟨x0, p0⟩ := n
    simp only [List.map_cons, List.head?_cons, Option.some.injEq] at hmin
    subst hmin
    rw [interpolationLineaire_of_le_premier _ _ _ _ h,
      interpolationLineaire_of_le_premier _ _ _ _ le_rfl]

theorem interpolationLineaire_borne_droite (noeuds : List (ℚ × ℚ))
    (hs : ClesCroissantes noeuds) (xMax : ℚ)
    (hmax : (noeuds.map Prod.fst).getLast? = some xMax) (x : ℚ) (h : xMax ≤ x) :
    interpolationLineaire noeuds x = interpolationLineaire noeuds xMax := by
  rw [List.getLast?_map] at hmax
  cases hd : noeuds.getLast? with
  | none => simp [hd] at hmax
  | some n =>
    obtain ⟨xd, pd⟩ := n
    simp only [hd, Option.map_some', Option.some.injEq] at hmax
    subst hmax
    rw [interpolationLineaire_of_ge_dernier _ hs _ _ hd _ h,
      interpolationLineaire_of_ge_dernier _ hs _ _ hd _ le_rfl]

theorem clesCroissantes_noeudsSuperficie (t : TableauDE) (hs : ClesCroissantes t)
    (distance : ℚ) : ClesCroissantes (noeudsSuperficie t distance) := by
  unfold ClesCroissantes
  rw [map_fst_noeudsSuperficie]
  exact hs

/-- Queried at the area of a row, a well-formed table gives the reference interpolation
of that row alone. -/
theorem calculerPourcentageTableauxDE_ligne (t : TableauDE) (h : TableauBienForme t)
    (a : ℚ) (ligne : Ligne) (ha : (a, ligne) ∈ t) (distance : ℚ) :
    calculerPourcentageTableauxDE t a distance =
      .ok (.nombre (interpolationLineaire ligne distance)) := by
  rw [calculerPourcentageTableauxDE_eq t h]
  congr 2
  apply interpolationLineaire_noeud _ (clesCroissantes_noeudsSuperficie t h.2.1 distance)
  exact List.mem_map.mpr ⟨(a, ligne), ha, rfl⟩

theorem zip_noeudsSuperficie (t : TableauDE) (hs : ClesCroissantes t) (distance : ℚ)
    (aInf aSup : ℚ) (ligneInf ligneSup : Ligne)
    (hadj : (aInf, aSup) ∈ (t.map Prod.fst).zip (t.map Prod.fst).tail)
    (h1 : t.lookup aInf = some ligneInf) (h2 : t.lookup aSup = some ligneSup) :
    ((aInf, interpolationLineaire ligneInf distance),
      (aSup, interpolationLineaire ligneSup distance)) ∈
      (noeudsSuperficie t distance).zip (noeudsSuperficie t distance).tail := by
  induction t with
  | nil => simp at hadj
  | cons n reste ih =>
    obtain ⟨a0, l0⟩ := n
    cases reste with
    | nil => simp at hadj
    | cons m r =>
      obtain ⟨a1, l1⟩ := m
      obtain ⟨hlt, hs1⟩ := clesCroissantes_cons.mp hs
      have h01 : a0 < a1 := hlt (a1, l1) (List.mem_cons_self _ _)
      simp only [List.map_cons, List.tail_cons, List.zip_cons_cons, List.mem_cons] at hadj
      simp only [noeudsSuperficie, List.map_cons, List.tail_cons, List.zip_cons_cons,
        List.mem_cons]
      rcases hadj with heq | hadj2
      · obtain ⟨rfl, rfl⟩ := Prod.mk.inj heq
        left
        rw [lookup_cons_of_lt (by exact h01)] at h2
        simp only [List.lookup, beq_self_eq_true, Option.some.injEq] at h1 h2
        rw [h1, h2]
      · right
        have hk := List.of_mem_zip hadj2
        have hgt : ∀ k, k ∈ a1 :: List.map Prod.fst r → a0 < k := by
          intro k hk'
          rcases List.mem_cons.mp hk' with rfl | hk''
          · exact h01
          · obtain ⟨c, hc, rfl⟩ := List.mem_map.mp hk''
            exact hlt c (List.mem_cons_of_mem _ hc)
        rw [lookup_cons_of_lt (by exact hgt _ hk.1)] at h1
        rw [lookup_cons_of_lt (by exact hgt _ (List.mem_cons_of_mem _ hk.2))] at h2
        have := ih hs1 (by simpa using hadj2) h1 h2
        simpa [noeudsSuperficie] using this

theorem TableauIntegre.valeursCroissantes (T : TableauIntegre) :
    ∀ al ∈ T.donnees, ValeursCroissantes al.2 :=
  valeursCroissantes_of_verifier _
    (T.forall_donnees (fun t => verifierValeursCroissantes t = true)
      (by decide!) (by decide!) (by decide!) (by decide!))

theorem TableauIntegre.dernier_cent (T : TableauIntegre) :
    ∀ al ∈ T.donnees, (al.2.getLast?).map Prod.snd = some 100 :=
  T.forall_donnees (fun t => ∀ al ∈ t, (al.2.getLast?).map Prod.snd = some 100)
    (by decide!) (by decide!) (by decide!) (by decide!)

theorem TableauIntegre.interpoler_valeur (T : TableauIntegre) (surface distance : ℚ) :
    T.interpoler surface distance =
      .ok (.nombre (interpolationLineaire (noeudsSuperficie T.donnees distance) surface)) := by
  rw [T.interpoler_eq, calculerPourcentageTableauxDE_eq _ T.bienForme]

theorem TableauIntegre.interpoler_ligne (T : TableauIntegre) (a : ℚ) (ligne : Ligne)
    (ha : (a, ligne) ∈ T.donnees) (distance : ℚ) :
    T.interpoler a distance = .ok (.nombre (interpolationLineaire ligne distance)) := by
  rw [T.interpoler_eq, calculerPourcentageTableauxDE_ligne _ T.bienForme a ligne ha]

theorem TableauIntegre.interpoler_noeud (T : TableauIntegre) (a : ℚ) (ligne : Ligne)
    (ha : (a, ligne) ∈ T.donnees) (d p : ℚ) (hd : (d, p) ∈ ligne) :
    T.interpoler a d = .ok (.nombre p) := by
  rw [T.interpoler_ligne a ligne ha]
  congr 2
  exact interpolationLineaire_noeud ligne (T.bienForme.2.2 _ ha).2 d p hd

/-! ## Table selection -/

/-- C1: for every group in A-F, every division in 1-3 and both values of the sprinkler
flag, the table code chosen by `calculerPourcentage` is one of "B", "C", "D", "E" and is
the one of the documented rule (with sprinklers: "E" for group E or group F division 1
or 2, "D" otherwise; without: "C" under the same condition, "B" otherwise), and
`calculerPourcentage` interpolates in exactly that table. -/
theorem calculerPourcentage_selection_tableau :
    ∀ usage ∈ ["A", "B", "C", "D", "E", "F"], ∀ division ∈ [(1 : ℤ), 2, 3],
    ∀ protectionGicleurs : Bool,
      codeTableau usage division protectionGicleurs ∈ ["B", "C", "D", "E"] ∧
      codeTableau usage division protectionGicleurs =
        (if protectionGicleurs = true then
          (if usage = "E" ∨ (usage = "F" ∧ (division = 1 ∨ division = 2)) then "E" else "D")
        else
          (if usage = "E" ∨ (usage = "F" ∧ (division = 1 ∨ division = 2)) then "C" else "B")) ∧
      ∀ (largeur hauteur distance : ℚ) (surface : Option ℚ),
        calculerPourcentage largeur hauteur distance usage division protectionGicleurs surface =
          (if codeTableau usage division protectionGicleurs = "B" then
            calculerPourcentageTableauxBC initialiserTableau3231B
              (determinerCategorieRapportLH largeur hauteur)
              (surface.getD (largeur * hauteur)) distance
          else if codeTableau usage division protectionGicleurs = "C" then
            calculerPourcentageTableauxBC initialiserTableau3231C
              (determinerCategorieRapportLH largeur hauteur)
              (surface.getD (largeur * hauteur)) distance
          else if codeTableau usage division protectionGicleurs = "D" then
            calculerPourcentageTableauxDE initialiserTableau3231D
              (surface.getD (largeur * hauteur)) distance
          else
            calculerPourcentageTableauxDE initialiserTableau3231E
              (surface.getD (largeur * hauteur)) distance) := by
  intro usage hu division hd g
  have hsurf : ∀ (l h : ℚ) (s : Option ℚ),
      (match s with | none => l * h | some s => s) = s.getD (l * h) := by
    intro l h s; cases s <;> rfl
  simp only [List.mem_cons, List.mem_singleton, List.not_mem_nil, or_false] at hu hd
  rcases hu with rfl | rfl | rfl | rfl | rfl | rfl <;>
    rcases hd with rfl | rfl | rfl <;> cases g <;>
    refine ⟨by decide, by decide, ?_⟩ <;>
    intro l h d s <;>
    simp [calculerPourcentage, codeTableau, hsurf]

/-- Witness for C1: group F, division 2, sprinklered selects table E. -/
theorem calculerPourcentage_selection_tableau_witness :
    codeTableau "F" 2 true = "E" :=
  ((calculerPourcentage_selection_tableau "F" (by decide) 2 (by decide) true).2.1).trans
    (by decide)

/-! ## Interpolation on the built-in tables -/

/-- C2 (exact breakpoint hit): in every built-in table (B and C in each category, D
and E), for every tabulated area `a` and every entry `(d, p)` of the row of `a`, the
interpolator queried at `(a, d)` returns exactly `p`. -/
theorem interpoler_point_tabule (T : TableauIntegre) (a : ℚ) (ligne : Ligne)
    (ha : (a, ligne) ∈ T.donnees) (d p : ℚ) (hd : (d, p) ∈ ligne) :
    T.interpoler a d = .ok (.nombre p) :=
  T.interpoler_noeud a ligne ha d p hd

/-- Witness for C2: table B, category "< 3:1", area 250, distance 16 gives 87. -/
theorem interpoler_point_tabule_witness :
    calculerPourcentageTableauxBC initialiserTableau3231B "< 3:1" 250 16 =
      .ok (.nombre 87) :=
  interpoler_point_tabule (.B .moinsDe3) 250
    [(0, 0), (1.2, 7), (1.5, 7), (2.0, 7), (2.5, 8), (3, 9), (4, 10), (5, 13), (6, 16),
      (7, 20), (8, 25), (9, 30), (10, 36), (11, 43), (12, 51), (13, 59), (14, 68), (16, 87),
      (18, 100)]
    (by decide!) 16 87 (by decide!)

/-- C3 (two-stage interpolation): in every built-in table, for adjacent area breakpoints
`aInf`, `aSup` with rows `ligneInf`, `ligneSup`, every area strictly between them and
every distance `d`, the interpolator returns
`r(aInf, d) + ((area - aInf) / (aSup - aInf)) * (r(aSup, d) - r(aInf, d))`, where
`r(a, d)` is the clamped piecewise-linear interpolation of the row of `a` at `d`. -/
theorem interpoler_deux_etapes (T : TableauIntegre) (aInf aSup : ℚ)
    (hadj : (aInf, aSup) ∈
      (getPlagesSuperficieDE T.donnees).zip (getPlagesSuperficieDE T.donnees).tail)
    (ligneInf ligneSup : Ligne) (hInf : T.donnees.lookup aInf = some ligneInf)
    (hSup : T.donnees.lookup aSup = some ligneSup)
    (surface distance : ℚ) (h0 : aInf < surface) (h1 : surface < aSup) :
    T.interpoler surface distance =
      .ok (.nombre (interpolationLineaire ligneInf distance +
        ((surface - aInf) / (aSup - aInf)) *
          (interpolationLineaire ligneSup distance -
            interpolationLineaire ligneInf distance))) := by
  have hb := T.bienForme
  rw [T.interpoler_valeur]
  congr 2
  unfold getPlagesSuperficieDE at hadj
  rw [cles_eq_of_croissantes hb.2.1] at hadj
  exact interpolationLineaire_entre _ (clesCroissantes_noeudsSuperficie _ hb.2.1 distance)
    _ _ _ _ (zip_noeudsSuperficie _ hb.2.1 distance aInf aSup ligneInf ligneSup hadj hInf hSup)
    surface h0 h1

/-- Witness for C3: table D between the rows of 10 and 15 m², at area 12 and
distance 1.3. -/
theorem interpoler_deux_etapes_witness :
    calculerPourcentageTableauxDE initialiserTableau3231D 12 1.3 =
      .ok (.nombre (interpolationLineaire
          [(0, 0), (1.2, 16), (1.5, 24), (2.0, 42), (2.5, 66), (3, 100)] 1.3 +
        ((12 - 10) / (15 - 10)) *
          (interpolationLineaire
              [(0, 0), (1.2, 16), (1.5, 20), (2.0, 34), (2.5, 50), (3, 74), (4, 100)] 1.3 -
            interpolationLineaire
              [(0, 0), (1.2, 16), (1.5, 24), (2.0, 42), (2.5, 66), (3, 100)] 1.3))) :=
  interpoler_deux_etapes .D 10 15 (by decide!) _ _ (by decide!) (by decide!) 12 1.3
    (by norm_num) (by norm_num)

/-- C4 (monotonicity in distance): in every built-in table, for every area and all
distances `d1 ≤ d2`, the interpolator returns numbers `p1` at `d1` and `p2` at `d2`
with `p1 ≤ p2`. -/
theorem interpoler_croissant_distance (T : TableauIntegre) (surface d1 d2 : ℚ)
    (h : d1 ≤ d2) :
    ∃ p1 p2, T.interpoler surface d1 = .ok (.nombre p1) ∧
      T.interpoler surface d2 = .ok (.nombre p2) ∧ p1 ≤ p2 := by
  have hb := T.bienForme
  refine ⟨_, _, T.interpoler_valeur surface d1, T.interpoler_valeur surface d2, ?_⟩
  · apply interpolationLineaire_noeudsSuperficie_mono _ hb.2.1
    intro al hal
    exact interpolationLineaire_mono al.2 (hb.2.2 al hal).2 (T.valeursCroissantes al hal) _ _ h

/-- Witness for C4: table E at area 33, distances 2.2 and 6.5. -/
theorem interpoler_croissant_distance_witness :
    ∃ p1 p2, calculerPourcentageTableauxDE initialiserTableau3231E 33 2.2 = .ok (.nombre p1) ∧
      calculerPourcentageTableauxDE initialiserTableau3231E 33 6.5 = .ok (.nombre p2) ∧
      p1 ≤ p2 :=
  interpoler_croissant_distance .E 33 2.2 6.5 (by norm_num)

/-- C5 (area boundary clamp): in every built-in table and at every distance, an area
below the smallest area breakpoint gives the result of the query at that breakpoint, an
area above the largest one gives the result of the query at the largest, and these
results are numbers. -/
theorem interpoler_borne_superficie (T : TableauIntegre) (aMin aMax : ℚ)
    (hmin : (getPlagesSuperficieDE T.donnees).head? = some aMin)
    (hmax : (getPlagesSuperficieDE T.donnees).getLast? = some aMax) (distance : ℚ) :
    (∀ surface, surface < aMin →
      T.interpoler surface distance = T.interpoler aMin distance) ∧
    (∀ surface, aMax < surface →
      T.interpoler surface distance = T.interpoler aMax distance) ∧
    ∃ pMin pMax, T.interpoler aMin distance = .ok (.nombre pMin) ∧
      T.interpoler aMax distance = .ok (.nombre pMax) := by
  have hb := T.bienForme
  have hs := clesCroissantes_noeudsSuperficie _ hb.2.1 distance
  unfold getPlagesSuperficieDE at hmin hmax
  rw [cles_eq_of_croissantes hb.2.1, ← map_fst_noeudsSuperficie _ distance] at hmin hmax
  refine ⟨?_, ?_, _, _, T.interpoler_valeur aMin distance, T.interpoler_valeur aMax distance⟩
  · intro surface h
    rw [T.interpoler_valeur, T.interpoler_valeur,
      interpolationLineaire_borne_gauche _ aMin hmin surface (le_of_lt h)]
  · intro surface h
    rw [T.interpoler_valeur, T.interpoler_valeur,
      interpolationLineaire_borne_droite _ hs aMax hmax surface (le_of_lt h)]

/-- Witness for C5: table B, category "> 10:1", whose areas run from 10 to 2000, at
distance 3.7. -/
theorem interpoler_borne_superficie_witness :
    (∀ surface, surface < 10 →
      calculerPourcentageTableauxBC initialiserTableau3231B "> 10:1" surface 3.7 =
        calculerPourcentageTableauxBC initialiserTableau3231B "> 10:1" 10 3.7) ∧
    (∀ surface, 2000 < surface →
      calculerPourcentageTableauxBC initialiserTableau3231B "> 10:1" surface 3.7 =
        calculerPourcentageTableauxBC initialiserTableau3231B "> 10:1" 2000 3.7) ∧
    ∃ pMin pMax,
      calculerPourcentageTableauxBC initialiserTableau3231B "> 10:1" 10 3.7 =
        .ok (.nombre pMin) ∧
      calculerPourcentageTableauxBC initialiserTableau3231B "> 10:1" 2000 3.7 =
        .ok (.nombre pMax) :=
  interpoler_borne_superficie (.B .plusDe10) 10 2000 (by decide!) (by decide!) 3.7

/-- C6 (distance boundary clamp): in every built-in table and for every tabulated area
row, a distance below the row's smallest distance breakpoint gives the result of the
query at that breakpoint, a distance above the largest one gives the result of the query
at the largest, and these results are numbers. -/
theorem interpoler_borne_distance (T : TableauIntegre) (a : ℚ) (ligne : Ligne)
    (ha : (a, ligne) ∈ T.donnees) (dMin dMax : ℚ)
    (hmin : (cles ligne).head? = some dMin) (hmax : (cles ligne).getLast? = some dMax) :
    (∀ distance, distance < dMin → T.interpoler a distance = T.interpoler a dMin) ∧
    (∀ distance, dMax < distance → T.interpoler a distance = T.interpoler a dMax) ∧
    ∃ pMin pMax, T.interpoler a dMin = .ok (.nombre pMin) ∧
      T.interpoler a dMax = .ok (.nombre pMax) := by
  have hb := T.bienForme
  have hl := (hb.2.2 _ ha).2
  have hq := T.interpoler_ligne a ligne ha
  rw [cles_eq_of_croissantes hl] at hmin hmax
  refine ⟨?_, ?_, _, _, hq dMin, hq dMax⟩
  · intro distance h
    rw [hq, hq, interpolationLineaire_borne_gauche _ dMin hmin distance (le_of_lt h)]
  · intro distance h
    rw [hq, hq, interpolationLineaire_borne_droite _ hl dMax hmax distance (le_of_lt h)]

/-- Witness for C6: table D, row of 25 m², whose distances run from 0 to 5. -/
theorem interpoler_borne_distance_witness :
    (∀ distance, distance < 0 →
      calculerPourcentageTableauxDE initialiserTableau3231D 25 distance =
        calculerPourcentageTableauxDE initialiserTableau3231D 25 0) ∧
    (∀ distance, 5 < distance →
      calculerPourcentageTableauxDE initialiserTableau3231D 25 distance =
        calculerPourcentageTableauxDE initialiserTableau3231D 25 5) ∧
    ∃ pMin pMax,
      calculerPourcentageTableauxDE initialiserTableau3231D 25 0 = .ok (.nombre pMin) ∧
      calculerPourcentageTableauxDE initialiserTableau3231D 25 5 = .ok (.nombre pMax) :=
  interpoler_borne_distance .D 25
    [(0, 0), (1.2, 14), (1.5, 18), (2.0, 26), (2.5, 38), (3, 52), (4, 90), (5, 100)]
    (by decide!) 0 5 (by decide!) (by decide!)

/-- C7 (saturation): in every built-in table and for every tabulated area row, the
percentage stored at the row's largest tabulated distance is 100, and the interpolator
queried at that area and that distance returns 100. -/
theorem interpoler_saturation (T : TableauIntegre) (a : ℚ) (ligne : Ligne)
    (ha : (a, ligne) ∈ T.donnees) (dMax : ℚ) (hmax : (cles ligne).getLast? = some dMax) :
    ligne.lookup dMax = some 100 ∧ T.interpoler a dMax = .ok (.nombre 100) := by
  have hb := T.bienForme
  have hl := (hb.2.2 _ ha).2
  have hc := T.dernier_cent _ ha
  rw [cles_eq_of_croissantes hl, List.getLast?_map] at hmax
  cases hd : ligne.getLast? with
  | none => simp [hd] at hmax
  | some n =>
    obtain ⟨xd, pd⟩ := n
    simp only [hd, Option.map_some', Option.some.injEq] at hmax hc
    rw [hmax, hc] at hd
    have hm : (dMax, 100) ∈ ligne := List.mem_of_getLast?_eq_some hd
    exact ⟨lookup_of_mem_croissantes hl hm, T.interpoler_noeud a ligne ha dMax 100 hm⟩

/-- Witness for C7: table E, row of 200 m², whose largest distance is 15. -/
theorem interpoler_saturation_witness :
    List.lookup (15 : ℚ)
        [((0 : ℚ), (0 : ℚ)), (1.2, 8), (1.5, 8), (2.0, 8), (2.5, 8), (3, 10), (4, 14), (5, 18),
          (6, 22), (7, 28), (8, 34), (9, 42), (10, 50), (11, 60), (12, 68), (13, 80),
          (14, 92), (15, 100)] = some 100 ∧
      calculerPourcentageTableauxDE initialiserTableau3231E 200 15 = .ok (.nombre 100) :=
  interpoler_saturation .E 200 _ (by decide!) 15 (by decide!)

/-! ## Binary64 rounding of the two unguarded quotients -/

namespace Flottant

theorem nombreDeBits_spec (reserve : ℕ) :
    ∀ n, n ≤ reserve → 0 < n →
      ∃ b, nombreDeBits reserve n = b + 1 ∧ 2 ^ b ≤ n ∧ n < 2 ^ (b + 1) := by
  induction reserve with
  | zero => intro n h1 h2; omega
  | succ r ih =>
    intro n h1 h2
    have hn : n ≠ 0 := by omega
    simp only [nombreDeBits, hn, if_false]
    by_cases h : n / 2 = 0
    · have h1n : n = 1 := by omega
      subst h1n
      refine ⟨0, ?_, by norm_num, by norm_num⟩
      cases r <;> simp [nombreDeBits]
    · obtain ⟨b, hb, hlo, hhi⟩ := ih (n / 2) (by omega) (by omega)
      refine ⟨b + 1, by rw [hb], ?_, ?_⟩
      · rw [pow_succ]; omega
      · rw [pow_succ]; omega

theorem exposant_spec (q : ℚ) (hq : 0 < q) :
    (2 : ℚ) ^ exposant q ≤ q ∧ q < (2 : ℚ) ^ (exposant q + 1) := by
  have hnum : 0 < q.num := Rat.num_pos.mpr hq
  have hden : 0 < q.den := q.den_pos
  obtain ⟨a, ha, ha1, ha2⟩ := nombreDeBits_spec q.num.natAbs q.num.natAbs le_rfl
    (Int.natAbs_pos.mpr (ne_of_gt hnum))
  obtain ⟨b, hb, hb1, hb2⟩ := nombreDeBits_spec q.den q.den le_rfl hden
  have hqe : q = (q.num.natAbs : ℚ) / (q.den : ℚ) := by
    have h1 : ((q.num.natAbs : ℤ) : ℚ) = (q.num : ℚ) := by
      rw [Int.natAbs_of_nonneg (le_of_lt hnum)]
    rw [← Int.cast_natCast, h1]
    exact (Rat.num_div_den q).symm
  have hdq : (0 : ℚ) < q.den := by exact_mod_cast hden
  have e1 : ((2 : ℚ) ^ a) ≤ q.num.natAbs := by exact_mod_cast ha1
  have e2 : ((q.num.natAbs : ℚ)) < 2 ^ (a + 1) := by exact_mod_cast ha2
  have e3 : ((2 : ℚ) ^ b) ≤ q.den := by exact_mod_cast hb1
  have e4 : ((q.den : ℚ)) < 2 ^ (b + 1) := by exact_mod_cast hb2
  have h2 : (0 : ℚ) < 2 := by norm_num
  have hz : ∀ n : ℕ, (2 : ℚ) ^ ((n : ℤ)) = 2 ^ n := fun n => zpow_natCast 2 n
  -- the candidate exponent
  have he0 : ((nombreDeBits q.num.natAbs q.num.natAbs : ℤ) - (nombreDeBits q.den q.den : ℤ)) =
      (a : ℤ) - b := by
    rw [ha, hb]; push_cast; ring
  have hup : q < (2 : ℚ) ^ ((a : ℤ) - b + 1) := by
    have : (2 : ℚ) ^ ((a : ℤ) - b + 1) = 2 ^ (a + 1) / 2 ^ b := by
      rw [show (a : ℤ) - b + 1 = ((a + 1 : ℕ) : ℤ) - (b : ℕ) by push_cast; ring,
        zpow_sub₀ (ne_of_gt h2), hz, hz]
    rw [this, hqe, div_lt_div_iff₀ hdq (by positivity)]
    calc (q.num.natAbs : ℚ) * 2 ^ b ≤ q.num.natAbs * q.den := by
          apply mul_le_mul_of_nonneg_left e3 (by positivity)
      _ < 2 ^ (a + 1) * q.den := by
          apply mul_lt_mul_of_pos_right e2 hdq
  have hlo : (2 : ℚ) ^ ((a : ℤ) - b - 1) ≤ q := by
    have : (2 : ℚ) ^ ((a : ℤ) - b - 1) = 2 ^ a / 2 ^ (b + 1) := by
      rw [show (a : ℤ) - b - 1 = ((a : ℕ) : ℤ) - ((b + 1 : ℕ) : ℤ) by push_cast; ring,
        zpow_sub₀ (ne_of_gt h2), hz, hz]
    rw [this, hqe, div_le_div_iff₀ (by positivity) hdq]
    calc (2 : ℚ) ^ a * q.den ≤ q.num.natAbs * q.den := by
          apply mul_le_mul_of_nonneg_right e1 (le_of_lt hdq)
      _ ≤ q.num.natAbs * 2 ^ (b + 1) := by
          apply mul_le_mul_of_nonneg_left (le_of_lt e4) (by positivity)
  unfold exposant
  simp only [he0]
  by_cases hc : (2 : ℚ) ^ ((a : ℤ) - b) ≤ q
  · rw [if_pos hc]
    exact ⟨hc, hup⟩
  · rw [if_neg hc]
    refine ⟨hlo, ?_⟩
    rw [show (a : ℤ) - b - 1 + 1 = (a : ℤ) - b by ring]
    exact not_le.mp hc

theorem exposant_le (q : ℚ) (hq : 0 < q) (j : ℤ) (h : q < (2 : ℚ) ^ (j + 1)) :
    exposant q ≤ j := by
  have h1 := (exposant_spec q hq).1
  have h2 : (2 : ℚ) ^ exposant q < (2 : ℚ) ^ (j + 1) := lt_of_le_of_lt h1 h
  have := (zpow_lt_zpow_iff_right₀ (by norm_num : (1 : ℚ) < 2)).mp h2
  omega

theorem le_exposant (q : ℚ) (hq : 0 < q) (j : ℤ) (h : (2 : ℚ) ^ j ≤ q) :
    j ≤ exposant q := by
  have h1 := (exposant_spec q hq).2
  have h2 : (2 : ℚ) ^ j < (2 : ℚ) ^ (exposant q + 1) := lt_of_le_of_lt h h1
  have := (zpow_lt_zpow_iff_right₀ (by norm_num : (1 : ℚ) < 2)).mp h2
  omega

theorem exposant_eq (q : ℚ) (j : ℤ) (h1 : (2 : ℚ) ^ j ≤ q) (h2 : q < (2 : ℚ) ^ (j + 1)) :
    exposant q = j := by
  have hq : 0 < q := lt_of_lt_of_le (by positivity) h1
  exact le_antisymm (exposant_le q hq j h2) (le_exposant q hq j h1)

theorem arrondiPair_le_of_lt (x : ℚ) (m : ℤ) (h : x < m + 1 / 2) : arrondiPair x ≤ m := by
  have hf := Int.floor_le x
  have hf2 := Int.lt_floor_add_one x
  unfold arrondiPair
  simp only
  by_cases c1 : x - ⌊x⌋ < 1 / 2
  · simp only [c1, if_true]
    have : (⌊x⌋ : ℚ) < m + 1 := by linarith
    have : ⌊x⌋ < m + 1 := by exact_mod_cast this
    omega
  · have c1' : (⌊x⌋ : ℚ) + 1 / 2 ≤ x := by linarith [not_lt.mp c1]
    have : (⌊x⌋ : ℚ) < m := by linarith
    have hlt : ⌊x⌋ < m := by exact_mod_cast this
    simp only [c1, if_false]
    split_ifs <;> omega

theorem le_arrondiPair_of_lt (x : ℚ) (m : ℤ) (h : (m : ℚ) - 1 / 2 < x) :
    m ≤ arrondiPair x := by
  have hf := Int.floor_le x
  have hf2 := Int.lt_floor_add_one x
  unfold arrondiPair
  simp only
  by_cases c1 : x - ⌊x⌋ < 1 / 2
  · simp only [c1, if_true]
    have : (m : ℚ) - 1 < ⌊x⌋ := by linarith
    have : m - 1 < ⌊x⌋ := by exact_mod_cast this
    omega
  · have : (m : ℚ) - 1 < ⌊x⌋ + 1 := by linarith
    have hlt : m - 1 < ⌊x⌋ + 1 := by exact_mod_cast this
    simp only [c1, if_false]
    by_cases c2 : 1 / 2 < x - ⌊x⌋
    · simp only [c2, if_true]; omega
    · have heq : x = ⌊x⌋ + 1 / 2 := by linarith [not_lt.mp c1, not_lt.mp c2]
      have : (m : ℚ) - 1 < ⌊x⌋ := by linarith
      have : m - 1 < ⌊x⌋ := by exact_mod_cast this
      simp only [c2, if_false]
      split_ifs <;> omega

theorem arrondiPair_le_of_le_pair (x : ℚ) (m : ℤ) (hm : m % 2 = 0) (h : x ≤ m + 1 / 2) :
    arrondiPair x ≤ m := by
  rcases lt_or_eq_of_le h with h | h
  · exact arrondiPair_le_of_lt x m h
  · have hfl : ⌊x⌋ = m := by
      rw [Int.floor_eq_iff]
      constructor <;> linarith
    unfold arrondiPair
    simp only [hfl]
    have c1 : ¬ (x - (m : ℚ) < 1 / 2) := by linarith
    have c2 : ¬ ((1 : ℚ) / 2 < x - m) := by linarith
    rw [if_neg c1, if_neg c2, if_pos hm]

theorem le_arrondiPair_of_le_pair (x : ℚ) (m : ℤ) (hm : m % 2 = 0) (h : (m : ℚ) - 1 / 2 ≤ x) :
    m ≤ arrondiPair x := by
  rcases lt_or_eq_of_le h with h | h
  · exact le_arrondiPair_of_lt x m h
  · have hfl : ⌊x⌋ = m - 1 := by
      rw [Int.floor_eq_iff]
      push_cast
      constructor <;> linarith
    unfold arrondiPair
    simp only [hfl]
    have c1 : ¬ (x - ((m - 1 : ℤ) : ℚ) < 1 / 2) := by push_cast; linarith
    have c2 : ¬ ((1 : ℚ) / 2 < x - ((m - 1 : ℤ) : ℚ)) := by push_cast; linarith
    have hodd : ¬ ((m - 1) % 2 = 0) := by omega
    rw [if_neg c1, if_neg c2, if_neg hodd]
    omega

theorem arrondiBinaire64_of_ne (q : ℚ) (hq : q ≠ 0) :
    arrondiBinaire64 q =
      arrondiPair (q / 2 ^ exposantQuantum q) * 2 ^ exposantQuantum q := by
  simp [arrondiBinaire64, hq]

theorem deux_zpow_pos (k : ℤ) : (0 : ℚ) < 2 ^ k := zpow_pos (by norm_num) k

theorem arrondiBinaire64_nonneg (q : ℚ) (hq : 0 < q) : 0 ≤ arrondiBinaire64 q := by
  rw [arrondiBinaire64_of_ne q (ne_of_gt hq)]
  have hx : 0 < q / 2 ^ exposantQuantum q := div_pos hq (deux_zpow_pos _)
  have h0 : (0 : ℤ) ≤ arrondiPair (q / 2 ^ exposantQuantum q) :=
    le_arrondiPair_of_lt _ 0 (by push_cast; linarith)
  have h0q : (0 : ℚ) ≤ (arrondiPair (q / 2 ^ exposantQuantum q) : ℚ) := by exact_mod_cast h0
  exact mul_nonneg h0q (le_of_lt (deux_zpow_pos _))

theorem arrondiBinaire64_nonpos (q : ℚ) (hq : q ≤ 0) : arrondiBinaire64 q ≤ 0 := by
  rcases eq_or_lt_of_le hq with h0 | hneg
  · simp [arrondiBinaire64, h0]
  · rw [arrondiBinaire64_of_ne q (ne_of_lt hneg)]
    have hx : q / 2 ^ exposantQuantum q < 0 := div_neg_of_neg_of_pos hneg (deux_zpow_pos _)
    have h0 : arrondiPair (q / 2 ^ exposantQuantum q) ≤ (0 : ℤ) :=
      arrondiPair_le_of_lt _ 0 (by push_cast; linarith)
    have h0q : (arrondiPair (q / 2 ^ exposantQuantum q) : ℚ) ≤ 0 := by exact_mod_cast h0
    exact mul_nonpos_of_nonpos_of_nonneg h0q (le_of_lt (deux_zpow_pos _))

/-- A power of two at or above the subnormal spacing is an upper bound of the rounded
value as soon as it is one of the exact value. -/
theorem arrondiBinaire64_le_zpow (q : ℚ) (hq : 0 < q) (j : ℤ) (hj : -1074 ≤ j)
    (h : q ≤ 2 ^ j) : arrondiBinaire64 q ≤ 2 ^ j := by
  rw [arrondiBinaire64_of_ne q (ne_of_gt hq)]
  have he : exposant |q| ≤ j := by
    rw [abs_of_pos hq]
    apply exposant_le q hq
    exact lt_of_le_of_lt h ((zpow_lt_zpow_iff_right₀ (by norm_num : (1 : ℚ) < 2)).mpr (by omega))
  have hk : exposantQuantum q ≤ j := by
    unfold exposantQuantum
    exact max_le (by omega) hj
  obtain ⟨n, hn⟩ := Int.eq_ofNat_of_zero_le (sub_nonneg.mpr hk)
  have hkpos := deux_zpow_pos (exposantQuantum q)
  have hpow : (2 : ℚ) ^ j = ((2 ^ n : ℤ) : ℚ) * 2 ^ exposantQuantum q := by
    have hjn : j = (n : ℤ) + exposantQuantum q := by omega
    push_cast
    rw [← zpow_natCast, ← zpow_add₀ (by norm_num : (2 : ℚ) ≠ 0), ← hjn]
  have hx : q / 2 ^ exposantQuantum q ≤ ((2 ^ n : ℤ) : ℚ) := by
    rw [div_le_iff₀ hkpos, ← hpow]
    exact h
  have hr : arrondiPair (q / 2 ^ exposantQuantum q) ≤ (2 ^ n : ℤ) :=
    arrondiPair_le_of_lt _ _ (by linarith)
  have hrq : (arrondiPair (q / 2 ^ exposantQuantum q) : ℚ) ≤ ((2 ^ n : ℤ) : ℚ) := by
    exact_mod_cast hr
  rw [hpow]
  exact mul_le_mul_of_nonneg_right hrq (le_of_lt hkpos)

/-- A power of two at or above the subnormal spacing is a lower bound of the rounded
value as soon as it is one of the exact value. -/
theorem zpow_le_arrondiBinaire64 (q : ℚ) (j : ℤ) (hj : -1074 ≤ j) (h : (2 : ℚ) ^ j ≤ q) :
    (2 : ℚ) ^ j ≤ arrondiBinaire64 q := by
  have hq : 0 < q := lt_of_lt_of_le (deux_zpow_pos j) h
  rw [arrondiBinaire64_of_ne q (ne_of_gt hq)]
  have he : j ≤ exposant |q| := by
    rw [abs_of_pos hq]
    exact le_exposant q hq j h
  have hspec : (2 : ℚ) ^ exposant |q| ≤ q := by
    have := (exposant_spec q hq).1
    rwa [abs_of_pos hq]
  have hk : exposantQuantum q ≤ exposant |q| := by
    unfold exposantQuantum
    exact max_le (by omega) (by omega)
  obtain ⟨n, hn⟩ := Int.eq_ofNat_of_zero_le (sub_nonneg.mpr hk)
  have hkpos := deux_zpow_pos (exposantQuantum q)
  have hpow : (2 : ℚ) ^ exposant |q| = ((2 ^ n : ℤ) : ℚ) * 2 ^ exposantQuantum q := by
    have hjn : exposant |q| = (n : ℤ) + exposantQuantum q := by omega
    push_cast
    rw [← zpow_natCast, ← zpow_add₀ (by norm_num : (2 : ℚ) ≠ 0), ← hjn]
  have hx : ((2 ^ n : ℤ) : ℚ) ≤ q / 2 ^ exposantQuantum q := by
    rw [le_div_iff₀ hkpos, ← hpow]
    exact hspec
  have hr : (2 ^ n : ℤ) ≤ arrondiPair (q / 2 ^ exposantQuantum q) :=
    le_arrondiPair_of_lt _ _ (by linarith)
  have hrq : ((2 ^ n : ℤ) : ℚ) ≤ (arrondiPair (q / 2 ^ exposantQuantum q) : ℚ) := by
    exact_mod_cast hr
  calc (2 : ℚ) ^ j ≤ 2 ^ exposant |q| :=
        (zpow_le_zpow_iff_right₀ (by norm_num : (1 : ℚ) < 2)).mpr he
    _ = ((2 ^ n : ℤ) : ℚ) * 2 ^ exposantQuantum q := hpow
    _ ≤ _ := mul_le_mul_of_nonneg_right hrq (le_of_lt hkpos)

/-- Inside a binade of the normal range the spacing is `2 ^ (j - 52)`. -/
theorem arrondiBinaire64_binade (q : ℚ) (j : ℤ) (hj : -1022 ≤ j) (h1 : (2 : ℚ) ^ j ≤ q)
    (h2 : q < 2 ^ (j + 1)) :
    arrondiBinaire64 q = arrondiPair (q / 2 ^ (j - 52)) * 2 ^ (j - 52) := by
  have hq : 0 < q := lt_of_lt_of_le (deux_zpow_pos j) h1
  have hk : exposantQuantum q = j - 52 := by
    unfold exposantQuantum
    rw [abs_of_pos hq, exposant_eq q j h1 h2]
    exact max_eq_left (by omega)
  rw [arrondiBinaire64_of_ne q (ne_of_gt hq), hk]

theorem arrondiBinaire64_lt_trois (q : ℚ) (h : q < 3 - 2 ^ (-52 : ℤ)) :
    arrondiBinaire64 q < 3 := by
  have h52 := deux_zpow_pos (-52)
  rcases le_or_lt q 0 with h0 | h0
  · exact lt_of_le_of_lt (arrondiBinaire64_nonpos q h0) (by norm_num)
  · rcases lt_or_le q 2 with hlt | hge
    · have := arrondiBinaire64_le_zpow q h0 1 (by norm_num) (by norm_num; linarith)
      norm_num at this
      linarith
    · rw [arrondiBinaire64_binade q 1 (by norm_num) (by norm_num; linarith)
        (by norm_num; linarith)]
      have hx : q / 2 ^ ((1 : ℤ) - 52) < ((3 * 2 ^ 51 - 1 : ℤ) : ℚ) + 1 / 2 := by
        rw [div_lt_iff₀ (deux_zpow_pos _)]
        norm_num at h ⊢
        linarith
      have hr := arrondiPair_le_of_lt _ _ hx
      have hrq : (arrondiPair (q / 2 ^ ((1 : ℤ) - 52)) : ℚ) ≤ ((3 * 2 ^ 51 - 1 : ℤ) : ℚ) := by
        exact_mod_cast hr
      have := mul_le_mul_of_nonneg_right hrq (le_of_lt (deux_zpow_pos ((1 : ℤ) - 52)))
      norm_num at this ⊢
      linarith

theorem trois_le_arrondiBinaire64 (q : ℚ) (h : 3 - 2 ^ (-52 : ℤ) ≤ q) :
    3 ≤ arrondiBinaire64 q := by
  rcases lt_or_le q 4 with hlt | hge
  · rw [arrondiBinaire64_binade q 1 (by norm_num) (by norm_num at h ⊢; linarith)
      (by norm_num; linarith)]
    have hx : ((3 * 2 ^ 51 : ℤ) : ℚ) - 1 / 2 ≤ q / 2 ^ ((1 : ℤ) - 52) := by
      rw [le_div_iff₀ (deux_zpow_pos _)]
      norm_num at h ⊢
      linarith
    have hr := le_arrondiPair_of_le_pair _ _ (by norm_num) hx
    have hrq : ((3 * 2 ^ 51 : ℤ) : ℚ) ≤ (arrondiPair (q / 2 ^ ((1 : ℤ) - 52)) : ℚ) := by
      exact_mod_cast hr
    have := mul_le_mul_of_nonneg_right hrq (le_of_lt (deux_zpow_pos ((1 : ℤ) - 52)))
    norm_num at this ⊢
    linarith
  · have := zpow_le_arrondiBinaire64 q 2 (by norm_num) (by norm_num; linarith)
    norm_num at this
    linarith

theorem arrondiBinaire64_le_dix (q : ℚ) (h : q ≤ 10 + 2 ^ (-50 : ℤ)) :
    arrondiBinaire64 q ≤ 10 := by
  rcases le_or_lt q 0 with h0 | h0
  · exact le_trans (arrondiBinaire64_nonpos q h0) (by norm_num)
  · rcases lt_or_le q 8 with hlt | hge
    · have := arrondiBinaire64_le_zpow q h0 3 (by norm_num) (by norm_num; linarith)
      norm_num at this
      linarith
    · rw [arrondiBinaire64_binade q 3 (by norm_num) (by norm_num; linarith)
        (by norm_num at h ⊢; linarith)]
      have hx : q / 2 ^ ((3 : ℤ) - 52) ≤ ((10 * 2 ^ 49 : ℤ) : ℚ) + 1 / 2 := by
        rw [div_le_iff₀ (deux_zpow_pos _)]
        norm_num at h ⊢
        linarith
      have hr := arrondiPair_le_of_le_pair _ _ (by norm_num) hx
      have hrq : (arrondiPair (q / 2 ^ ((3 : ℤ) - 52)) : ℚ) ≤ ((10 * 2 ^ 49 : ℤ) : ℚ) := by
        exact_mod_cast hr
      have := mul_le_mul_of_nonneg_right hrq (le_of_lt (deux_zpow_pos ((3 : ℤ) - 52)))
      norm_num at this ⊢
      linarith

theorem dix_lt_arrondiBinaire64 (q : ℚ) (h : 10 + 2 ^ (-50 : ℤ) < q) :
    10 < arrondiBinaire64 q := by
  have h50 := deux_zpow_pos (-50)
  rcases lt_or_le q 16 with hlt | hge
  · rw [arrondiBinaire64_binade q 3 (by norm_num) (by norm_num; linarith)
      (by norm_num; linarith)]
    have hx : ((10 * 2 ^ 49 + 1 : ℤ) : ℚ) - 1 / 2 < q / 2 ^ ((3 : ℤ) - 52) := by
      rw [lt_div_iff₀ (deux_zpow_pos _)]
      norm_num at h ⊢
      linarith
    have hr := le_arrondiPair_of_lt _ _ hx
    have hrq : ((10 * 2 ^ 49 + 1 : ℤ) : ℚ) ≤ (arrondiPair (q / 2 ^ ((3 : ℤ) - 52)) : ℚ) := by
      exact_mod_cast hr
    have := mul_le_mul_of_nonneg_right hrq (le_of_lt (deux_zpow_pos ((3 : ℤ) - 52)))
    norm_num at this ⊢
    linarith
  · have := zpow_le_arrondiBinaire64 q 4 (by norm_num) (by norm_num; linarith)
    norm_num at this
    linarith

/-- Comparing the stored value with a finite binary64 bound is comparing the rounded
value with it: an overflow to an infinity is on the same side of every such bound. -/
theorem binaire64_comparaisons (q c : ℚ) (hc : |c| < 2 ^ (1024 : ℤ)) :
    (binaire64 q).lt c = decide (arrondiBinaire64 q < c) ∧
      (binaire64 q).le c = decide (arrondiBinaire64 q ≤ c) ∧
      (binaire64 q).ge c = decide (c ≤ arrondiBinaire64 q) := by
  obtain ⟨hc1, hc2⟩ := abs_lt.mp hc
  unfold binaire64
  simp only
  by_cases hov : (2 : ℚ) ^ (1024 : ℤ) ≤ |arrondiBinaire64 q|
  · rw [if_pos hov]
    by_cases hq : 0 < q
    · have hr : (2 : ℚ) ^ (1024 : ℤ) ≤ arrondiBinaire64 q := by
        rwa [abs_of_nonneg (arrondiBinaire64_nonneg q hq)] at hov
      have h1 : ¬ arrondiBinaire64 q < c := by linarith
      have h2 : ¬ arrondiBinaire64 q ≤ c := by linarith
      have h3 : c ≤ arrondiBinaire64 q := by linarith
      simp [lt, le, ge, hq, h1, h2, h3]
    · have hr : arrondiBinaire64 q ≤ -(2 : ℚ) ^ (1024 : ℤ) := by
        rw [abs_of_nonpos (arrondiBinaire64_nonpos q (not_lt.mp hq))] at hov
        linarith
      have h1 : arrondiBinaire64 q < c := by linarith
      have h2 : arrondiBinaire64 q ≤ c := by linarith
      have h3 : ¬ c ≤ arrondiBinaire64 q := by linarith
      simp [lt, le, ge, hq, h1, h2, h3]
  · rw [if_neg hov]
    simp [lt, le, ge]

end Flottant

/-- With a non-zero height the code classifies the rounded quotient. -/
theorem determinerCategorieRapportLH_arrondi (largeur hauteur : ℚ) (h : hauteur ≠ 0) :
    determinerCategorieRapportLH largeur hauteur =
      if Flottant.arrondiBinaire64 (largeur / hauteur) < 3 then "< 3:1"
      else if Flottant.arrondiBinaire64 (largeur / hauteur) ≤ 10 then "3:1 à 10:1"
      else "> 10:1" := by
  obtain ⟨h1, _, h3⟩ := Flottant.binaire64_comparaisons (largeur / hauteur) 3 (by norm_num)
  obtain ⟨_, k2, _⟩ := Flottant.binaire64_comparaisons (largeur / hauteur) 10 (by norm_num)
  unfold determinerCategorieRapportLH
  simp only [Flottant.diviser, h, if_false, h1, h3, k2]
  by_cases c3 : Flottant.arrondiBinaire64 (largeur / hauteur) < 3
  · simp [c3]
  · have c3' : 3 ≤ Flottant.arrondiBinaire64 (largeur / hauteur) := not_lt.mp c3
    by_cases c10 : Flottant.arrondiBinaire64 (largeur / hauteur) ≤ 10 <;> simp [c3, c3', c10]

/-- With a non-zero height the code classifies the exact quotient against the thresholds
moved by half a spacing: `3 - 2 ^ (-52)` and `10 + 2 ^ (-50)`. -/
theorem determinerCategorieRapportLH_seuils (largeur hauteur : ℚ) (h : hauteur ≠ 0) :
    determinerCategorieRapportLH largeur hauteur =
      if largeur / hauteur < 3 - 2 ^ (-52 : ℤ) then "< 3:1"
      else if largeur / hauteur ≤ 10 + 2 ^ (-50 : ℤ) then "3:1 à 10:1"
      else "> 10:1" := by
  rw [determinerCategorieRapportLH_arrondi largeur hauteur h]
  by_cases c3 : largeur / hauteur < 3 - 2 ^ (-52 : ℤ)
  · rw [if_pos c3, if_pos (Flottant.arrondiBinaire64_lt_trois _ c3)]
  · have c3' := Flottant.trois_le_arrondiBinaire64 _ (not_lt.mp c3)
    rw [if_neg c3, if_neg (not_lt.mpr c3')]
    by_cases c10 : largeur / hauteur ≤ 10 + 2 ^ (-50 : ℤ)
    · rw [if_pos c10, if_pos (Flottant.arrondiBinaire64_le_dix _ c10)]
    · have c10' := Flottant.dix_lt_arrondiBinaire64 _ (not_le.mp c10)
      rw [if_neg c10, if_neg (not_le.mpr c10')]

/-- With height 0 the quotient is an infinity or `NaN`. -/
theorem determinerCategorieRapportLH_zero (largeur : ℚ) :
    determinerCategorieRapportLH largeur 0 = if largeur < 0 then "< 3:1" else "> 10:1" := by
  unfold determinerCategorieRapportLH
  by_cases h0 : largeur = 0
  · simp [Flottant.diviser, h0, Flottant.lt, Flottant.ge, Flottant.le]
  · by_cases hp : 0 < largeur
    · have hn : ¬ largeur < 0 := not_lt.mpr (le_of_lt hp)
      simp [Flottant.diviser, h0, hp, hn, Flottant.lt, Flottant.ge, Flottant.le]
    · have hn : largeur < 0 := lt_of_le_of_ne (not_lt.mp hp) h0
      simp [Flottant.diviser, h0, hp, hn, Flottant.lt, Flottant.ge, Flottant.le]

/-- In exact arithmetic and with a non-zero total the check is the comparison of the
exact percentage. -/
theorem verifierConformiteFacadeAvec_exact (total baies max : ℚ) (h : total ≠ 0) :
    verifierConformiteFacadeAvec Flottant.fini total baies max =
      decide (baies / total * 100 ≤ max) := by
  simp [verifierConformiteFacadeAvec, Flottant.diviser, h, Flottant.multiplier, Flottant.le]

/-- With a zero total the quotient is an infinity or `NaN`, whatever the arithmetic. -/
theorem verifierConformiteFacadeAvec_zero (arrondi : ℚ → Flottant) (baies max : ℚ) :
    verifierConformiteFacadeAvec arrondi 0 baies max = decide (baies < 0) := by
  unfold verifierConformiteFacadeAvec
  by_cases h0 : baies = 0
  · simp [Flottant.diviser, h0, Flottant.multiplier, Flottant.le]
  · by_cases hp : 0 < baies
    · have hn : ¬ baies < 0 := not_lt.mpr (le_of_lt hp)
      simp [Flottant.diviser, h0, hp, hn, Flottant.multiplier, Flottant.le]
    · have hn : baies < 0 := lt_of_le_of_ne (not_lt.mp hp) h0
      simp [Flottant.diviser, h0, hp, hn, Flottant.multiplier, Flottant.le]

/-- The result is always one of the three category keys. -/
theorem determinerCategorieRapportLH_libelle (largeur hauteur : ℚ) :
    ∃ c : Categorie, determinerCategorieRapportLH largeur hauteur = c.libelle := by
  unfold determinerCategorieRapportLH
  simp only
  split_ifs
  · exact ⟨.moinsDe3, rfl⟩
  · exact ⟨.de3A10, rfl⟩
  · exact ⟨.plusDe10, rfl⟩

/-! ## Aspect ratio, worked example, conformity -/

/-- Counterexample to C8: for the binary64 values of 3.03 and 1.01 (a positive height)
the exact quotient width / height is below 3, yet line 505 stores the quotient as 3.0 and
the function returns "3:1 à 10:1", not "< 3:1". -/
theorem determinerCategorieRapportLH_classes_contre_exemple :
    Flottant.binaire64 3.03 = .fini (6822953435466301 / 2251799813685248) ∧
    Flottant.binaire64 1.01 = .fini (4548635623644201 / 4503599627370496) ∧
    (0 : ℚ) < 4548635623644201 / 4503599627370496 ∧
    (6822953435466301 / 2251799813685248 : ℚ) / (4548635623644201 / 4503599627370496) < 3 ∧
    Flottant.binaire64
      ((6822953435466301 / 2251799813685248) / (4548635623644201 / 4503599627370496)) =
        .fini 3 ∧
    determinerCategorieRapportLH (6822953435466301 / 2251799813685248)
      (4548635623644201 / 4503599627370496) = "3:1 à 10:1" := by
  refine ⟨by decide!, by decide!, by norm_num, by norm_num, by decide!, by decide!⟩

/-- C8 (amended): for every width and every height > 0, `determinerCategorieRapportLH`
classifies the quotient width / height as line 505 stores it, rounded to the nearest
binary64 value: "< 3:1" when the rounded quotient is below 3, "3:1 à 10:1" when it is
between 3 and 10 inclusive, "> 10:1" when it is above 10. In terms of the exact quotient
the result is "< 3:1" when width / height < 3 - 2^-52, "3:1 à 10:1" when
3 - 2^-52 ≤ width / height ≤ 10 + 2^-50, and "> 10:1" when width / height > 10 + 2^-50. -/
theorem determinerCategorieRapportLH_classes (largeur hauteur : ℚ) (h : 0 < hauteur) :
    (determinerCategorieRapportLH largeur hauteur =
      if Flottant.arrondiBinaire64 (largeur / hauteur) < 3 then "< 3:1"
      else if Flottant.arrondiBinaire64 (largeur / hauteur) ≤ 10 then "3:1 à 10:1"
      else "> 10:1") ∧
    (largeur / hauteur < 3 - 2 ^ (-52 : ℤ) →
      determinerCategorieRapportLH largeur hauteur = "< 3:1") ∧
    (3 - 2 ^ (-52 : ℤ) ≤ largeur / hauteur ∧ largeur / hauteur ≤ 10 + 2 ^ (-50 : ℤ) →
      determinerCategorieRapportLH largeur hauteur = "3:1 à 10:1") ∧
    (10 + 2 ^ (-50 : ℤ) < largeur / hauteur →
      determinerCategorieRapportLH largeur hauteur = "> 10:1") := by
  have hne : hauteur ≠ 0 := ne_of_gt h
  refine ⟨determinerCategorieRapportLH_arrondi largeur hauteur hne, ?_, ?_, ?_⟩
  · intro h1
    rw [determinerCategorieRapportLH_seuils largeur hauteur hne, if_pos h1]
  · intro h2
    rw [determinerCategorieRapportLH_seuils largeur hauteur hne, if_neg (not_lt.mpr h2.1),
      if_pos h2.2]
  · intro h3
    have hn : ¬ largeur / hauteur < 3 - 2 ^ (-52 : ℤ) := by
      have : (3 : ℚ) - 2 ^ (-52 : ℤ) ≤ 10 + 2 ^ (-50 : ℤ) := by norm_num
      exact not_lt.mpr (le_of_lt (lt_of_le_of_lt this h3))
    rw [determinerCategorieRapportLH_seuils largeur hauteur hne, if_neg hn,
      if_neg (not_le.mpr h3)]

/-- Witness for C8 (amended): a 30 m by 10 m facade (quotient exactly 3) is in
"3:1 à 10:1". -/
theorem determinerCategorieRapportLH_classes_witness :
    determinerCategorieRapportLH 30 10 = "3:1 à 10:1" :=
  (determinerCategorieRapportLH_classes 30 10 (by norm_num)).2.2.1 (by norm_num)

/-- C9 (worked example): `calculerPourcentage(26.551, 10.830, 17.48, 'A', 2, false,
287.55)` selects table B and category "< 3:1", brackets the area between 250 and 350 and
the distance between 16 and 18 in both rows, and returns 89.09498
(= 96.62 + 0.3755 * (76.58 - 96.62)). -/
theorem calculerPourcentage_exemple :
    codeTableau "A" 2 false = "B" ∧
    determinerCategorieRapportLH 26.551 10.830 = "< 3:1" ∧
    getPlagesSuperficieBC initialiserTableau3231B "< 3:1" =
      .ok [10, 15, 20, 25, 30, 40, 50, 60, 80, 100, 150, 250, 350, 500, 1000, 2000] ∧
    encadrement [10, 15, 20, 25, 30, 40, 50, 60, 80, 100, 150, 250, 350, 500, 1000, 2000]
      287.55 = some (250, 350) ∧
    getPlagesDistanceBC initialiserTableau3231B "< 3:1" (some 250) =
      .ok [0, 1.2, 1.5, 2, 2.5, 3, 4, 5, 6, 7, 8, 9, 10, 11, 12, 13, 14, 16, 18] ∧
    encadrement [0, 1.2, 1.5, 2, 2.5, 3, 4, 5, 6, 7, 8, 9, 10, 11, 12, 13, 14, 16, 18]
      17.48 = some (16, 18) ∧
    getPlagesDistanceBC initialiserTableau3231B "< 3:1" (some 350) =
      .ok [0, 1.2, 1.5, 2, 2.5, 3, 4, 5, 6, 7, 8, 9, 10, 11, 12, 13, 14, 16, 18, 20, 25] ∧
    encadrement [0, 1.2, 1.5, 2, 2.5, 3, 4, 5, 6, 7, 8, 9, 10, 11, 12, 13, 14, 16, 18, 20, 25]
      17.48 = some (16, 18) ∧
    calculerPourcentage 26.551 10.830 17.48 "A" 2 false (some 287.55) =
      .ok (.nombre 89.09498) ∧
    (89.09498 : ℚ) = 96.62 + 0.3755 * (76.58 - 96.62) := by
  refine ⟨by decide!, by decide!, by decide!, by decide!, by decide!, by decide!, by decide!,
    by decide!, by decide!, by norm_num⟩

/-- C10 (defect of the code): with 7 m² of openings on a 100 m² facade and a maximum of
7 % the exact percentage equals the maximum, the case the claim calls conformant; line
864 computes `(7 / 100) * 100` in binary64 as 7 + 2^-50 (7.000000000000001) and
`verifierConformiteFacade(100, 7, 7)` returns false. -/
theorem verifierConformiteFacade_egalite_refusee :
    (7 / 100 : ℚ) * 100 ≤ 7 ∧
    Flottant.diviser Flottant.binaire64 7 100 =
      .fini (1261007895663739 / 18014398509481984) ∧
    (Flottant.diviser Flottant.binaire64 7 100).multiplier Flottant.binaire64 100 =
      .fini (7 + 2 ^ (-50 : ℤ)) ∧
    verifierConformiteFacade 100 7 7 = false := by
  refine ⟨by norm_num, by decide!, by decide!, by decide!⟩

/-! ## Comparing interpolated surfaces on a grid -/

theorem fraction_bornes {k k' x : ℚ} (h0 : k ≤ x) (h1 : x ≤ k') :
    0 ≤ (x - k) / (k' - k) ∧ (x - k) / (k' - k) ≤ 1 := by
  rcases eq_or_lt_of_le (le_trans h0 h1) with heq | hlt
  · subst heq
    simp
  · have hpos : 0 < k' - k := by linarith
    constructor
    · exact div_nonneg (by linarith) (le_of_lt hpos)
    · rw [div_le_one hpos]
      linarith

theorem couverture_grille (grille : List ℚ) (hne : grille ≠ []) (x : ℚ) :
    (∃ k, grille.head? = some k ∧ x ≤ k) ∨ (∃ k, grille.getLast? = some k ∧ k ≤ x) ∨
      ∃ k k', (k, k') ∈ grille.zip grille.tail ∧ k ≤ x ∧ x ≤ k' := by
  induction grille with
  | nil => exact absurd rfl hne
  | cons k reste ih =>
    by_cases hx : x ≤ k
    · exact Or.inl ⟨k, rfl, hx⟩
    · have hk : k ≤ x := le_of_lt (not_le.mp hx)
      cases reste with
      | nil => exact Or.inr (Or.inl ⟨k, rfl, hk⟩)
      | cons k' r =>
        rcases ih (by simp) with ⟨m, hm, hxm⟩ | ⟨m, hm, hmx⟩ | ⟨m, m', hmm, h1, h2⟩
        · simp only [List.head?_cons, Option.some.injEq] at hm
          rw [← hm] at hxm
          exact Or.inr (Or.inr ⟨k, k', by simp, hk, hxm⟩)
        · exact Or.inr (Or.inl ⟨m, by rw [List.getLast?_cons_cons]; exact hm, hmx⟩)
        · refine Or.inr (Or.inr ⟨m, m', ?_, h1, h2⟩)
          simp only [List.tail_cons, List.zip_cons_cons, List.mem_cons]
          exact Or.inr hmm

theorem mem_of_mem_zip_tail {grille : List ℚ} {k k' : ℚ}
    (h : (k, k') ∈ grille.zip grille.tail) : k ∈ grille ∧ k' ∈ grille := by
  have := List.of_mem_zip h
  exact ⟨this.1, List.mem_of_mem_tail this.2⟩

/-- Two functions affine on the cells of a grid are ordered everywhere as soon as they
are ordered on the grid. -/
theorem AffineSurGrille.le_partout {grille : List ℚ} {f g : ℚ → ℚ} (hne : grille ≠ [])
    (hf : AffineSurGrille grille f) (hg : AffineSurGrille grille g)
    (h : ∀ k ∈ grille, f k ≤ g k) (x : ℚ) : f x ≤ g x := by
  rcases couverture_grille grille hne x with ⟨k, hk, hx⟩ | ⟨k, hk, hx⟩ | ⟨k, k', hkk, h0, h1⟩
  · rw [hf.1 k hk x hx, hg.1 k hk x hx]
    exact h k (List.mem_of_mem_head? hk)
  · rw [hf.2.1 k hk x hx, hg.2.1 k hk x hx]
    exact h k (List.mem_of_getLast?_eq_some hk)
  · rw [hf.2.2 k k' hkk x h0 h1, hg.2.2 k k' hkk x h0 h1]
    obtain ⟨hm, hm'⟩ := mem_of_mem_zip_tail hkk
    obtain ⟨ht0, ht1⟩ := fraction_bornes h0 h1
    have e1 := mul_nonneg ht0 (sub_nonneg.mpr (h k' hm'))
    have e2 := mul_nonneg (sub_nonneg.mpr ht1) (sub_nonneg.mpr (h k hm))
    nlinarith [e1, e2]

theorem AffineSurGrille.combinaison {grille : List ℚ} {f g : ℚ → ℚ}
    (hf : AffineSurGrille grille f) (hg : AffineSurGrille grille g) (w : ℚ) :
    AffineSurGrille grille fun x => f x + w * (g x - f x) := by
  refine ⟨?_, ?_, ?_⟩
  · intro k hk x hx
    simp only [hf.1 k hk x hx, hg.1 k hk x hx]
  · intro k hk x hx
    simp only [hf.2.1 k hk x hx, hg.2.1 k hk x hx]
  · intro k k' hkk x h0 h1
    simp only [hf.2.2 k k' hkk x h0 h1, hg.2.2 k k' hkk x h0 h1]
    ring

theorem interpolationLineaire_cons_cons_entre (x0 p0 x1 p1 : ℚ) (r : List (ℚ × ℚ))
    (y : ℚ) (h0 : x0 ≤ y) (h1 : y ≤ x1) :
    interpolationLineaire ((x0, p0) :: (x1, p1) :: r) y =
      p0 + (y - x0) / (x1 - x0) * (p1 - p0) := by
  by_cases hy : y ≤ x0
  · have hye : y = x0 := le_antisymm hy h0
    simp [interpolationLineaire, hye]
  · simp [interpolationLineaire, hy, h1]

theorem interpolationLineaire_cons_cons_apres (x0 p0 x1 p1 : ℚ) (r : List (ℚ × ℚ))
    (h01 : x0 < x1) (y : ℚ) (hy : x1 ≤ y) :
    interpolationLineaire ((x0, p0) :: (x1, p1) :: r) y =
      interpolationLineaire ((x1, p1) :: r) y := by
  have hy0 : ¬ y ≤ x0 := not_le.mpr (lt_of_lt_of_le h01 hy)
  by_cases hy1 : y ≤ x1
  · have hye : y = x1 := le_antisymm hy1 hy
    have hne : x1 - x0 ≠ 0 := sub_ne_zero.mpr (ne_of_gt h01)
    rw [hye, interpolationLineaire_of_le_premier _ _ _ _ le_rfl]
    simp only [interpolationLineaire, not_le.mpr h01, if_false, le_refl, if_true]
    rw [div_self hne]
    ring
  · simp only [interpolationLineaire, hy0, hy1, if_false]

/-- Between two abscissas with no node strictly between them, the reference
interpolation is affine. -/
theorem interpolationLineaire_affine_sans_noeud (noeuds : List (ℚ × ℚ))
    (hs : ClesCroissantes noeuds) (a b : ℚ)
    (hgap : ∀ n ∈ noeuds, n.1 ≤ a ∨ b ≤ n.1) (x : ℚ) (hax : a ≤ x) (hxb : x ≤ b) :
    interpolationLineaire noeuds x =
      interpolationLineaire noeuds a +
        (x - a) / (b - a) * (interpolationLineaire noeuds b - interpolationLineaire noeuds a) := by
  induction noeuds with
  | nil => simp [interpolationLineaire]
  | cons n reste ih =>
    obtain ⟨x0, p0⟩ := n
    cases reste with
    | nil => simp [interpolationLineaire]
    | cons m r =>
      obtain ⟨x1, p1⟩ := m
      obtain ⟨hlt, hs1⟩ := clesCroissantes_cons.mp hs
      have h01 : x0 < x1 := hlt (x1, p1) (List.mem_cons_self _ _)
      have hab : a ≤ b := le_trans hax hxb
      rcases hgap (x0, p0) (List.mem_cons_self _ _) with h0a | hb0
      · rcases hgap (x1, p1) (List.mem_cons_of_mem _ (List.mem_cons_self _ _)) with h1a | hb1
        · rw [interpolationLineaire_cons_cons_apres _ _ _ _ _ h01 x (le_trans h1a hax),
            interpolationLineaire_cons_cons_apres _ _ _ _ _ h01 a h1a,
            interpolationLineaire_cons_cons_apres _ _ _ _ _ h01 b (le_trans h1a hab)]
          exact ih hs1 fun n hn => hgap n (List.mem_cons_of_mem _ hn)
        · rw [interpolationLineaire_cons_cons_entre _ _ _ _ _ x (le_trans h0a hax)
              (le_trans hxb hb1),
            interpolationLineaire_cons_cons_entre _ _ _ _ _ a h0a (le_trans hab hb1),
            interpolationLineaire_cons_cons_entre _ _ _ _ _ b (le_trans h0a hab) hb1]
          rcases eq_or_lt_of_le hab with heq | hlt2
          · have hxa : x = a := le_antisymm (heq ▸ hxb) hax
            subst hxa
            simp [heq]
          · have hne1 : x1 - x0 ≠ 0 := sub_ne_zero.mpr (ne_of_gt h01)
            have hne2 : b - a ≠ 0 := sub_ne_zero.mpr (ne_of_gt hlt2)
            field_simp
            ring
      · rw [interpolationLineaire_of_le_premier _ _ _ _ (le_trans hxb hb0),
          interpolationLineaire_of_le_premier _ _ _ _ (le_trans hab hb0),
          interpolationLineaire_of_le_premier _ _ _ _ hb0]
        ring

theorem premier_le_of_mem {grille : List ℚ} (hs : grille.Sorted (· < ·)) {k : ℚ}
    (hk : grille.head? = some k) : ∀ m ∈ grille, k ≤ m := by
  cases grille with
  | nil => simp at hk
  | cons k0 r =>
    simp only [List.head?_cons, Option.some.injEq] at hk
    subst hk
    intro m hm
    rcases List.mem_cons.mp hm with rfl | hm2
    · exact le_rfl
    · exact le_of_lt (List.rel_of_sorted_cons hs m hm2)

theorem le_dernier_of_mem {grille : List ℚ} (hs : grille.Sorted (· < ·)) {k : ℚ}
    (hk : grille.getLast? = some k) : ∀ m ∈ grille, m ≤ k := by
  induction grille with
  | nil => simp at hk
  | cons k0 r ih =>
    cases r with
    | nil =>
      simp only [List.getLast?_singleton, Option.some.injEq] at hk
      subst hk
      intro m hm
      simp only [List.mem_singleton] at hm
      exact le_of_eq hm
    | cons k1 r2 =>
      rw [List.getLast?_cons_cons] at hk
      intro m hm
      rcases List.mem_cons.mp hm with rfl | hm2
      · exact le_of_lt (List.rel_of_sorted_cons hs k (List.mem_of_getLast?_eq_some hk))
      · exact ih (List.Sorted.of_cons hs) hk m hm2

theorem sans_intermediaire_of_mem_zip_tail {grille : List ℚ} (hs : grille.Sorted (· < ·))
    {k k' : ℚ} (h : (k, k') ∈ grille.zip grille.tail) : ∀ m ∈ grille, m ≤ k ∨ k' ≤ m := by
  induction grille with
  | nil => simp at h
  | cons k0 r ih =>
    cases r with
    | nil => simp at h
    | cons k1 r2 =>
      simp only [List.tail_cons, List.zip_cons_cons, List.mem_cons] at h
      intro m hm
      rcases h with heq | h2
      · obtain ⟨rfl, rfl⟩ := Prod.mk.inj heq
        rcases List.mem_cons.mp hm with rfl | hm2
        · exact Or.inl le_rfl
        · right
          exact premier_le_of_mem (List.Sorted.of_cons hs) rfl m hm2
      · rcases List.mem_cons.mp hm with rfl | hm2
        · left
          exact le_of_lt (List.rel_of_sorted_cons hs k (List.of_mem_zip h2).1)
        · exact ih (List.Sorted.of_cons hs) h2 m hm2

/-- The reference interpolation through nodes taken on a sorted grid is affine on the
cells of that grid. -/
theorem interpolationLineaire_affineSurGrille (noeuds : List (ℚ × ℚ))
    (hs : ClesCroissantes noeuds) (grille : List ℚ) (hg : grille.Sorted (· < ·))
    (hsub : ∀ n ∈ noeuds, n.1 ∈ grille) :
    AffineSurGrille grille (interpolationLineaire noeuds) := by
  refine ⟨?_, ?_, ?_⟩
  · intro k hk x hx
    cases noeuds with
    | nil => simp [interpolationLineaire]
    | cons n reste =>
      obtain ⟨x0, p0⟩ := n
      have hk0 : k ≤ x0 := premier_le_of_mem hg hk x0 (hsub (x0, p0) (List.mem_cons_self _ _))
      rw [interpolationLineaire_of_le_premier _ _ _ _ (le_trans hx hk0),
        interpolationLineaire_of_le_premier _ _ _ _ hk0]
  · intro k hk x hx
    cases hd : noeuds.getLast? with
    | none =>
      have : noeuds = [] := List.getLast?_eq_none_iff.mp hd
      subst this
      simp [interpolationLineaire]
    | some n =>
      obtain ⟨xd, pd⟩ := n
      have hkd : xd ≤ k :=
        le_dernier_of_mem hg hk xd (hsub (xd, pd) (List.mem_of_getLast?_eq_some hd))
      rw [interpolationLineaire_of_ge_dernier _ hs _ _ hd _ (le_trans hkd hx),
        interpolationLineaire_of_ge_dernier _ hs _ _ hd _ hkd]
  · intro k k' hkk x h0 h1
    apply interpolationLineaire_affine_sans_noeud noeuds hs k k' _ x h0 h1
    intro n hn
    exact sans_intermediaire_of_mem_zip_tail hg hkk n.1 (hsub n hn)

theorem mem_of_sousListe (l grille : List ℚ) (h : sousListe l grille = true) :
    ∀ x ∈ l, x ∈ grille := by
  induction grille generalizing l with
  | nil =>
    cases l with
    | nil => intro x hx; simp at hx
    | cons a l => simp [sousListe] at h
  | cons b g ih =>
    cases l with
    | nil => intro x hx; simp at hx
    | cons a l =>
      intro x hx
      by_cases hab : a = b
      · simp only [sousListe, hab, if_true] at h
        rcases List.mem_cons.mp hx with rfl | hx2
        · exact hab ▸ List.mem_cons_self _ _
        · exact List.mem_cons_of_mem _ (ih l h x hx2)
      · simp only [sousListe, hab, if_false] at h
        exact List.mem_cons_of_mem _ (ih (a :: l) h x hx)

theorem grilleSuperficie_croissante : grilleSuperficie.Sorted (· < ·) :=
  sorted_lt_of_enChaine _ (by decide!)

theorem grilleDistance_croissante : grilleDistance.Sorted (· < ·) :=
  sorted_lt_of_enChaine _ (by decide!)

/-- Advancing a row keeps its keys increasing and its reference interpolation at and
right of the point advanced to. -/
theorem avancer_spec (l : Ligne) (hs : ClesCroissantes l) (y : ℚ) :
    ClesCroissantes (avancer l y) ∧ (∀ n ∈ avancer l y, n ∈ l) ∧
      ∀ z, y ≤ z → interpolationLineaire (avancer l y) z = interpolationLineaire l z := by
  induction l with
  | nil => exact ⟨hs, fun n hn => hn, fun z _ => rfl⟩
  | cons n reste ih =>
    obtain ⟨x0, p0⟩ := n
    cases reste with
    | nil => exact ⟨hs, fun n hn => hn, fun z _ => rfl⟩
    | cons m r =>
      obtain ⟨x1, p1⟩ := m
      obtain ⟨hlt, hs1⟩ := clesCroissantes_cons.mp hs
      have h01 : x0 < x1 := hlt (x1, p1) (List.mem_cons_self _ _)
      by_cases h1 : x1 ≤ y
      · obtain ⟨ih1, ih2, ih3⟩ := ih hs1
        simp only [avancer, h1, if_true]
        refine ⟨ih1, fun n hn => List.mem_cons_of_mem _ (ih2 n hn), ?_⟩
        intro z hz
        rw [ih3 z hz, interpolationLineaire_cons_cons_apres _ _ _ _ _ h01 z (le_trans h1 hz)]
      · have he : avancer ((x0, p0) :: (x1, p1) :: r) y = (x0, p0) :: (x1, p1) :: r := by
          simp only [avancer, h1, if_false]
        rw [he]
        exact ⟨hs, fun n hn => hn, fun z _ => rfl⟩

theorem avancerPonderee_spec (p q : Ponderee) (grille : List ℚ) (hp : p.SurGrille grille)
    (d : ℚ) (h : avancerPonderee p d = some q) :
    q.SurGrille grille ∧ ∀ z, d ≤ z → valeurPonderee q z = valeurPonderee p z := by
  obtain ⟨lo, autre⟩ := p
  cases autre with
  | none =>
    have hlo := hp lo (by simp [Ponderee.lignes])
    obtain ⟨s1, s2, s3⟩ := avancer_spec lo hlo.1 d
    cases ha : avancer lo d with
    | nil => simp [avancerPonderee, ha] at h
    | cons a ra =>
      simp only [avancerPonderee, ha, Option.some.injEq] at h
      subst h
      rw [ha] at s1 s2 s3
      refine ⟨?_, ?_⟩
      · intro l hl
        simp only [Ponderee.lignes, List.mem_singleton] at hl
        subst hl
        exact ⟨s1, fun n hn => hlo.2 n (s2 n hn)⟩
      · intro z hz
        simp only [valeurPonderee, s3 z hz]
  | some hw =>
    obtain ⟨hi, w⟩ := hw
    have hlo := hp lo (by simp [Ponderee.lignes])
    have hhi := hp hi (by simp [Ponderee.lignes])
    obtain ⟨s1, s2, s3⟩ := avancer_spec lo hlo.1 d
    obtain ⟨u1, u2, u3⟩ := avancer_spec hi hhi.1 d
    cases ha : avancer lo d with
    | nil => simp [avancerPonderee, ha] at h
    | cons a ra =>
      cases hb : avancer hi d with
      | nil => simp [avancerPonderee, ha, hb] at h
      | cons b rb =>
        simp only [avancerPonderee, ha, hb, Option.some.injEq] at h
        subst h
        rw [ha] at s1 s2 s3
        rw [hb] at u1 u2 u3
        refine ⟨?_, ?_⟩
        · intro l hl
          simp only [Ponderee.lignes, List.mem_cons, List.mem_singleton, List.not_mem_nil,
            or_false] at hl
          rcases hl with rfl | rfl
          · exact ⟨s1, fun n hn => hlo.2 n (s2 n hn)⟩
          · exact ⟨u1, fun n hn => hhi.2 n (u2 n hn)⟩
        · intro z hz
          simp only [valeurPonderee, s3 z hz, u3 z hz]

/-- The sweep is sound: when it succeeds on an increasing grid, the first combination is
at most the second at every point of that grid. -/
theorem verifierPonderees_correct (grille : List ℚ) (hg : grille.Sorted (· < ·))
    (cles : List ℚ) :
    ∀ p1 p2 : Ponderee, p1.SurGrille cles → p2.SurGrille cles →
      verifierPonderees grille p1 p2 = true →
      ∀ d ∈ grille, valeurPonderee p1 d ≤ valeurPonderee p2 d := by
  induction grille with
  | nil => intro _ _ _ _ _ d hd; simp at hd
  | cons d0 g ih =>
    intro p1 p2 h1 h2 hv d hd
    cases hq1 : avancerPonderee p1 d0 with
    | none => simp [verifierPonderees, hq1] at hv
    | some q1 =>
      cases hq2 : avancerPonderee p2 d0 with
      | none => simp [verifierPonderees, hq1, hq2] at hv
      | some q2 =>
        simp only [verifierPonderees, hq1, hq2, Bool.and_eq_true, decide_eq_true_eq] at hv
        obtain ⟨a1, b1⟩ := avancerPonderee_spec p1 q1 cles h1 d0 hq1
        obtain ⟨a2, b2⟩ := avancerPonderee_spec p2 q2 cles h2 d0 hq2
        rcases List.mem_cons.mp hd with rfl | hd2
        · rw [← b1 d le_rfl, ← b2 d le_rfl]
          exact hv.1
        · have hle : d0 ≤ d := le_of_lt (List.rel_of_sorted_cons hg d hd2)
          rw [← b1 d hle, ← b2 d hle]
          exact ih (List.Sorted.of_cons hg) q1 q2 a1 a2 hv.2 d hd2

theorem valeurPonderee_affineSurGrille (p : Ponderee) (grille : List ℚ)
    (hg : grille.Sorted (· < ·)) (hp : p.SurGrille grille) :
    AffineSurGrille grille (valeurPonderee p) := by
  obtain ⟨lo, autre⟩ := p
  cases autre with
  | none =>
    have hlo := hp lo (by simp [Ponderee.lignes])
    exact interpolationLineaire_affineSurGrille lo hlo.1 grille hg hlo.2
  | some hw =>
    obtain ⟨hi, w⟩ := hw
    have hlo := hp lo (by simp [Ponderee.lignes])
    have hhi := hp hi (by simp [Ponderee.lignes])
    exact AffineSurGrille.combinaison
      (interpolationLineaire_affineSurGrille lo hlo.1 grille hg hlo.2)
      (interpolationLineaire_affineSurGrille hi hhi.1 grille hg hhi.2) w

/-- A successful sweep along the distance grid orders two combinations of rows at every
distance. -/
theorem le_partout_of_verifierPonderees (p1 p2 : Ponderee)
    (h1 : p1.SurGrille grilleDistance) (h2 : p2.SurGrille grilleDistance)
    (h : verifierPonderees grilleDistance p1 p2 = true) (d : ℚ) :
    valeurPonderee p1 d ≤ valeurPonderee p2 d :=
  AffineSurGrille.le_partout (by decide)
    (valeurPonderee_affineSurGrille p1 _ grilleDistance_croissante h1)
    (valeurPonderee_affineSurGrille p2 _ grilleDistance_croissante h2)
    (verifierPonderees_correct _ grilleDistance_croissante _ p1 p2 h1 h2 h) d

theorem dansGrilles_of_verifier (t : TableauDE) (h : verifierDansGrilles t = true) :
    (∀ al ∈ t, al.1 ∈ grilleSuperficie) ∧ ∀ al ∈ t, ∀ n ∈ al.2, n.1 ∈ grilleDistance := by
  simp only [verifierDansGrilles, Bool.and_eq_true, List.all_eq_true] at h
  constructor
  · intro al hal
    exact mem_of_sousListe _ _ h.1 al.1 (List.mem_map.mpr ⟨al, hal, rfl⟩)
  · intro al hal n hn
    exact mem_of_sousListe _ _ (h.2 al hal) n.1 (List.mem_map.mpr ⟨n, hn, rfl⟩)

/-- The rows found by `lignesPonderees` are rows of the table, and their combination is
the reference value of the table at that area. -/
theorem lignesPonderees_spec (t : TableauDE) (hs : ClesCroissantes t) (a : ℚ)
    (p : Ponderee) (h : lignesPonderees t a = some p) :
    (∀ l ∈ p.lignes, ∃ a', (a', l) ∈ t) ∧
      ∀ d, interpolationLineaire (noeudsSuperficie t d) a = valeurPonderee p d := by
  induction t with
  | nil => simp [lignesPonderees] at h
  | cons n reste ih =>
    obtain ⟨a0, l0⟩ := n
    cases reste with
    | nil =>
      simp only [lignesPonderees, Option.some.injEq] at h
      subst h
      refine ⟨?_, ?_⟩
      · intro l hl
        simp only [Ponderee.lignes, List.mem_singleton] at hl
        exact ⟨a0, by simp [hl]⟩
      · intro d
        simp [noeudsSuperficie, interpolationLineaire, valeurPonderee]
    | cons m r =>
      obtain ⟨a1, l1⟩ := m
      obtain ⟨hlt, hs1⟩ := clesCroissantes_cons.mp hs
      have h01 : a0 < a1 := hlt (a1, l1) (List.mem_cons_self _ _)
      by_cases h0 : a ≤ a0
      · simp only [lignesPonderees, h0, if_true, Option.some.injEq] at h
        subst h
        refine ⟨?_, ?_⟩
        · intro l hl
          simp only [Ponderee.lignes, List.mem_singleton] at hl
          exact ⟨a0, by simp [hl]⟩
        · intro d
          simp [noeudsSuperficie, interpolationLineaire, valeurPonderee, h0]
      · by_cases h1 : a < a1
        · simp only [lignesPonderees, h0, h1, if_false, if_true, Option.some.injEq] at h
          subst h
          refine ⟨?_, ?_⟩
          · intro l hl
            simp only [Ponderee.lignes, List.mem_cons, List.mem_singleton, List.not_mem_nil,
              or_false] at hl
            rcases hl with rfl | rfl
            · exact ⟨a0, by simp⟩
            · exact ⟨a1, by simp⟩
          · intro d
            simp [noeudsSuperficie, interpolationLineaire, valeurPonderee, h0, le_of_lt h1]
        · simp only [lignesPonderees, h0, h1, if_false] at h
          obtain ⟨ih1, ih2⟩ := ih hs1 h
          refine ⟨?_, ?_⟩
          · intro l hl
            obtain ⟨a', ha'⟩ := ih1 l hl
            exact ⟨a', List.mem_cons_of_mem _ ha'⟩
          · intro d
            rw [← ih2 d]
            simp only [noeudsSuperficie, List.map_cons]
            exact interpolationLineaire_cons_cons_apres _ _ _ _ _ h01 a (not_lt.mp h1)

theorem surGrille_of_lignes (t : TableauDE) (hb : TableauBienForme t)
    (hg : ∀ al ∈ t, ∀ n ∈ al.2, n.1 ∈ grilleDistance) (p : Ponderee)
    (hp : ∀ l ∈ p.lignes, ∃ a', (a', l) ∈ t) : p.SurGrille grilleDistance := by
  intro l hl
  obtain ⟨a', ha'⟩ := hp l hl
  exact ⟨(hb.2.2 _ ha').2, hg _ ha'⟩

/-- Two well-formed tables with breakpoints on the grids are ordered at every area and
distance as soon as the Boolean check succeeds. -/
theorem le_partout_of_verifierTableauInferieur (t1 t2 : TableauDE)
    (h1 : TableauBienForme t1) (h2 : TableauBienForme t2)
    (hg1 : verifierDansGrilles t1 = true) (hg2 : verifierDansGrilles t2 = true)
    (h : verifierTableauInferieur t1 t2 = true) (s d : ℚ) :
    interpolationLineaire (noeudsSuperficie t1 d) s ≤
      interpolationLineaire (noeudsSuperficie t2 d) s := by
  obtain ⟨ga1, gd1⟩ := dansGrilles_of_verifier t1 hg1
  obtain ⟨ga2, gd2⟩ := dansGrilles_of_verifier t2 hg2
  have haff : ∀ (t : TableauDE), TableauBienForme t → (∀ al ∈ t, al.1 ∈ grilleSuperficie) →
      AffineSurGrille grilleSuperficie (interpolationLineaire (noeudsSuperficie t d)) := by
    intro t ht hga
    apply interpolationLineaire_affineSurGrille _
      (clesCroissantes_noeudsSuperficie t ht.2.1 d) _ grilleSuperficie_croissante
    intro n hn
    obtain ⟨al, hal, rfl⟩ := List.mem_map.mp hn
    exact hga al hal
  refine AffineSurGrille.le_partout (by decide) (haff t1 h1 ga1) (haff t2 h2 ga2) ?_ s
  intro a ha
  simp only [verifierTableauInferieur, List.all_eq_true] at h
  have hcheck := h a ha
  cases hp1 : lignesPonderees t1 a with
  | none => simp [hp1] at hcheck
  | some p1 =>
    cases hp2 : lignesPonderees t2 a with
    | none => simp [hp1, hp2] at hcheck
    | some p2 =>
      simp only [hp1, hp2] at hcheck
      obtain ⟨r1, v1⟩ := lignesPonderees_spec t1 h1.2.1 a p1 hp1
      obtain ⟨r2, v2⟩ := lignesPonderees_spec t2 h2.2.1 a p2 hp2
      rw [v1 d, v2 d]
      exact le_partout_of_verifierPonderees p1 p2 (surGrille_of_lignes t1 h1 gd1 p1 r1)
        (surGrille_of_lignes t2 h2 gd2 p2 r2) hcheck d

/-- In a well-formed table that passes `verifierDecroissant`, a row is below every
row listed before it, at every distance. -/
theorem pairwise_of_verifierDecroissant (t : TableauDE)
    (hl : ∀ al ∈ t, LigneBienFormee al.2)
    (hg : ∀ al ∈ t, ∀ n ∈ al.2, n.1 ∈ grilleDistance) (h : verifierDecroissant t = true) :
    t.Pairwise fun r1 r2 =>
      ∀ d, interpolationLineaire r2.2 d ≤ interpolationLineaire r1.2 d := by
  have hchain : t.Chain' fun r1 r2 =>
      ∀ d, interpolationLineaire r2.2 d ≤ interpolationLineaire r1.2 d := by
    induction t with
    | nil => exact List.chain'_nil
    | cons n reste ih =>
      obtain ⟨a0, l0⟩ := n
      cases reste with
      | nil => exact List.chain'_singleton _
      | cons m r =>
        obtain ⟨a1, l1⟩ := m
        simp only [verifierDecroissant, Bool.and_eq_true] at h
        refine List.chain'_cons.mpr ⟨?_, ih (fun al hal => hl al (List.mem_cons_of_mem _ hal))
          (fun al hal => hg al (List.mem_cons_of_mem _ hal)) h.2⟩
        intro d
        have hs0 : Ponderee.SurGrille (l0, none) grilleDistance := by
          intro l hl'
          simp only [Ponderee.lignes, List.mem_singleton] at hl'
          subst hl'
          exact ⟨(hl (a0, l) (List.mem_cons_self _ _)).2, hg (a0, l) (List.mem_cons_self _ _)⟩
        have hs1 : Ponderee.SurGrille (l1, none) grilleDistance := by
          intro l hl'
          simp only [Ponderee.lignes, List.mem_singleton] at hl'
          subst hl'
          exact ⟨(hl (a1, l) (List.mem_cons_of_mem _ (List.mem_cons_self _ _))).2,
            hg (a1, l) (List.mem_cons_of_mem _ (List.mem_cons_self _ _))⟩
        exact le_partout_of_verifierPonderees (l1, none) (l0, none) hs1 hs0 h.1 d
  exact (@List.chain'_iff_pairwise _ _ ⟨fun _ _ _ hab hbc d => le_trans (hbc d) (hab d)⟩ t).mp
    hchain

theorem premier_le_of_mem_le {l : List ℚ} (hs : l.Sorted (· ≤ ·)) {k : ℚ}
    (hk : l.head? = some k) : ∀ m ∈ l, k ≤ m := by
  cases l with
  | nil => simp at hk
  | cons k0 r =>
    simp only [List.head?_cons, Option.some.injEq] at hk
    subst hk
    intro m hm
    rcases List.mem_cons.mp hm with rfl | hm2
    · exact le_rfl
    · exact List.rel_of_sorted_cons hs m hm2

theorem le_dernier_of_mem_le {l : List ℚ} (hs : l.Sorted (· ≤ ·)) {k : ℚ}
    (hk : l.getLast? = some k) : ∀ m ∈ l, m ≤ k := by
  induction l with
  | nil => simp at hk
  | cons k0 r ih =>
    cases r with
    | nil =>
      simp only [List.getLast?_singleton, Option.some.injEq] at hk
      subst hk
      intro m hm
      simp only [List.mem_singleton] at hm
      exact le_of_eq hm
    | cons k1 r2 =>
      rw [List.getLast?_cons_cons] at hk
      intro m hm
      rcases List.mem_cons.mp hm with rfl | hm2
      · exact List.rel_of_sorted_cons hs k (List.mem_of_getLast?_eq_some hk)
      · exact ih (List.Sorted.of_cons hs) hk m hm2

/-- With increasing keys, reading the row at its sorted keys gives its percentages in
the order of the list. -/
theorem pourcentagesOrdonnes_eq (ligne : Ligne) (hs : ClesCroissantes ligne) :
    pourcentagesOrdonnes ligne = ligne.map Prod.snd := by
  unfold pourcentagesOrdonnes
  rw [cles_eq_of_croissantes hs, List.filterMap_map]
  have hcongr : ∀ n ∈ ligne, ((fun d => List.lookup d ligne) ∘ Prod.fst) n = some n.2 := by
    intro n hn
    exact lookup_of_mem_croissantes hs (a := n.1) (b := n.2) hn
  rw [List.filterMap_congr hcongr]
  exact congrFun (List.filterMap_eq_map Prod.snd) ligne

theorem TableauIntegre.dansGrilles (T : TableauIntegre) :
    verifierDansGrilles T.donnees = true :=
  T.forall_donnees (fun t => verifierDansGrilles t = true)
    (by decide!) (by decide!) (by decide!) (by decide!)

set_option maxHeartbeats 20000000 in
theorem TableauIntegre.decroissant (T : TableauIntegre) :
    verifierDecroissant T.donnees = true :=
  T.forall_donnees (fun t => verifierDecroissant t = true)
    (by decide!) (by decide!) (by decide!) (by decide!)

theorem TableauIntegre.premier_zero (T : TableauIntegre) :
    ∀ al ∈ T.donnees, (al.2.head?).map Prod.snd = some 0 :=
  T.forall_donnees (fun t => ∀ al ∈ t, (al.2.head?).map Prod.snd = some 0)
    (by decide!) (by decide!) (by decide!) (by decide!)

/-- Two built-in tables that pass the Boolean comparison give ordered numbers at every
query. -/
theorem TableauIntegre.interpoler_le (T1 T2 : TableauIntegre)
    (h : verifierTableauInferieur T1.donnees T2.donnees = true) (s d : ℚ) :
    ∃ p1 p2, T1.interpoler s d = .ok (.nombre p1) ∧ T2.interpoler s d = .ok (.nombre p2) ∧
      p1 ≤ p2 :=
  ⟨_, _, T1.interpoler_valeur s d, T2.interpoler_valeur s d,
    le_partout_of_verifierTableauInferieur _ _ T1.bienForme T2.bienForme T1.dansGrilles
      T2.dansGrilles h s d⟩

/-- In a built-in table, the row of a larger area is below the row of a smaller area at
every distance. -/
theorem TableauIntegre.ligne_le_ligne (T : TableauIntegre) (a1 a2 : ℚ)
    (ligne1 ligne2 : Ligne) (h1 : (a1, ligne1) ∈ T.donnees) (h2 : (a2, ligne2) ∈ T.donnees)
    (h : a1 < a2) (d : ℚ) :
    interpolationLineaire ligne2 d ≤ interpolationLineaire ligne1 d := by
  have hb := T.bienForme
  have hp := pairwise_of_verifierDecroissant T.donnees hb.2.2
    (dansGrilles_of_verifier _ T.dansGrilles).2 T.decroissant
  have hk : T.donnees.Pairwise fun x y => x.1 < y.1 := List.pairwise_map.mp hb.2.1
  have hboth := (hk.and hp).imp (S := fun x y =>
      (x.1 < y.1 → ∀ d, interpolationLineaire y.2 d ≤ interpolationLineaire x.2 d) ∧
      (y.1 < x.1 → ∀ d, interpolationLineaire x.2 d ≤ interpolationLineaire y.2 d))
    (fun hxy => ⟨fun _ => hxy.2, fun hyx => absurd hyx (lt_asymm hxy.1)⟩)
  have hsym : Symmetric fun (x y : ℚ × Ligne) =>
      (x.1 < y.1 → ∀ d, interpolationLineaire y.2 d ≤ interpolationLineaire x.2 d) ∧
      (y.1 < x.1 → ∀ d, interpolationLineaire x.2 d ≤ interpolationLineaire y.2 d) :=
    fun _ _ hxy => ⟨hxy.2, hxy.1⟩
  have hne : (a1, ligne1) ≠ (a2, ligne2) := fun he => (ne_of_lt h) (Prod.mk.inj he).1
  exact (hboth.forall hsym h1 h2 hne).1 h d

/-! ## Conformity and degenerate inputs -/

/-- C11 (defect of the code): for total 1 and p = 7, `calculerSuperficieMaximale(1, 7)`
is the binary64 value of 7 / 100; given back to `verifierConformiteFacade(1, ·, 7)`,
line 864 computes 7 + 2^-50 (7.000000000000001) and the call returns false: the
maximum authorised area is refused. -/
theorem verifierConformiteFacade_superficieMaximale_refusee :
    Flottant.binaire64 (calculerSuperficieMaximale 1 7) =
      .fini (1261007895663739 / 18014398509481984) ∧
    (Flottant.diviser Flottant.binaire64 (1261007895663739 / 18014398509481984)
        1).multiplier Flottant.binaire64 100 = .fini (7 + 2 ^ (-50 : ℤ)) ∧
    verifierConformiteFacade 1 (1261007895663739 / 18014398509481984) 7 = false := by
  refine ⟨by decide!, by decide!, by decide!⟩

/-- Counterexample to C12: with a zero total area the function signals nothing and
returns a boolean, `false` for one square metre of openings (the quotient is
`Infinity`) and `true` for a negative opening area (the quotient is `-Infinity`). -/
theorem verifierConformiteFacade_zero_contre_exemple :
    verifierConformiteFacade 0 1 50 = false ∧ verifierConformiteFacade 0 (-1) 50 = true := by
  constructor <;> decide!

/-- C12 (amended): for every opening area `x` and percentage `p`,
`verifierConformiteFacade(0, x, p)` raises no error and returns a boolean, true exactly
when `x < 0`. -/
theorem verifierConformiteFacade_zero (x p : ℚ) :
    verifierConformiteFacade 0 x p = decide (x < 0) :=
  verifierConformiteFacadeAvec_zero Flottant.binaire64 x p

/-- Counterexample to C13: with height 0, and with a negative height, the function
returns a category and no error. -/
theorem determinerCategorieRapportLH_contre_exemple :
    determinerCategorieRapportLH 10 0 = "> 10:1" ∧
      determinerCategorieRapportLH 10 (-2) = "< 3:1" := by
  constructor <;> decide!

/-- C13 (amended): for every width and every height ≤ 0,
`determinerCategorieRapportLH` raises no error and returns one of the three categories:
for a negative height the category of the quotient width / height, as line 505 stores it
(rounded to the nearest binary64 value), under the usual thresholds; for height 0
"< 3:1" when the width is negative and "> 10:1" otherwise. -/
theorem determinerCategorieRapportLH_hauteur_non_positive (largeur hauteur : ℚ)
    (_h : hauteur ≤ 0) :
    determinerCategorieRapportLH largeur hauteur ∈ ["< 3:1", "3:1 à 10:1", "> 10:1"] ∧
    (hauteur = 0 → determinerCategorieRapportLH largeur hauteur =
      if largeur < 0 then "< 3:1" else "> 10:1") ∧
    (hauteur < 0 → determinerCategorieRapportLH largeur hauteur =
      if Flottant.arrondiBinaire64 (largeur / hauteur) < 3 then "< 3:1"
      else if Flottant.arrondiBinaire64 (largeur / hauteur) ≤ 10 then "3:1 à 10:1"
      else "> 10:1") := by
  refine ⟨?_, ?_, ?_⟩
  · obtain ⟨c, hc⟩ := determinerCategorieRapportLH_libelle largeur hauteur
    rw [hc]
    cases c <;> simp [Categorie.libelle]
  · intro h0
    rw [h0]
    exact determinerCategorieRapportLH_zero largeur
  · intro hneg
    exact determinerCategorieRapportLH_arrondi largeur hauteur (ne_of_lt hneg)

/-- Witness for C13: width 10, height -2 (quotient -5) is classified "< 3:1". -/
theorem determinerCategorieRapportLH_hauteur_non_positive_witness :
    determinerCategorieRapportLH 10 (-2) = "< 3:1" :=
  ((determinerCategorieRapportLH_hauteur_non_positive 10 (-2) (by norm_num)).2.2
    (by norm_num)).trans (by decide!)

set_option maxHeartbeats 20000000 in
theorem verifierTableauInferieur_B_D (c : Categorie) :
    verifierTableauInferieur (TableauIntegre.donnees (.B c)) (TableauIntegre.donnees .D) =
      true := by
  have hall : ∀ ct ∈ initialiserTableau3231B,
      verifierTableauInferieur ct.2 initialiserTableau3231D = true := by decide!
  obtain ⟨ct, hct, he⟩ := snd_mem_of_lookup_categorie (TableauIntegre.lookup_B c)
  exact he ▸ hall ct hct

set_option maxHeartbeats 20000000 in
theorem verifierTableauInferieur_C_E (c : Categorie) :
    verifierTableauInferieur (TableauIntegre.donnees (.C c)) (TableauIntegre.donnees .E) =
      true := by
  have hall : ∀ ct ∈ initialiserTableau3231C,
      verifierTableauInferieur ct.2 initialiserTableau3231E = true := by decide!
  obtain ⟨ct, hct, he⟩ := snd_mem_of_lookup_categorie (TableauIntegre.lookup_C c)
  exact he ▸ hall ct hct

/-! ## Sprinkler protection -/

/-- C14 (sprinklered is more permissive): for every width, height > 0, area (given or
omitted), distance, group in A-F and division in 1-3, `calculerPourcentage` returns a
number with `protectionGicleurs = false`, a number with `protectionGicleurs = true`, and
the second is at least the first. -/
theorem calculerPourcentage_gicleurs_plus_permissif :
    ∀ usage ∈ ["A", "B", "C", "D", "E", "F"], ∀ division ∈ [(1 : ℤ), 2, 3],
    ∀ (largeur hauteur distance : ℚ) (surface : Option ℚ), 0 < hauteur →
      ∃ pSans pAvec,
        calculerPourcentage largeur hauteur distance usage division false surface =
          .ok (.nombre pSans) ∧
        calculerPourcentage largeur hauteur distance usage division true surface =
          .ok (.nombre pAvec) ∧
        pSans ≤ pAvec := by
  intro usage _ division _ largeur hauteur distance surface _
  obtain ⟨c, hc⟩ := determinerCategorieRapportLH_libelle largeur hauteur
  by_cases hcond : usage = "E" ∨ (usage = "F" ∧ (division = 1 ∨ division = 2))
  · have h1 : calculerPourcentage largeur hauteur distance usage division false surface =
        TableauIntegre.interpoler (.C c) (surface.getD (largeur * hauteur)) distance := by
      cases surface <;>
        simp [calculerPourcentage, codeTableau, hcond, hc, TableauIntegre.interpoler]
    have h2 : calculerPourcentage largeur hauteur distance usage division true surface =
        TableauIntegre.interpoler .E (surface.getD (largeur * hauteur)) distance := by
      cases surface <;>
        simp [calculerPourcentage, codeTableau, hcond, TableauIntegre.interpoler]
    rw [h1, h2]
    exact TableauIntegre.interpoler_le _ _ (verifierTableauInferieur_C_E c) _ _
  · have h1 : calculerPourcentage largeur hauteur distance usage division false surface =
        TableauIntegre.interpoler (.B c) (surface.getD (largeur * hauteur)) distance := by
      cases surface <;>
        simp [calculerPourcentage, codeTableau, hcond, hc, TableauIntegre.interpoler]
    have h2 : calculerPourcentage largeur hauteur distance usage division true surface =
        TableauIntegre.interpoler .D (surface.getD (largeur * hauteur)) distance := by
      cases surface <;>
        simp [calculerPourcentage, codeTableau, hcond, TableauIntegre.interpoler]
    rw [h1, h2]
    exact TableauIntegre.interpoler_le _ _ (verifierTableauInferieur_B_D c) _ _

/-- Witness for C14: group F division 1, a 40 m by 4 m facade at 6.3 m. -/
theorem calculerPourcentage_gicleurs_plus_permissif_witness :
    ∃ pSans pAvec,
      calculerPourcentage 40 4 6.3 "F" 1 false none = .ok (.nombre pSans) ∧
      calculerPourcentage 40 4 6.3 "F" 1 true none = .ok (.nombre pAvec) ∧
      pSans ≤ pAvec :=
  calculerPourcentage_gicleurs_plus_permissif "F" (by decide) 1 (by decide) 40 4 6.3 none
    (by norm_num)

/-! ## Invariants of the reference data -/

/-- C15 (row invariant): in every row of every built-in table, the percentages read in
increasing order of distance are non-decreasing, the first is 0, the last is 100, and
every percentage lies in [0, 100]. -/
theorem lignes_invariant (T : TableauIntegre) (a : ℚ) (ligne : Ligne)
    (ha : (a, ligne) ∈ T.donnees) :
    (pourcentagesOrdonnes ligne).Sorted (· ≤ ·) ∧
    (pourcentagesOrdonnes ligne).head? = some 0 ∧
    (pourcentagesOrdonnes ligne).getLast? = some 100 ∧
    ∀ p ∈ pourcentagesOrdonnes ligne, 0 ≤ p ∧ p ≤ 100 := by
  have hs : (pourcentagesOrdonnes ligne).Sorted (· ≤ ·) := by
    rw [pourcentagesOrdonnes_eq ligne (T.bienForme.2.2 _ ha).2]
    exact T.valeursCroissantes _ ha
  have h0 : (pourcentagesOrdonnes ligne).head? = some 0 := by
    rw [pourcentagesOrdonnes_eq ligne (T.bienForme.2.2 _ ha).2, List.head?_map]
    exact T.premier_zero _ ha
  have h100 : (pourcentagesOrdonnes ligne).getLast? = some 100 := by
    rw [pourcentagesOrdonnes_eq ligne (T.bienForme.2.2 _ ha).2, List.getLast?_map]
    exact T.dernier_cent _ ha
  exact ⟨hs, h0, h100, fun p hp =>
    ⟨premier_le_of_mem_le hs h0 p hp, le_dernier_of_mem_le hs h100 p hp⟩⟩

/-- Witness for C15: the row of 10 m² of table D. -/
theorem lignes_invariant_witness :
    (pourcentagesOrdonnes
      [(0, 0), (1.2, 16), (1.5, 24), (2.0, 42), (2.5, 66), (3, 100)]).Sorted (· ≤ ·) ∧
    (pourcentagesOrdonnes
      [(0, 0), (1.2, 16), (1.5, 24), (2.0, 42), (2.5, 66), (3, 100)]).head? = some 0 ∧
    (pourcentagesOrdonnes
      [(0, 0), (1.2, 16), (1.5, 24), (2.0, 42), (2.5, 66), (3, 100)]).getLast? = some 100 ∧
    ∀ p ∈ pourcentagesOrdonnes
      [(0, 0), (1.2, 16), (1.5, 24), (2.0, 42), (2.5, 66), (3, 100)], 0 ≤ p ∧ p ≤ 100 :=
  lignes_invariant .D 10 _ (by decide!)

/-- C16 (area invariant): in every built-in table, for tabulated areas `a1 < a2` and a
distance `d` that is a breakpoint of both rows, the percentage stored at `(a2, d)` is at
most the percentage stored at `(a1, d)`. -/
theorem superficies_invariant (T : TableauIntegre) (a1 a2 : ℚ) (ligne1 ligne2 : Ligne)
    (h1 : (a1, ligne1) ∈ T.donnees) (h2 : (a2, ligne2) ∈ T.donnees) (h : a1 < a2)
    (d p1 p2 : ℚ) (hp1 : ligne1.lookup d = some p1) (hp2 : ligne2.lookup d = some p2) :
    p2 ≤ p1 := by
  have hle := T.ligne_le_ligne a1 a2 ligne1 ligne2 h1 h2 h d
  rw [interpolationLineaire_noeud ligne1 (T.bienForme.2.2 _ h1).2 d p1 (mem_of_lookup hp1),
    interpolationLineaire_noeud ligne2 (T.bienForme.2.2 _ h2).2 d p2 (mem_of_lookup hp2)] at hle
  exact hle

/-- Witness for C16: table D, rows of 10 and 15 m², distance 1.5: 20 ≤ 24. -/
theorem superficies_invariant_witness : (20 : ℚ) ≤ 24 :=
  superficies_invariant .D 10 15
    [(0, 0), (1.2, 16), (1.5, 24), (2.0, 42), (2.5, 66), (3, 100)]
    [(0, 0), (1.2, 16), (1.5, 20), (2.0, 34), (2.5, 50), (3, 74), (4, 100)]
    (by decide!) (by decide!) (by norm_num) 1.5 24 20 (by decide!) (by decide!)

/-- C17 (area breakpoint sets): `getPlagesSuperficieBC` returns the same sorted list for
the three categories of B and of C, and the same for B as for C; the list of
`getPlagesSuperficieDE` for D is a strict subset of it; the list for E differs from both
the B/C list and the D list. -/
theorem plagesSuperficie_ensembles :
    (∀ tableau ∈ [initialiserTableau3231B, initialiserTableau3231C],
      ∀ categorie ∈ ["< 3:1", "3:1 à 10:1", "> 10:1"],
        getPlagesSuperficieBC tableau categorie =
          .ok [10, 15, 20, 25, 30, 40, 50, 60, 80, 100, 150, 250, 350, 500, 1000, 2000]) ∧
    getPlagesSuperficieDE initialiserTableau3231D =
      [10, 15, 20, 25, 30, 40, 50, 60, 80, 100, 150] ∧
    (∀ a ∈ getPlagesSuperficieDE initialiserTableau3231D,
      a ∈ [(10 : ℚ), 15, 20, 25, 30, 40, 50, 60, 80, 100, 150, 250, 350, 500, 1000, 2000]) ∧
    (∃ a ∈ [(10 : ℚ), 15, 20, 25, 30, 40, 50, 60, 80, 100, 150, 250, 350, 500, 1000, 2000],
      a ∉ getPlagesSuperficieDE initialiserTableau3231D) ∧
    getPlagesSuperficieDE initialiserTableau3231E =
      [10, 15, 20, 25, 30, 40, 50, 60, 80, 100, 150, 200] ∧
    getPlagesSuperficieDE initialiserTableau3231E ≠
      [10, 15, 20, 25, 30, 40, 50, 60, 80, 100, 150, 250, 350, 500, 1000, 2000] ∧
    getPlagesSuperficieDE initialiserTableau3231E ≠
      getPlagesSuperficieDE initialiserTableau3231D := by
  refine ⟨by decide!, by decide!, by decide!, by decide!, by decide!, by decide!, by decide!⟩

/-! ## Arguments of `calculerPourcentage` -/

/-- C18 (default area): called without the surface argument, `calculerPourcentage`
returns what it returns with surface = width * height. -/
theorem calculerPourcentage_surface_par_defaut (largeur hauteur distance : ℚ)
    (usage : String) (division : ℤ) (protectionGicleurs : Bool) :
    calculerPourcentage largeur hauteur distance usage division protectionGicleurs none =
      calculerPourcentage largeur hauteur distance usage division protectionGicleurs
        (some (largeur * hauteur)) :=
  rfl

/-- C19 (maximum allowed area): `calculerSuperficieMaximale(total, p)` is
`total * p / 100`, a total function: it is defined for all inputs, in particular for
all non-negative ones. -/
theorem calculerSuperficieMaximale_eq (total p : ℚ) :
    calculerSuperficieMaximale total p = total * p / 100 :=
  rfl

/-- C20 (division is relevant only for group F): for every group in A-E and any two
divisions, `calculerPourcentage` returns the same value, all other arguments equal. -/
theorem calculerPourcentage_division_sans_effet :
    ∀ usage ∈ ["A", "B", "C", "D", "E"], ∀ (division1 division2 : ℤ)
      (largeur hauteur distance : ℚ) (protectionGicleurs : Bool) (surface : Option ℚ),
      calculerPourcentage largeur hauteur distance usage division1 protectionGicleurs
          surface =
        calculerPourcentage largeur hauteur distance usage division2 protectionGicleurs
          surface := by
  intro usage hu division1 division2 largeur hauteur distance g surface
  have hF : usage ≠ "F" := by
    simp only [List.mem_cons, List.mem_singleton, List.not_mem_nil, or_false] at hu
    rcases hu with rfl | rfl | rfl | rfl | rfl <;> decide
  have hc : codeTableau usage division1 g = codeTableau usage division2 g := by
    simp [codeTableau, hF]
  simp only [calculerPourcentage, hc]

/-- Witness for C20: group E with divisions 1 and 3, sprinklered, 8 m by 5 m at 2.2 m. -/
theorem calculerPourcentage_division_sans_effet_witness :
    calculerPourcentage 8 5 2.2 "E" 1 true none =
      calculerPourcentage 8 5 2.2 "E" 3 true none :=
  calculerPourcentage_division_sans_effet "E" (by decide) 1 3 8 5 2.2 true none

/-! ## Selection of the table: what the arguments can change -/

/-- The table `calculerPourcentage` reads, as a built-in table: the category is the one
of the facade, the code the one of `codeTableau`. -/
theorem calculerPourcentage_eq_interpoler (largeur hauteur distance : ℚ) (usage : String)
    (division : ℤ) (protectionGicleurs : Bool) (surface : Option ℚ) :
    ∃ T : TableauIntegre,
      calculerPourcentage largeur hauteur distance usage division protectionGicleurs
          surface =
        T.interpoler (surface.getD (largeur * hauteur)) distance := by
  obtain ⟨c, hc⟩ := determinerCategorieRapportLH_libelle largeur hauteur
  by_cases hcond : usage = "E" ∨ (usage = "F" ∧ (division = 1 ∨ division = 2))
  · cases protectionGicleurs
    · exact ⟨.C c, by
        cases surface <;>
          simp [calculerPourcentage, codeTableau, hcond, hc, TableauIntegre.interpoler]⟩
    · exact ⟨.E, by
        cases surface <;>
          simp [calculerPourcentage, codeTableau, hcond, TableauIntegre.interpoler]⟩
  · cases protectionGicleurs
    · exact ⟨.B c, by
        cases surface <;>
          simp [calculerPourcentage, codeTableau, hcond, hc, TableauIntegre.interpoler]⟩
    · exact ⟨.D, by
        cases surface <;>
          simp [calculerPourcentage, codeTableau, hcond, TableauIntegre.interpoler]⟩

/-- C21 (aspect ratio is used only for tables B and C): with `protectionGicleurs` true
(table D or E) and an explicit surface, `calculerPourcentage` returns the same value for
any two (width, height) pairs, all other arguments equal. -/
theorem calculerPourcentage_dimensions_sans_effet (usage : String) (division : ℤ)
    (distance surface largeur1 hauteur1 largeur2 hauteur2 : ℚ) :
    calculerPourcentage largeur1 hauteur1 distance usage division true (some surface) =
      calculerPourcentage largeur2 hauteur2 distance usage division true (some surface) := by
  by_cases hcond : usage = "E" ∨ (usage = "F" ∧ (division = 1 ∨ division = 2)) <;>
    simp [calculerPourcentage, codeTableau, hcond]

/-- Counterexample to C22: the unknown group "Z" raises no error; without sprinklers it
is served from table B and gets the number of the worked example of group A. -/
theorem calculerPourcentage_groupe_inconnu_contre_exemple :
    calculerPourcentage 26.551 10.830 17.48 "Z" 2 false (some 287.55) =
      .ok (.nombre 89.09498) := by
  decide!

/-- C22 (amended): for a group that is not one of A-F, `calculerPourcentage` raises no
error: it takes the branch of the remaining groups (table B without sprinklers, table D
with sprinklers) and returns a number, the same as for group A. -/
theorem calculerPourcentage_groupe_inconnu (usage : String)
    (h : usage ∉ ["A", "B", "C", "D", "E", "F"]) (division : ℤ)
    (largeur hauteur distance : ℚ) (protectionGicleurs : Bool) (surface : Option ℚ) :
    codeTableau usage division protectionGicleurs =
        (if protectionGicleurs = true then "D" else "B") ∧
      calculerPourcentage largeur hauteur distance usage division protectionGicleurs
          surface =
        calculerPourcentage largeur hauteur distance "A" division protectionGicleurs
          surface ∧
      ∃ p, calculerPourcentage largeur hauteur distance usage division protectionGicleurs
          surface = .ok (.nombre p) := by
  simp only [List.mem_cons, List.mem_singleton, List.not_mem_nil, or_false, not_or] at h
  obtain ⟨_, _, _, _, hE, hF⟩ := h
  have hc : codeTableau usage division protectionGicleurs =
      codeTableau "A" division protectionGicleurs := by
    simp [codeTableau, hE, hF]
  refine ⟨?_, ?_, ?_⟩
  · cases protectionGicleurs <;> simp [codeTableau, hE, hF]
  · simp only [calculerPourcentage, hc]
  · obtain ⟨T, hT⟩ := calculerPourcentage_eq_interpoler largeur hauteur distance usage
      division protectionGicleurs surface
    exact ⟨_, hT.trans (T.interpoler_valeur _ _)⟩

/-- Witness for C22 (amended): group "Z", sprinklered, 8 m by 5 m at 2.2 m. -/
theorem calculerPourcentage_groupe_inconnu_witness :
    codeTableau "Z" 1 true = "D" ∧
      calculerPourcentage 8 5 2.2 "Z" 1 true none =
        calculerPourcentage 8 5 2.2 "A" 1 true none ∧
      ∃ p, calculerPourcentage 8 5 2.2 "Z" 1 true none = .ok (.nombre p) :=
  calculerPourcentage_groupe_inconnu "Z" (by decide) 1 8 5 2.2 true none

/-! ## The two interpolation routines -/

/-- C26 (the two routines are the same algorithm): for every three-level table, every
category present in it, every area and every distance,
`calculerPourcentageTableauxBC(T, c, area, distance)` equals
`calculerPourcentageTableauxDE(T[c], area, distance)`. -/
theorem calculerPourcentageTableauxBC_meme_algorithme (tableauReference : TableauBC)
    (categorieRapportLH : String) (sousTableau : TableauDE)
    (h : tableauReference.lookup categorieRapportLH = some sousTableau)
    (surface distance : ℚ) :
    calculerPourcentageTableauxBC tableauReference categorieRapportLH surface distance =
      calculerPourcentageTableauxDE sousTableau surface distance :=
  calculerPourcentageTableauxBC_eq_DE tableauReference categorieRapportLH sousTableau h
    surface distance

/-- Witness for C26: a one-category table with two rows, queried at area 12 and
distance 1. -/
theorem calculerPourcentageTableauxBC_meme_algorithme_witness :
    calculerPourcentageTableauxBC
        [("< 3:1", [(10, [(0, 0), (2, 100)]), (20, [(0, 0), (4, 100)])])] "< 3:1" 12 1 =
      calculerPourcentageTableauxDE [(10, [(0, 0), (2, 100)]), (20, [(0, 0), (4, 100)])]
        12 1 :=
  calculerPourcentageTableauxBC_meme_algorithme _ "< 3:1" _ (by decide) 12 1

/-- C30 (continuity at area breakpoints): in every built-in table, for every tabulated
area `a` with row `ligne` and every distance `d`, tabulated in that row or not, the
interpolator called with surface = `a` returns the first-stage interpolation of `ligne`
alone at `d`: the value does not depend on the neighbouring row. -/
theorem interpoler_a_un_point_de_superficie (T : TableauIntegre) (a : ℚ) (ligne : Ligne)
    (ha : (a, ligne) ∈ T.donnees) (d : ℚ) :
    etapeInterpolation ligne d = some (interpolationLineaire ligne d) ∧
      T.interpoler a d = .ok (.nombre (interpolationLineaire ligne d)) :=
  ⟨etapeInterpolation_eq ligne d (T.bienForme.2.2 _ ha).1 (T.bienForme.2.2 _ ha).2,
    T.interpoler_ligne a ligne ha d⟩

/-- Witness for C30: table D at area 15 and distance 1.3, between two breakpoints of the
row. -/
theorem interpoler_a_un_point_de_superficie_witness :
    etapeInterpolation [(0, 0), (1.2, 16), (1.5, 20), (2.0, 34), (2.5, 50), (3, 74),
        (4, 100)] 1.3 =
      some (interpolationLineaire
        [(0, 0), (1.2, 16), (1.5, 20), (2.0, 34), (2.5, 50), (3, 74), (4, 100)] 1.3) ∧
    calculerPourcentageTableauxDE initialiserTableau3231D 15 1.3 =
      .ok (.nombre (interpolationLineaire
        [(0, 0), (1.2, 16), (1.5, 20), (2.0, 34), (2.5, 50), (3, 74), (4, 100)] 1.3)) :=
  interpoler_a_un_point_de_superficie .D 15 _ (by decide!) 1.3

/-! ## The bracketing loop -/

/-- A hit of the loop is a pair of neighbours of the list that encloses the value. -/
theorem boucleEncadrement_voisins (plages : List ℚ) (valeur : ℚ) :
    ∀ lo hi, boucleEncadrement plages valeur = some (lo, hi) →
      (lo, hi) ∈ plages.zip plages.tail ∧ lo ≤ valeur ∧ valeur ≤ hi := by
  induction plages with
  | nil => intro lo hi h; simp [boucleEncadrement] at h
  | cons a reste ih =>
    cases reste with
    | nil => intro lo hi h; simp [boucleEncadrement] at h
    | cons b r =>
      intro lo hi h
      by_cases hc : valeur ≥ a ∧ valeur ≤ b
      · simp only [boucleEncadrement, hc, and_self, if_true, Option.some.injEq,
          Prod.mk.injEq] at h
        obtain ⟨rfl, rfl⟩ := h
        exact ⟨by simp, hc.1, hc.2⟩
      · simp only [boucleEncadrement, hc, if_false] at h
        obtain ⟨hm, h1, h2⟩ := ih lo hi h
        exact ⟨by simp only [List.tail_cons, List.zip_cons_cons]
                  exact List.mem_cons_of_mem _ hm, h1, h2⟩

/-- The loop hits as soon as the list has two entries and the value lies between the
first and the last one. -/
theorem boucleEncadrement_atteint (reste : List ℚ) (valeur : ℚ) :
    ∀ a dernier, reste ≠ [] → (a :: reste).getLast? = some dernier → a ≤ valeur →
      valeur ≤ dernier → ∃ r, boucleEncadrement (a :: reste) valeur = some r := by
  induction reste with
  | nil => intro a dernier hne; exact absurd rfl hne
  | cons b r ih =>
    intro a dernier _ hd ha hv
    by_cases hc : valeur ≥ a ∧ valeur ≤ b
    · exact ⟨(a, b), by simp [boucleEncadrement, hc]⟩
    · have hb : b < valeur := by
        by_contra hcon
        exact hc ⟨ha, not_lt.mp hcon⟩
      have hr : r ≠ [] := by
        rintro rfl
        simp only [List.getLast?_cons_cons, List.getLast?_singleton,
          Option.some.injEq] at hd
        subst hd
        exact absurd hv (not_le.mpr hb)
      have hd2 : (b :: r).getLast? = some dernier := by
        simpa [List.getLast?_cons_cons] using hd
      obtain ⟨res, hres⟩ := ih b dernier hr hd2 (le_of_lt hb) hv
      exact ⟨res, by simp only [boucleEncadrement, hc, if_false]; exact hres⟩

/-- At a value equal to the upper entry of a pair of neighbours of a strictly increasing
list, the loop stops on that pair. -/
theorem boucleEncadrement_borne_superieure (plages : List ℚ) :
    plages.Sorted (· < ·) → ∀ lo hi, (lo, hi) ∈ plages.zip plages.tail →
      boucleEncadrement plages hi = some (lo, hi) := by
  induction plages with
  | nil => intro _ lo hi h; simp at h
  | cons a reste ih =>
    cases reste with
    | nil => intro _ lo hi h; simp at h
    | cons b r =>
      intro hs lo hi h
      have hab : a < b := List.rel_of_sorted_cons hs b (List.mem_cons_self _ _)
      simp only [List.tail_cons, List.zip_cons_cons, List.mem_cons, Prod.mk.injEq] at h
      rcases h with ⟨rfl, rfl⟩ | h
      · simp [boucleEncadrement, le_of_lt hab]
      · have hs2 : (b :: r).Sorted (· < ·) := List.Sorted.of_cons hs
        have hhi : hi ∈ r := (List.of_mem_zip h).2
        have hb : b < hi := List.rel_of_sorted_cons hs2 hi hhi
        have hc : ¬ (hi ≥ a ∧ hi ≤ b) := fun hcon => absurd hcon.2 (not_le.mpr hb)
        simp only [boucleEncadrement, hc, if_false]
        exact ih hs2 lo hi (by simpa using h)

/-- A hit of the loop is what the bracketing step returns. -/
theorem encadrement_of_boucle (plages : List ℚ) (valeur : ℚ) (r : ℚ × ℚ)
    (h : boucleEncadrement plages valeur = some r) : encadrement plages valeur = some r := by
  simp [encadrement, h]

/-- The two values of the bracketing step are entries of the list. -/
theorem encadrement_mem (plages : List ℚ) (valeur lo hi : ℚ)
    (h : encadrement plages valeur = some (lo, hi)) : lo ∈ plages ∧ hi ∈ plages := by
  unfold encadrement at h
  cases hb : boucleEncadrement plages valeur with
  | some r =>
    obtain ⟨r1, r2⟩ := r
    simp only [hb, Option.some.injEq, Prod.mk.injEq] at h
    obtain ⟨rfl, rfl⟩ := h
    have hm := (boucleEncadrement_voisins plages valeur _ _ hb).1
    exact ⟨(List.of_mem_zip hm).1, List.mem_of_mem_tail (List.of_mem_zip hm).2⟩
  | none =>
    cases plages with
    | nil => simp [hb] at h
    | cons a reste =>
      simp only [hb, List.head?_cons] at h
      by_cases hv : valeur < a
      · simp only [hv, if_true, Option.some.injEq, Prod.mk.injEq] at h
        obtain ⟨rfl, rfl⟩ := h
        exact ⟨List.mem_cons_self _ _, List.mem_cons_self _ _⟩
      · simp only [hv, if_false, Option.map_eq_some'] at h
        obtain ⟨d, hd, hdd⟩ := h
        simp only [Prod.mk.injEq] at hdd
        obtain ⟨rfl, rfl⟩ := hdd
        exact ⟨List.mem_of_getLast?_eq_some hd, List.mem_of_getLast?_eq_some hd⟩

/-- On a non-empty list the bracketing step always returns a pair. -/
theorem encadrement_isSome (plages : List ℚ) (valeur : ℚ) (hne : plages ≠ []) :
    ∃ lo hi, encadrement plages valeur = some (lo, hi) := by
  unfold encadrement
  cases hb : boucleEncadrement plages valeur with
  | some r => exact ⟨r.1, r.2, rfl⟩
  | none =>
    cases plages with
    | nil => exact absurd rfl hne
    | cons a reste =>
      simp only [List.head?_cons]
      by_cases hv : valeur < a
      · exact ⟨a, a, by simp [hv]⟩
      · obtain ⟨d, hd⟩ : ∃ d, (a :: reste).getLast? = some d :=
          ⟨(a :: reste).getLast (by simp), List.getLast?_eq_getLast _ _⟩
        exact ⟨d, d, by simp [hv, hd]⟩

/-- The sorted keys are the keys. -/
theorem mem_cles {β : Type} (o : List (ℚ × β)) (a : ℚ) :
    a ∈ cles o ↔ a ∈ o.map Prod.fst := by
  unfold cles
  exact (List.perm_insertionSort _ _).mem_iff

/-- Reading an object at one of its keys finds a value. -/
theorem lookup_isSome_of_mem {β : Type} (o : List (ℚ × β)) (a : ℚ)
    (h : a ∈ o.map Prod.fst) : ∃ b, o.lookup a = some b := by
  induction o with
  | nil => simp at h
  | cons c o ih =>
    obtain ⟨c1, c2⟩ := c
    by_cases hc : a = c1
    · subst hc
      exact ⟨c2, by simp [List.lookup]⟩
    · have hne : (a == c1) = false := by simpa using hc
      simp only [List.map_cons, List.mem_cons, hc, false_or] at h
      obtain ⟨b, hb⟩ := ih h
      exact ⟨b, by simp only [List.lookup, hne]; exact hb⟩

/-- Neighbours of a strictly increasing list are in strict order. -/
theorem lt_of_mem_zip_tail (plages : List ℚ) :
    plages.Sorted (· < ·) → ∀ lo hi, (lo, hi) ∈ plages.zip plages.tail → lo < hi := by
  induction plages with
  | nil => intro _ lo hi h; simp at h
  | cons a reste ih =>
    cases reste with
    | nil => intro _ lo hi h; simp at h
    | cons b r =>
      intro hs lo hi h
      simp only [List.tail_cons, List.zip_cons_cons, List.mem_cons, Prod.mk.injEq] at h
      rcases h with ⟨rfl, rfl⟩ | h
      · exact List.rel_of_sorted_cons hs _ (List.mem_cons_self _ _)
      · exact ih (List.Sorted.of_cons hs) lo hi (by simpa using h)

/-! ## Malformed tables -/

/-- A table with at least one area row never makes the two-level routine throw: both
bracketing areas are keys of the table, so both rows are found. -/
theorem calculerPourcentageTableauxDE_sans_erreur (t : TableauDE) (hne : t ≠ [])
    (surface distance : ℚ) :
    ∃ sInf sSup ligneInf ligneSup,
      encadrement (getPlagesSuperficieDE t) surface = some (sInf, sSup) ∧
      t.lookup sInf = some ligneInf ∧ t.lookup sSup = some ligneSup ∧
      ∃ v, calculerPourcentageTableauxDE t surface distance = .ok v := by
  have hk : cles t ≠ [] := by
    obtain ⟨c, r, rfl⟩ := List.exists_cons_of_ne_nil hne
    intro h0
    have hm : c.1 ∈ cles (c :: r) := (mem_cles _ _).mpr (by simp)
    rw [h0] at hm
    simp at hm
  obtain ⟨sInf, sSup, he⟩ := encadrement_isSome (cles t) surface hk
  obtain ⟨h1, h2⟩ := encadrement_mem _ _ _ _ he
  obtain ⟨ligneInf, hl1⟩ := lookup_isSome_of_mem t sInf ((mem_cles _ _).mp h1)
  obtain ⟨ligneSup, hl2⟩ := lookup_isSome_of_mem t sSup ((mem_cles _ _).mp h2)
  refine ⟨sInf, sSup, ligneInf, ligneSup, he, hl1, hl2, ?_⟩
  simp only [calculerPourcentageTableauxDE, getPlagesSuperficieDE, getPlagesDistanceDE,
    he, hl1, hl2, Option.map_some', Option.bind_some, Option.some_bind, bind, Except.bind,
    pure, Except.pure]
  exact ⟨_, rfl⟩

namespace Valeur

@[simp] theorem indefini_add (x : Valeur) : indefini + x = nan := by cases x <;> rfl
@[simp] theorem indefini_sub (x : Valeur) : indefini - x = nan := by cases x <;> rfl
@[simp] theorem mul_nan (x : Valeur) : x * nan = nan := by cases x <;> rfl
@[simp] theorem add_nan (x : Valeur) : x + nan = nan := by cases x <;> rfl

end Valeur

/-- The first stage on a row with at least one distance entry reads two stored
percentages: the bracket is found and both its ends are keys of the row. -/
theorem encadrement_ligne_non_vide (ligne : Ligne) (hne : ligne ≠ []) (distance : ℚ) :
    ∃ dInf dSup pInf pSup, encadrement (cles ligne) distance = some (dInf, dSup) ∧
      ligne.lookup dInf = some pInf ∧ ligne.lookup dSup = some pSup := by
  have hk : cles ligne ≠ [] := by
    obtain ⟨c, r, rfl⟩ := List.exists_cons_of_ne_nil hne
    intro h0
    have hm : c.1 ∈ cles (c :: r) := (mem_cles _ _).mpr (by simp)
    rw [h0] at hm
    simp at hm
  obtain ⟨dInf, dSup, he⟩ := encadrement_isSome (cles ligne) distance hk
  obtain ⟨h1, h2⟩ := encadrement_mem _ _ _ _ he
  obtain ⟨pInf, hp1⟩ := lookup_isSome_of_mem ligne dInf ((mem_cles _ _).mp h1)
  obtain ⟨pSup, hp2⟩ := lookup_isSome_of_mem ligne dSup ((mem_cles _ _).mp h2)
  exact ⟨dInf, dSup, pInf, pSup, he, hp1, hp2⟩

/-- When both rows that bracket the area have a distance entry the two-level routine
returns a number. -/
theorem calculerPourcentageTableauxDE_nombre (t : TableauDE) (surface distance : ℚ)
    (sInf sSup : ℚ) (ligneInf ligneSup : Ligne)
    (he : encadrement (getPlagesSuperficieDE t) surface = some (sInf, sSup))
    (hl1 : t.lookup sInf = some ligneInf) (hl2 : t.lookup sSup = some ligneSup)
    (hn1 : ligneInf ≠ []) (hn2 : ligneSup ≠ []) :
    ∃ p, calculerPourcentageTableauxDE t surface distance = .ok (.nombre p) := by
  have he2 : encadrement (cles t) surface = some (sInf, sSup) := he
  obtain ⟨a1, b1, q1, r1, e1, f1, g1⟩ := encadrement_ligne_non_vide ligneInf hn1 distance
  obtain ⟨a2, b2, q2, r2, e2, f2, g2⟩ := encadrement_ligne_non_vide ligneSup hn2 distance
  simp only [calculerPourcentageTableauxDE, getPlagesSuperficieDE, getPlagesDistanceDE,
    he2, hl1, hl2, e1, e2, f1, f2, g1, g2, lirePourcentage, Option.map_some',
    Option.bind_some, Option.some_bind, Option.getD_some, bind, Except.bind, pure,
    Except.pure, Valeur.lire_some]
  by_cases hsS : sInf = sSup <;> by_cases hd1 : a1 = b1 <;> by_cases hd2 : a2 = b2 <;>
    simp [hsS, hd1, hd2]

/-- When one of the two rows that bracket the area has no distance entry the two-level
routine returns `undefined` or `NaN`. -/
theorem calculerPourcentageTableauxDE_indefini (t : TableauDE) (surface distance : ℚ)
    (sInf sSup : ℚ) (ligneInf ligneSup : Ligne)
    (he : encadrement (getPlagesSuperficieDE t) surface = some (sInf, sSup))
    (hl1 : t.lookup sInf = some ligneInf) (hl2 : t.lookup sSup = some ligneSup)
    (hv : ligneInf = [] ∨ ligneSup = []) :
    calculerPourcentageTableauxDE t surface distance = .ok .indefini ∨
      calculerPourcentageTableauxDE t surface distance = .ok .nan := by
  have he2 : encadrement (cles t) surface = some (sInf, sSup) := he
  have hc : cles ([] : Ligne) = [] := rfl
  have hb : encadrement [] distance = none := rfl
  by_cases h1 : ligneInf = []
  · subst h1
    by_cases hs : sInf = sSup
    · have h2 : ligneSup = [] := by
        rw [hs, hl2] at hl1
        exact Option.some.inj hl1
      subst h2
      left
      simp only [calculerPourcentageTableauxDE, getPlagesSuperficieDE, getPlagesDistanceDE,
        he2, hl1, hl2, hc, hb, hs, lirePourcentage, Option.map_some', Option.map_none',
        Option.bind_some, Option.some_bind, Option.none_bind, Option.getD_some, bind,
        Except.bind, pure, Except.pure, Valeur.lire, if_true]
    · right
      simp only [calculerPourcentageTableauxDE, getPlagesSuperficieDE, getPlagesDistanceDE,
        he2, hl1, hl2, hc, hb, hs, lirePourcentage, Option.map_some', Option.map_none',
        Option.bind_some, Option.some_bind, Option.none_bind, Option.getD_some, bind,
        Except.bind, pure, Except.pure, Valeur.lire, if_false, Valeur.indefini_add]
  · have h2 : ligneSup = [] := hv.resolve_left h1
    subst h2
    have hs : sInf ≠ sSup := by
      intro hs
      rw [hs, hl2] at hl1
      exact h1 (Option.some.inj hl1).symm
    right
    simp only [calculerPourcentageTableauxDE, getPlagesSuperficieDE, getPlagesDistanceDE,
      he2, hl1, hl2, hc, hb, hs, lirePourcentage, Option.map_some', Option.map_none',
      Option.bind_some, Option.some_bind, Option.none_bind, Option.getD_some, bind,
      Except.bind, pure, Except.pure, Valeur.lire, if_false, Valeur.indefini_sub,
      Valeur.mul_nan, Valeur.add_nan]

/-- Counterexample to C23: a table whose first area row has no distance entry still
returns a number for an area served by the other row. -/
theorem calculerPourcentageTableauxDE_ligne_vide_contre_exemple :
    calculerPourcentageTableauxDE [(10, []), (20, [(0, 0), (5, 100)])] 25 1 =
      .ok (.nombre 20) := by
  decide!

/-- C23 (amended): a table with no area row makes `calculerPourcentageTableauxDE` throw
for every area and distance, and so does `calculerPourcentageTableauxBC` when the
category is absent or has no area row. A table with at least one area row never makes
`calculerPourcentageTableauxDE` throw: the area bracket and its two rows are always
found; the call returns a number when both of these rows have at least one distance
entry, and `undefined` or `NaN` when one of them has none. -/
theorem calculerPourcentageTableaux_tableau_mal_forme :
    (∀ surface distance : ℚ,
      calculerPourcentageTableauxDE [] surface distance = .error .typeError) ∧
    (∀ (tableauReference : TableauBC) (categorieRapportLH : String) (surface distance : ℚ),
      tableauReference.lookup categorieRapportLH = none ∨
        tableauReference.lookup categorieRapportLH = some [] →
      calculerPourcentageTableauxBC tableauReference categorieRapportLH surface distance =
        .error .typeError) ∧
    (∀ (t : TableauDE) (surface distance : ℚ), t ≠ [] →
      ∃ sInf sSup ligneInf ligneSup,
        encadrement (getPlagesSuperficieDE t) surface = some (sInf, sSup) ∧
        t.lookup sInf = some ligneInf ∧ t.lookup sSup = some ligneSup ∧
        (∃ v, calculerPourcentageTableauxDE t surface distance = .ok v) ∧
        (ligneInf ≠ [] → ligneSup ≠ [] →
          ∃ p, calculerPourcentageTableauxDE t surface distance = .ok (.nombre p)) ∧
        (ligneInf = [] ∨ ligneSup = [] →
          calculerPourcentageTableauxDE t surface distance = .ok .indefini ∨
            calculerPourcentageTableauxDE t surface distance = .ok .nan)) := by
  refine ⟨?_, ?_, ?_⟩
  · intro surface distance
    rfl
  · intro T c surface distance h
    rcases h with h | h
    · simp [calculerPourcentageTableauxBC, getPlagesSuperficieBC, h, bind, Except.bind]
    · simp [calculerPourcentageTableauxBC, getPlagesSuperficieBC, getPlagesDistanceBC, h,
        cles, encadrement, boucleEncadrement, bind, Except.bind]
  · intro t surface distance hne
    obtain ⟨sInf, sSup, ligneInf, ligneSup, he, hl1, hl2, hv⟩ :=
      calculerPourcentageTableauxDE_sans_erreur t hne surface distance
    exact ⟨sInf, sSup, ligneInf, ligneSup, he, hl1, hl2, hv,
      calculerPourcentageTableauxDE_nombre t surface distance sInf sSup ligneInf ligneSup he
        hl1 hl2,
      calculerPourcentageTableauxDE_indefini t surface distance sInf sSup ligneInf ligneSup
        he hl1 hl2⟩

/-- Witness for C23 (amended): a category with no area row throws; on the table of the
counterexample the query at the tabulated area 20 is bracketed by the rows of 10 and 20,
the first of which is empty, and returns `NaN`. -/
theorem calculerPourcentageTableaux_tableau_mal_forme_witness :
    calculerPourcentageTableauxBC [("< 3:1", [])] "< 3:1" 12 1.3 = .error .typeError ∧
      encadrement (getPlagesSuperficieDE [(10, []), (20, [(0, 0), (5, 100)])]) 20 =
        some (10, 20) ∧
      calculerPourcentageTableauxDE [(10, []), (20, [(0, 0), (5, 100)])] 20 1 = .ok .nan ∧
      ∃ (sInf sSup : ℚ) (ligneInf ligneSup : Ligne),
        encadrement (getPlagesSuperficieDE [(10, []), (20, [(0, 0), (5, 100)])]) 20 =
          some (sInf, sSup) ∧
        List.lookup sInf ([(10, []), (20, [(0, 0), (5, 100)])] : TableauDE) = some ligneInf ∧
        List.lookup sSup ([(10, []), (20, [(0, 0), (5, 100)])] : TableauDE) = some ligneSup ∧
        (∃ v, calculerPourcentageTableauxDE [(10, []), (20, [(0, 0), (5, 100)])] 20 1 =
          .ok v) ∧
        (ligneInf ≠ [] → ligneSup ≠ [] →
          ∃ p, calculerPourcentageTableauxDE [(10, []), (20, [(0, 0), (5, 100)])] 20 1 =
            .ok (.nombre p)) ∧
        (ligneInf = [] ∨ ligneSup = [] →
          calculerPourcentageTableauxDE [(10, []), (20, [(0, 0), (5, 100)])] 20 1 =
              .ok .indefini ∨
            calculerPourcentageTableauxDE [(10, []), (20, [(0, 0), (5, 100)])] 20 1 =
              .ok .nan) :=
  ⟨calculerPourcentageTableaux_tableau_mal_forme.2.1 [("< 3:1", [])] "< 3:1" 12 1.3
      (Or.inr (by decide)),
    by decide!, by decide!,
    calculerPourcentageTableaux_tableau_mal_forme.2.2 [(10, []), (20, [(0, 0), (5, 100)])]
      20 1 (by decide)⟩

/-! ## Bracketing on the built-in tables -/

/-- Every built-in table has at least two area rows and every row at least two distance
entries. -/
theorem TableauIntegre.deux_entrees (T : TableauIntegre) :
    2 ≤ T.donnees.length ∧ ∀ al ∈ T.donnees, 2 ≤ al.2.length :=
  T.forall_donnees (fun t => 2 ≤ t.length ∧ ∀ al ∈ t, 2 ≤ al.2.length)
    (by decide!) (by decide!) (by decide!) (by decide!)

/-- The area breakpoints of a built-in table, as the code sorts them, are the areas in
the order of the source. -/
theorem TableauIntegre.plagesSuperficie (T : TableauIntegre) :
    getPlagesSuperficieDE T.donnees = T.donnees.map Prod.fst :=
  cles_eq_of_croissantes T.bienForme.2.1

/-- A breakpoint list of a built-in table (the areas, or the distances of the row of a
tabulated area) is strictly increasing and has at least two entries. -/
theorem TableauIntegre.plages_croissantes (T : TableauIntegre) (plages : List ℚ)
    (hp : plages = getPlagesSuperficieDE T.donnees ∨
      ∃ a ∈ getPlagesSuperficieDE T.donnees,
        getPlagesDistanceDE T.donnees (some a) = .ok plages) :
    plages.Sorted (· < ·) ∧ 2 ≤ plages.length := by
  rcases hp with rfl | ⟨a, _, hd⟩
  · rw [T.plagesSuperficie]
    exact ⟨T.bienForme.2.1, by simpa using T.deux_entrees.1⟩
  · cases hl : T.donnees.lookup a with
    | none => simp [getPlagesDistanceDE, hl] at hd
    | some ligne =>
      simp only [getPlagesDistanceDE, Option.some_bind, hl, Except.ok.injEq] at hd
      subst hd
      have hm := mem_of_lookup hl
      have hc : ClesCroissantes ligne := (T.bienForme.2.2 _ hm).2
      rw [cles_eq_of_croissantes hc]
      exact ⟨hc, by simpa using T.deux_entrees.2 _ hm⟩

/-- Counterexample to C24: at the tabulated area 15 of table D the bracketing step
yields the pair (10, 15), not (15, 15). -/
theorem encadrement_point_tabule_contre_exemple :
    (15 : ℚ) ∈ getPlagesSuperficieDE initialiserTableau3231D ∧
      encadrement (getPlagesSuperficieDE initialiserTableau3231D) 15 = some (10, 15) := by
  decide!

/-- C24 (amended): for every built-in table and every area equal to one of its tabulated
breakpoints, the area bracketing step never yields aLo == aHi: it yields two neighbouring
breakpoints aLo < aHi, the queried area being aLo at the smallest breakpoint and aHi at
every other breakpoint. -/
theorem encadrement_point_tabule (T : TableauIntegre) (a : ℚ)
    (ha : a ∈ getPlagesSuperficieDE T.donnees) :
    ∃ lo hi, encadrement (getPlagesSuperficieDE T.donnees) a = some (lo, hi) ∧
      (lo, hi) ∈ (getPlagesSuperficieDE T.donnees).zip
        (getPlagesSuperficieDE T.donnees).tail ∧
      lo < hi ∧
      ((getPlagesSuperficieDE T.donnees).head? = some a → lo = a) ∧
      ((getPlagesSuperficieDE T.donnees).head? ≠ some a → hi = a) := by
  obtain ⟨hs, hlen⟩ := T.plages_croissantes _ (Or.inl rfl)
  generalize getPlagesSuperficieDE T.donnees = plages at ha hs hlen
  match plages, hlen with
  | a0 :: a1 :: r, _ =>
    have h01 : a0 < a1 := List.rel_of_sorted_cons hs a1 (List.mem_cons_self _ _)
    by_cases h0 : a = a0
    · subst h0
      refine ⟨a, a1, ?_, by simp, h01, fun _ => rfl, fun h => absurd rfl h⟩
      exact encadrement_of_boucle _ _ _ (by simp [boucleEncadrement, le_of_lt h01])
    · have hmem : a ∈ a1 :: r := by
        rcases List.mem_cons.mp ha with h | h
        · exact absurd h h0
        · exact h
      obtain ⟨lo, hlo⟩ : ∃ lo, (lo, a) ∈ (a0 :: a1 :: r).zip (a0 :: a1 :: r).tail := by
        have : ∀ (l : List ℚ) (x : ℚ), a ∈ l → ∃ lo, (lo, a) ∈ (x :: l).zip l := by
          intro l
          induction l with
          | nil => intro x h; simp at h
          | cons y l ih =>
            intro x h
            rcases List.mem_cons.mp h with rfl | h
            · exact ⟨x, by simp⟩
            · obtain ⟨lo, hlo⟩ := ih y h
              exact ⟨lo, by
                simp only [List.zip_cons_cons]
                exact List.mem_cons_of_mem _ hlo⟩
        exact this _ a0 hmem
      refine ⟨lo, a, ?_, hlo, lt_of_mem_zip_tail _ hs _ _ hlo, ?_, fun _ => rfl⟩
      · exact encadrement_of_boucle _ _ _ (boucleEncadrement_borne_superieure _ hs _ _ hlo)
      · intro hh
        simp only [List.head?_cons, Option.some.injEq] at hh
        exact absurd hh.symm h0

/-- Witness for C24 (amended): table E at its tabulated area 200. -/
theorem encadrement_point_tabule_witness :
    ∃ lo hi, encadrement (getPlagesSuperficieDE (TableauIntegre.donnees .E)) 200 =
        some (lo, hi) ∧
      (lo, hi) ∈ (getPlagesSuperficieDE (TableauIntegre.donnees .E)).zip
        (getPlagesSuperficieDE (TableauIntegre.donnees .E)).tail ∧
      lo < hi ∧
      ((getPlagesSuperficieDE (TableauIntegre.donnees .E)).head? = some 200 → lo = 200) ∧
      ((getPlagesSuperficieDE (TableauIntegre.donnees .E)).head? ≠ some 200 → hi = 200) :=
  encadrement_point_tabule .E 200 (by decide!)

/-- C25 (bracketing): for every breakpoint list of a built-in table (the sorted areas of
the table, or the sorted distances of the row of a tabulated area) and every value
between its smallest and its largest breakpoint inclusive, the bracketing loop yields a
pair (lo, hi) of breakpoints that are consecutive in the list with lo ≤ v ≤ hi, and the
bracketing step returns that pair; the list itself is strictly increasing. -/
theorem encadrement_consecutif (T : TableauIntegre) (plages : List ℚ)
    (hp : plages = getPlagesSuperficieDE T.donnees ∨
      ∃ a ∈ getPlagesSuperficieDE T.donnees,
        getPlagesDistanceDE T.donnees (some a) = .ok plages)
    (v premier dernier : ℚ) (hpremier : plages.head? = some premier)
    (hdernier : plages.getLast? = some dernier) (h1 : premier ≤ v) (h2 : v ≤ dernier) :
    plages.Sorted (· < ·) ∧
      ∃ lo hi, boucleEncadrement plages v = some (lo, hi) ∧
        encadrement plages v = some (lo, hi) ∧
        (lo, hi) ∈ plages.zip plages.tail ∧ lo ≤ v ∧ v ≤ hi := by
  obtain ⟨hs, hlen⟩ := T.plages_croissantes plages hp
  refine ⟨hs, ?_⟩
  match plages, hlen with
  | a0 :: a1 :: r, _ =>
    simp only [List.head?_cons, Option.some.injEq] at hpremier
    subst hpremier
    obtain ⟨⟨lo, hi⟩, hr⟩ :=
      boucleEncadrement_atteint (a1 :: r) v a0 dernier (by simp) hdernier h1 h2
    exact ⟨lo, hi, hr, encadrement_of_boucle _ _ _ hr,
      boucleEncadrement_voisins _ _ _ _ hr⟩

/-- Witness for C25: the distances of the row of area 15 in table D, at 1.3 m. -/
theorem encadrement_consecutif_witness :
    ([0, 1.2, 1.5, 2.0, 2.5, 3, 4] : List ℚ).Sorted (· < ·) ∧
      ∃ lo hi, boucleEncadrement [0, 1.2, 1.5, 2.0, 2.5, 3, 4] 1.3 = some (lo, hi) ∧
        encadrement [0, 1.2, 1.5, 2.0, 2.5, 3, 4] 1.3 = some (lo, hi) ∧
        (lo, hi) ∈ ([0, 1.2, 1.5, 2.0, 2.5, 3, 4] : List ℚ).zip
          ([0, 1.2, 1.5, 2.0, 2.5, 3, 4] : List ℚ).tail ∧
        lo ≤ 1.3 ∧ 1.3 ≤ hi :=
  encadrement_consecutif .D [0, 1.2, 1.5, 2.0, 2.5, 3, 4]
    (Or.inr ⟨15, by decide!, by decide!⟩) 1.3 0 4 (by decide!) (by decide!) (by decide!)
    (by decide!)

/-! ## Totality on the built-in tables -/

/-- One stage on a well-formed row: the bracket is found, both ends are entries of the
row, and a non-degenerate bracket has a non-zero width. -/
theorem etape_sans_division_par_zero (ligne : Ligne) (h : LigneBienFormee ligne) (d : ℚ) :
    ∃ dInf dSup pInf pSup, encadrement (cles ligne) d = some (dInf, dSup) ∧
      lirePourcentage ligne (some dInf) = .nombre pInf ∧
      lirePourcentage ligne (some dSup) = .nombre pSup ∧
      (dInf ≠ dSup → dSup - dInf ≠ 0) := by
  obtain ⟨a, b, q, r, e, f, g, _⟩ := etapeInterpolation_exists ligne d h.1 h.2
  exact ⟨a, b, q, r, e, by simp [lirePourcentage, f, Valeur.lire],
    by simp [lirePourcentage, g, Valeur.lire], fun hne => sub_ne_zero.mpr (Ne.symm hne)⟩

/-- C27 (totality on the built-in tables): for every built-in table and every rational
area and distance, negative ones included, the area bracket is found and both its rows
exist; in each of the two rows the distance bracket is found and both corner reads return
a number; every bracket is either degenerate (the no-division branch) or has a non-zero
width; and the interpolator returns a number. -/
theorem interpoler_total (T : TableauIntegre) (surface distance : ℚ) :
    ∃ sInf sSup ligneInf ligneSup,
      encadrement (getPlagesSuperficieDE T.donnees) surface = some (sInf, sSup) ∧
      T.donnees.lookup sInf = some ligneInf ∧ T.donnees.lookup sSup = some ligneSup ∧
      getPlagesDistanceDE T.donnees (some sInf) = .ok (cles ligneInf) ∧
      getPlagesDistanceDE T.donnees (some sSup) = .ok (cles ligneSup) ∧
      (∃ dInf dSup pInf pSup, encadrement (cles ligneInf) distance = some (dInf, dSup) ∧
        lirePourcentage ligneInf (some dInf) = .nombre pInf ∧
        lirePourcentage ligneInf (some dSup) = .nombre pSup ∧
        (dInf = dSup ∨ dSup - dInf ≠ 0)) ∧
      (∃ dInf dSup pInf pSup, encadrement (cles ligneSup) distance = some (dInf, dSup) ∧
        lirePourcentage ligneSup (some dInf) = .nombre pInf ∧
        lirePourcentage ligneSup (some dSup) = .nombre pSup ∧
        (dInf = dSup ∨ dSup - dInf ≠ 0)) ∧
      (sInf = sSup ∨ sSup - sInf ≠ 0) ∧
      ∃ p, T.interpoler surface distance = .ok (.nombre p) := by
  obtain ⟨hne, _, hl⟩ := T.bienForme
  obtain ⟨sInf, sSup, ligneInf, ligneSup, he, hl1, hl2, _⟩ :=
    calculerPourcentageTableauxDE_sans_erreur T.donnees hne surface distance
  have etape : ∀ ligne : Ligne, LigneBienFormee ligne →
      ∃ dInf dSup pInf pSup, encadrement (cles ligne) distance = some (dInf, dSup) ∧
        lirePourcentage ligne (some dInf) = .nombre pInf ∧
        lirePourcentage ligne (some dSup) = .nombre pSup ∧
        (dInf = dSup ∨ dSup - dInf ≠ 0) := by
    intro ligne h
    obtain ⟨a, b, q, r, e, f, g, k⟩ := etape_sans_division_par_zero ligne h distance
    exact ⟨a, b, q, r, e, f, g, (em (a = b)).imp id k⟩
  refine ⟨sInf, sSup, ligneInf, ligneSup, he, hl1, hl2, ?_, ?_,
    etape _ (hl _ (mem_of_lookup hl1)), etape _ (hl _ (mem_of_lookup hl2)),
    (em (sInf = sSup)).imp id (fun hne2 => sub_ne_zero.mpr (Ne.symm hne2)),
    ⟨_, T.interpoler_valeur surface distance⟩⟩
  · simp [getPlagesDistanceDE, hl1]
  · simp [getPlagesDistanceDE, hl2]

/-! ## Range and monotonicity in area -/

/-- The reference interpolation stays between any two bounds of the node values. -/
theorem interpolationLineaire_bornes (noeuds : List (ℚ × ℚ)) (hs : ClesCroissantes noeuds)
    (hne : noeuds ≠ []) (lo hi : ℚ) (h : ∀ n ∈ noeuds, lo ≤ n.2 ∧ n.2 ≤ hi) (x : ℚ) :
    lo ≤ interpolationLineaire noeuds x ∧ interpolationLineaire noeuds x ≤ hi := by
  induction noeuds with
  | nil => exact absurd rfl hne
  | cons n reste ih =>
    obtain ⟨x0, p0⟩ := n
    cases reste with
    | nil => simpa [interpolationLineaire] using h (x0, p0) (List.mem_cons_self _ _)
    | cons m r =>
      obtain ⟨x1, p1⟩ := m
      obtain ⟨hlt, hs2⟩ := clesCroissantes_cons.mp hs
      have h0 := h (x0, p0) (List.mem_cons_self _ _)
      have h1 := h (x1, p1) (List.mem_cons_of_mem _ (List.mem_cons_self _ _))
      simp only [interpolationLineaire]
      by_cases c0 : x ≤ x0
      · simpa [c0] using h0
      · by_cases c1 : x ≤ x1
        · obtain ⟨f0, f1⟩ := fraction_entre (not_le.mp c0) c1
          simp only [c0, c1, if_false, if_true]
          constructor
          · nlinarith [mul_nonneg f0 (sub_nonneg.mpr h1.1),
              mul_nonneg (sub_nonneg.mpr f1) (sub_nonneg.mpr h0.1)]
          · nlinarith [mul_nonneg f0 (sub_nonneg.mpr h1.2),
              mul_nonneg (sub_nonneg.mpr f1) (sub_nonneg.mpr h0.2)]
        · simp only [c0, c1, if_false]
          exact ih hs2 (by simp) fun n hn => h n (List.mem_cons_of_mem _ hn)

/-- Negating the node values negates the reference interpolation. -/
theorem interpolationLineaire_neg (noeuds : List (ℚ × ℚ)) (x : ℚ) :
    interpolationLineaire (noeuds.map fun n => (n.1, -n.2)) x =
      -interpolationLineaire noeuds x := by
  induction noeuds with
  | nil => simp [interpolationLineaire]
  | cons n reste ih =>
    obtain ⟨x0, p0⟩ := n
    cases reste with
    | nil => simp [interpolationLineaire]
    | cons m r =>
      obtain ⟨x1, p1⟩ := m
      simp only [List.map_cons, interpolationLineaire] at ih ⊢
      by_cases c0 : x ≤ x0
      · simp [c0]
      · by_cases c1 : x ≤ x1
        · simp only [c0, c1, if_false, if_true]
          ring
        · simp only [c0, c1, if_false]
          exact ih

/-- With non-increasing node values the reference interpolation is non-increasing. -/
theorem interpolationLineaire_anti (noeuds : List (ℚ × ℚ)) (hs : ClesCroissantes noeuds)
    (hv : noeuds.Pairwise fun n m => m.2 ≤ n.2) (x y : ℚ) (hxy : x ≤ y) :
    interpolationLineaire noeuds y ≤ interpolationLineaire noeuds x := by
  have hs2 : ClesCroissantes (noeuds.map fun n => (n.1, -n.2)) := by
    unfold ClesCroissantes at hs ⊢
    simpa [Function.comp_def] using hs
  have hv2 : ValeursCroissantes (noeuds.map fun n => (n.1, -n.2)) := by
    unfold ValeursCroissantes List.Sorted
    rw [List.map_map, List.pairwise_map]
    exact hv.imp fun hab => by simpa using hab
  have hm := interpolationLineaire_mono _ hs2 hv2 x y hxy
  rw [interpolationLineaire_neg, interpolationLineaire_neg] at hm
  linarith

/-- Every row of every built-in table starts at distance 0. -/
theorem TableauIntegre.premiere_distance_zero (T : TableauIntegre) :
    ∀ al ∈ T.donnees, (al.2.head?).map Prod.fst = some 0 :=
  T.forall_donnees (fun t => ∀ al ∈ t, (al.2.head?).map Prod.fst = some 0)
    (by decide!) (by decide!) (by decide!) (by decide!)

/-- Every tabulated percentage of a built-in table lies between 0 and 100. -/
theorem TableauIntegre.pourcentages_bornes (T : TableauIntegre) :
    ∀ al ∈ T.donnees, ∀ n ∈ al.2, 0 ≤ n.2 ∧ n.2 ≤ 100 := by
  intro al hal n hn
  have hv : (al.2.map Prod.snd).Sorted (· ≤ ·) := T.valeursCroissantes al hal
  have hmem : n.2 ∈ al.2.map Prod.snd := List.mem_map_of_mem _ hn
  have h0 : (al.2.map Prod.snd).head? = some 0 := by
    rw [List.head?_map]
    exact T.premier_zero al hal
  have h100 : (al.2.map Prod.snd).getLast? = some 100 := by
    rw [List.getLast?_map]
    exact T.dernier_cent al hal
  exact ⟨premier_le_of_mem_le hv h0 _ hmem, le_dernier_of_mem_le hv h100 _ hmem⟩

/-- The number a built-in table gives lies between 0 and 100, and is 0 at every distance
that is not positive. -/
theorem TableauIntegre.interpoler_bornes (T : TableauIntegre) (surface distance : ℚ) :
    0 ≤ interpolationLineaire (noeudsSuperficie T.donnees distance) surface ∧
      interpolationLineaire (noeudsSuperficie T.donnees distance) surface ≤ 100 ∧
      (distance ≤ 0 →
        interpolationLineaire (noeudsSuperficie T.donnees distance) surface = 0) := by
  obtain ⟨hne, hs, hl⟩ := T.bienForme
  have hne2 : noeudsSuperficie T.donnees distance ≠ [] := by
    simpa [noeudsSuperficie] using hne
  have hs2 := clesCroissantes_noeudsSuperficie T.donnees hs distance
  have hb := interpolationLineaire_bornes _ hs2 hne2 0 100 (by
    intro n hn
    simp only [noeudsSuperficie, List.mem_map] at hn
    obtain ⟨al, hal, rfl⟩ := hn
    exact interpolationLineaire_bornes al.2 (hl al hal).2 (hl al hal).1 0 100
      (T.pourcentages_bornes al hal) distance) surface
  refine ⟨hb.1, hb.2, fun hd => ?_⟩
  have hz := interpolationLineaire_bornes _ hs2 hne2 0 0 (by
    intro n hn
    simp only [noeudsSuperficie, List.mem_map] at hn
    obtain ⟨al, hal, rfl⟩ := hn
    have hk := T.premiere_distance_zero al hal
    have hp := T.premier_zero al hal
    obtain ⟨a, ligne⟩ := al
    cases ligne with
    | nil => simp at hk
    | cons n0 reste =>
      obtain ⟨x0, p0⟩ := n0
      simp only [List.head?_cons, Option.map_some', Option.some.injEq] at hk hp
      subst hk hp
      have hz := interpolationLineaire_of_le_premier 0 0 reste distance hd
      exact ⟨le_of_eq hz.symm, le_of_eq hz⟩) surface
  exact le_antisymm hz.2 hz.1

/-- C28 (range): for every width, height, optional area, distance, group, division and
sprinkler flag (in particular height > 0, group in A-F and division in 1..3),
`calculerPourcentage` returns a number in the closed interval [0, 100], and that number
is 0 for every distance ≤ 0. -/
theorem calculerPourcentage_intervalle (largeur hauteur distance : ℚ) (usage : String)
    (division : ℤ) (protectionGicleurs : Bool) (surface : Option ℚ) :
    ∃ p, calculerPourcentage largeur hauteur distance usage division protectionGicleurs
        surface = .ok (.nombre p) ∧
      0 ≤ p ∧ p ≤ 100 ∧ (distance ≤ 0 → p = 0) := by
  obtain ⟨T, hT⟩ := calculerPourcentage_eq_interpoler largeur hauteur distance usage
    division protectionGicleurs surface
  exact ⟨_, hT.trans (T.interpoler_valeur _ _), T.interpoler_bornes _ _⟩

/-- C29 (monotonicity in area): for every built-in table, every distance and all areas
s1 ≤ s2, the interpolator returns a number at both queries and the percentage at
(s2, distance) is at most the percentage at (s1, distance); the distance need not be a
breakpoint of any row. -/
theorem interpoler_decroissant_superficie (T : TableauIntegre) (distance s1 s2 : ℚ)
    (h : s1 ≤ s2) :
    ∃ p1 p2, T.interpoler s1 distance = .ok (.nombre p1) ∧
      T.interpoler s2 distance = .ok (.nombre p2) ∧ p2 ≤ p1 := by
  have hb := T.bienForme
  have hp := pairwise_of_verifierDecroissant T.donnees hb.2.2
    (dansGrilles_of_verifier _ T.dansGrilles).2 T.decroissant
  have hv : (noeudsSuperficie T.donnees distance).Pairwise fun n m => m.2 ≤ n.2 := by
    unfold noeudsSuperficie
    rw [List.pairwise_map]
    exact hp.imp fun hab => hab distance
  exact ⟨_, _, T.interpoler_valeur s1 distance, T.interpoler_valeur s2 distance,
    interpolationLineaire_anti _ (clesCroissantes_noeudsSuperficie _ hb.2.1 distance) hv
      s1 s2 h⟩

/-- Witness for C29: table B, category "< 3:1", at 4.7 m, areas 33 and 180. -/
theorem interpoler_decroissant_superficie_witness :
    ∃ p1 p2, calculerPourcentageTableauxBC initialiserTableau3231B "< 3:1" 33 4.7 =
        .ok (.nombre p1) ∧
      calculerPourcentageTableauxBC initialiserTableau3231B "< 3:1" 180 4.7 =
        .ok (.nombre p2) ∧ p2 ≤ p1 :=
  interpoler_decroissant_superficie (.B .moinsDe3) 4.7 33 180 (by norm_num)

/-! ## Conformity as an area bound -/

/-- C31 (conformity is equivalent to the area bound): for every total > 0, every opening
area and every percentage `p`, `verifierConformiteFacade(total, opening, p)`, evaluated
in exact arithmetic (every result of line 864 stored as it is), is true if and only if
`opening ≤ calculerSuperficieMaximale(total, p)`. -/
theorem verifierConformiteFacade_iff_superficieMaximale (surfaceTotaleFacade
    surfaceBaiesNonProtegees pourcentageMaximalAutorise : ℚ) (h : 0 < surfaceTotaleFacade) :
    verifierConformiteFacadeAvec Flottant.fini surfaceTotaleFacade surfaceBaiesNonProtegees
        pourcentageMaximalAutorise = true ↔
      surfaceBaiesNonProtegees ≤
        calculerSuperficieMaximale surfaceTotaleFacade pourcentageMaximalAutorise := by
  have hne : surfaceTotaleFacade ≠ 0 := ne_of_gt h
  rw [verifierConformiteFacadeAvec_exact _ _ _ hne, decide_eq_true_eq,
    calculerSuperficieMaximale, div_mul_eq_mul_div, div_le_iff₀ h,
    le_div_iff₀ (by norm_num : (0 : ℚ) < 100)]
  constructor <;> intro hle <;> linarith

/-- Witness for C31: on a 200 m² facade with a maximum of 25 %, 50 m² of openings is
the bound itself and is conformant. -/
theorem verifierConformiteFacade_iff_superficieMaximale_witness :
    verifierConformiteFacadeAvec Flottant.fini 200 50 25 = true ↔
      50 ≤ calculerSuperficieMaximale 200 25 :=
  verifierConformiteFacade_iff_superficieMaximale 200 50 25 (by norm_num)

/-! ## Ordering of the tables -/

set_option maxHeartbeats 20000000 in
/-- In tables B and C the data of a narrower category is below the data of a wider
one. -/
theorem verifierTableauInferieur_categories :
    verifierTableauInferieur (TableauIntegre.donnees (.B .moinsDe3))
        (TableauIntegre.donnees (.B .de3A10)) = true ∧
      verifierTableauInferieur (TableauIntegre.donnees (.B .de3A10))
        (TableauIntegre.donnees (.B .plusDe10)) = true ∧
      verifierTableauInferieur (TableauIntegre.donnees (.C .moinsDe3))
        (TableauIntegre.donnees (.C .de3A10)) = true ∧
      verifierTableauInferieur (TableauIntegre.donnees (.C .de3A10))
        (TableauIntegre.donnees (.C .plusDe10)) = true := by
  refine ⟨by decide!, by decide!, by decide!, by decide!⟩

set_option maxHeartbeats 20000000 in
/-- In each category the data of table C is below the data of table B. -/
theorem verifierTableauInferieur_C_B (c : Categorie) :
    verifierTableauInferieur (TableauIntegre.donnees (.C c)) (TableauIntegre.donnees (.B c)) =
      true := by
  cases c <;> decide!

set_option maxHeartbeats 20000000 in
/-- The data of table E is below the data of table D. -/
theorem verifierTableauInferieur_E_D :
    verifierTableauInferieur (TableauIntegre.donnees .E) (TableauIntegre.donnees .D) =
      true := by
  decide!

/-- C32 (aspect-ratio categories are ordered): for tables B and C, every area and every
distance, the interpolator returns a number for each of the three categories, and the
percentage for "< 3:1" is at most the one for "3:1 à 10:1", which is at most the one
for "> 10:1". -/
theorem calculerPourcentageTableauxBC_categories_ordonnees (surface distance : ℚ) :
    (∃ p1 p2 p3,
      calculerPourcentageTableauxBC initialiserTableau3231B "< 3:1" surface distance =
        .ok (.nombre p1) ∧
      calculerPourcentageTableauxBC initialiserTableau3231B "3:1 à 10:1" surface distance =
        .ok (.nombre p2) ∧
      calculerPourcentageTableauxBC initialiserTableau3231B "> 10:1" surface distance =
        .ok (.nombre p3) ∧
      p1 ≤ p2 ∧ p2 ≤ p3) ∧
    (∃ p1 p2 p3,
      calculerPourcentageTableauxBC initialiserTableau3231C "< 3:1" surface distance =
        .ok (.nombre p1) ∧
      calculerPourcentageTableauxBC initialiserTableau3231C "3:1 à 10:1" surface distance =
        .ok (.nombre p2) ∧
      calculerPourcentageTableauxBC initialiserTableau3231C "> 10:1" surface distance =
        .ok (.nombre p3) ∧
      p1 ≤ p2 ∧ p2 ≤ p3) := by
  obtain ⟨hB1, hB2, hC1, hC2⟩ := verifierTableauInferieur_categories
  have ordre : ∀ T1 T2 T3 : TableauIntegre,
      verifierTableauInferieur T1.donnees T2.donnees = true →
      verifierTableauInferieur T2.donnees T3.donnees = true →
      ∃ p1 p2 p3, T1.interpoler surface distance = .ok (.nombre p1) ∧
        T2.interpoler surface distance = .ok (.nombre p2) ∧
        T3.interpoler surface distance = .ok (.nombre p3) ∧ p1 ≤ p2 ∧ p2 ≤ p3 := by
    intro T1 T2 T3 h12 h23
    obtain ⟨p1, p2, e1, e2, h1⟩ := T1.interpoler_le T2 h12 surface distance
    obtain ⟨q2, p3, f2, e3, h2⟩ := T2.interpoler_le T3 h23 surface distance
    have hq : q2 = p2 := by
      rw [e2] at f2
      simpa using f2.symm
    subst hq
    exact ⟨p1, q2, p3, e1, e2, e3, h1, h2⟩
  exact ⟨ordre (.B .moinsDe3) (.B .de3A10) (.B .plusDe10) hB1 hB2,
    ordre (.C .moinsDe3) (.C .de3A10) (.C .plusDe10) hC1 hC2⟩

/-- C33 (higher-hazard occupancies are never more permissive): for every width, height,
optional area, distance and sprinkler flag, when one group/division selects table C or E
(group E, or group F with division 1 or 2) and another selects table B or D (any other
group/division), `calculerPourcentage` returns a number for both and the first is at
most the second, all other arguments equal. -/
theorem calculerPourcentage_risque_eleve (usageEleve usage : String)
    (divisionElevee division : ℤ)
    (hEleve : usageEleve = "E" ∨
      (usageEleve = "F" ∧ (divisionElevee = 1 ∨ divisionElevee = 2)))
    (hAutre : ¬ (usage = "E" ∨ (usage = "F" ∧ (division = 1 ∨ division = 2))))
    (largeur hauteur distance : ℚ) (surface : Option ℚ) (protectionGicleurs : Bool) :
    codeTableau usageEleve divisionElevee protectionGicleurs ∈ ["C", "E"] ∧
      codeTableau usage division protectionGicleurs ∈ ["B", "D"] ∧
      ∃ pEleve p,
        calculerPourcentage largeur hauteur distance usageEleve divisionElevee
          protectionGicleurs surface = .ok (.nombre pEleve) ∧
        calculerPourcentage largeur hauteur distance usage division protectionGicleurs
          surface = .ok (.nombre p) ∧
        pEleve ≤ p := by
  obtain ⟨c, hc⟩ := determinerCategorieRapportLH_libelle largeur hauteur
  refine ⟨by cases protectionGicleurs <;> simp [codeTableau, hEleve],
    by cases protectionGicleurs <;> simp [codeTableau, hAutre], ?_⟩
  cases protectionGicleurs
  · have h1 : calculerPourcentage largeur hauteur distance usageEleve divisionElevee false
        surface =
        TableauIntegre.interpoler (.C c) (surface.getD (largeur * hauteur)) distance := by
      cases surface <;>
        simp [calculerPourcentage, codeTableau, hEleve, hc, TableauIntegre.interpoler]
    have h2 : calculerPourcentage largeur hauteur distance usage division false surface =
        TableauIntegre.interpoler (.B c) (surface.getD (largeur * hauteur)) distance := by
      cases surface <;>
        simp [calculerPourcentage, codeTableau, hAutre, hc, TableauIntegre.interpoler]
    rw [h1, h2]
    exact TableauIntegre.interpoler_le _ _ (verifierTableauInferieur_C_B c) _ _
  · have h1 : calculerPourcentage largeur hauteur distance usageEleve divisionElevee true
        surface =
        TableauIntegre.interpoler .E (surface.getD (largeur * hauteur)) distance := by
      cases surface <;>
        simp [calculerPourcentage, codeTableau, hEleve, TableauIntegre.interpoler]
    have h2 : calculerPourcentage largeur hauteur distance usage division true surface =
        TableauIntegre.interpoler .D (surface.getD (largeur * hauteur)) distance := by
      cases surface <;>
        simp [calculerPourcentage, codeTableau, hAutre, TableauIntegre.interpoler]
    rw [h1, h2]
    exact TableauIntegre.interpoler_le _ _ verifierTableauInferieur_E_D _ _

/-- Witness for C33: group F division 2 against group F division 3, a 40 m by 4 m
facade at 6.3 m without sprinklers. -/
theorem calculerPourcentage_risque_eleve_witness :
    codeTableau "F" 2 false ∈ ["C", "E"] ∧
      codeTableau "F" 3 false ∈ ["B", "D"] ∧
      ∃ pEleve p,
        calculerPourcentage 40 4 6.3 "F" 2 false none = .ok (.nombre pEleve) ∧
        calculerPourcentage 40 4 6.3 "F" 3 false none = .ok (.nombre p) ∧
        pEleve ≤ p :=
  calculerPourcentage_risque_eleve "F" "F" 2 3 (by decide) (by decide) 40 4 6.3 none false

end CalculateurBaiesNonProtegees
